import Mathlib

/-!
# chatzy-backend: presence registry, room routing and message delivery

A shallow embedding of `src/config/socketHandler.js`, of the SQL statements it and
`controllers/chatController.js`, `services/chatService.js`, `models/message.model.js` run
against the schema of `src/config/database.js`, followed by theorems about them.

Conventions of the embedding

* The SQLite database is a record of tables (lists of rows).  A statement is a pure function
  on that record; a statement that violates a constraint of the schema returns an error and
  leaves the tables as they were.
* The module variable `db` of `config/database.js` is an `Option Database`; `getDb()` throws
  when it is `null`.
* socket.io is the environment: the set of open sockets with the `user` attached to each by
  the authentication middleware, and the adapter's room membership.  A room name
  `conversation:$id` is `Room.conversation id`; the private room every socket joins under its
  own id is `Room.socket id`.
* A handler returns the server state it leaves and the ordered trace of its effects
  (database writes, emissions, console output).
-/

namespace Chatzy

/-! ## Data model (`config/database.js`) -/

abbrev UserId := Nat
abbrev ConversationId := Nat
abbrev MessageId := Nat
/-- The id socket.io gives a connection (`socket.id`); always truthy in JavaScript. -/
abbrev SocketId := Nat

/-- Column `messages.status`: `CHECK(status IN ('sent', 'delivered', 'read'))`. -/
inductive Status where
  | sent
  | delivered
  | read
  deriving DecidableEq, Repr

/-- The order `sent < delivered < read` of the message lifecycle, as a number. -/
def Status.rank : Status → Nat
  | .sent => 0
  | .delivered => 1
  | .read => 2

/-- Row of `users`, with the columns the socket layer and the message joins read. -/
structure UserRow where
  id : UserId
  username : String
  email : String
  deriving DecidableEq, Repr

/-- Row of `conversations`. -/
structure ConversationRow where
  id : ConversationId
  name : Option String
  type : String
  deriving DecidableEq, Repr

/-- Row of `conversation_participants`. -/
structure ParticipantRow where
  conversation_id : ConversationId
  user_id : UserId
  deriving DecidableEq, Repr

/-- Row of `messages`. -/
structure MessageRow where
  id : MessageId
  conversation_id : ConversationId
  sender_id : UserId
  content : String
  status : Status
  created_at : Nat
  deriving DecidableEq, Repr

/-- Result row of `SELECT m.*, u.username as sender_name FROM messages m JOIN users u ...`. -/
structure MessageWithSender where
  id : MessageId
  conversation_id : ConversationId
  sender_id : UserId
  content : String
  status : Status
  created_at : Nat
  sender_name : String
  deriving DecidableEq, Repr

/-- The tables of the SQLite database, the `sqlite_sequence` counters that `AUTOINCREMENT`
keeps for `messages` and for `conversations`, and the value of `CURRENT_TIMESTAMP`. -/
structure Database where
  users : List UserRow
  conversations : List ConversationRow
  conversation_participants : List ParticipantRow
  messages : List MessageRow
  messages_seq : Nat
  now : Nat
  conversations_seq : Nat := 0
  deriving DecidableEq, Repr

/-- Why a statement was refused. -/
inductive DbError where
  | notInitialized
  | notNull
  | foreignKey
  | check
  | primaryKey
  deriving DecidableEq, Repr

/-- Function `getDb()` of `config/database.js`: throws while the module variable is `null`. -/
def getDb (db : Option Database) : Except DbError Database :=
  match db with
  | none => .error .notInitialized
  | some d => .ok d

namespace Database

/-- Largest `id` among the rows of `messages` (0 for the empty table). -/
def maxMessageId (d : Database) : Nat :=
  d.messages.foldr (fun m acc => max m.id acc) 0

/-- The rowid `AUTOINCREMENT` picks: one more than the largest rowid that ever existed. -/
def nextMessageId (d : Database) : MessageId :=
  max d.messages_seq d.maxMessageId + 1

/-- Statement `INSERT INTO messages (conversation_id, sender_id, content, status)
VALUES (?, ?, ?, ?)`, with `content TEXT NOT NULL` and the two foreign keys enforced
(`PRAGMA foreign_keys = ON`).  Returns the new tables and `lastID`. -/
def insertMessage (d : Database) (conversation_id : ConversationId) (sender_id : UserId)
    (content : Option String) (status : Status) : Except DbError (Database × MessageId) :=
  match content with
  | none => .error .notNull
  | some text =>
    if d.conversations.any (fun c => c.id == conversation_id) = false then .error .foreignKey
    else if d.users.any (fun u => u.id == sender_id) = false then .error .foreignKey
    else
      let lastID := d.nextMessageId
      .ok ({ d with
              messages := d.messages ++
                [{ id := lastID, conversation_id := conversation_id, sender_id := sender_id,
                   content := text, status := status, created_at := d.now }],
              messages_seq := lastID }, lastID)

/-- Statement `UPDATE messages SET status = ? WHERE id = ?`. -/
def setStatus (d : Database) (id : MessageId) (status : Status) : Database :=
  { d with messages :=
      List.map (fun m => if m.id = id then { m with status := status } else m) d.messages }

/-- Statement `UPDATE messages SET status = 'read' WHERE conversation_id = ? AND
sender_id != ? AND status != 'read'` (read-on-fetch). -/
def markConversationRead (d : Database) (conversation_id : ConversationId)
    (user_id : UserId) : Database :=
  { d with messages :=
      List.map (fun m => if m.conversation_id = conversation_id ∧ m.sender_id ≠ user_id ∧
                            m.status ≠ Status.read
                         then { m with status := Status.read } else m) d.messages }

/-- Query `SELECT ... FROM messages WHERE id = ?` through `db.get`: the first matching row. -/
def findMessage (d : Database) (id : MessageId) : Option MessageRow :=
  d.messages.find? (fun m => m.id == id)

/-- Query `SELECT sender_id FROM messages WHERE id = ?`. -/
def getSenderId (d : Database) (id : MessageId) : Option UserId :=
  (d.findMessage id).map (fun m => m.sender_id)

/-- The stored status of message `id`. -/
def statusOf (d : Database) (id : MessageId) : Option Status :=
  (d.findMessage id).map (fun m => m.status)

/-- Query `SELECT m.*, u.username as sender_name FROM messages m JOIN users u
ON m.sender_id = u.id WHERE m.id = ?`. -/
def getMessageWithSender (d : Database) (id : MessageId) : Option MessageWithSender :=
  match d.findMessage id with
  | none => none
  | some m =>
    match d.users.find? (fun u => u.id == m.sender_id) with
    | none => none
    | some u =>
      some { id := m.id, conversation_id := m.conversation_id, sender_id := m.sender_id,
             content := m.content, status := m.status, created_at := m.created_at,
             sender_name := u.username }

/-- Query `SELECT 1 FROM conversation_participants WHERE conversation_id = ? AND user_id = ?`:
whether a row came back. -/
def isParticipant (d : Database) (conversation_id : ConversationId) (user_id : UserId) : Bool :=
  d.conversation_participants.any
    (fun p => p.conversation_id == conversation_id && p.user_id == user_id)

/-- Query `SELECT user_id FROM conversation_participants WHERE conversation_id = ? AND
user_id != ?`. -/
def otherParticipants (d : Database) (conversation_id : ConversationId)
    (user_id : UserId) : List UserId :=
  (d.conversation_participants.filter
    (fun p => p.conversation_id == conversation_id && p.user_id != user_id)).map
    (fun p => p.user_id)

end Database

/-- A statement that changes `messages`, as it appears in the trace of a handler. -/
inductive Write where
  | insertMessage (conversation_id : ConversationId) (sender_id : UserId)
      (content : Option String) (status : Status)
  | setStatus (id : MessageId) (status : Status)
  | markConversationRead (conversation_id : ConversationId) (user_id : UserId)
  deriving DecidableEq, Repr

/-- Run one statement; a refused insert leaves the tables unchanged. -/
def Write.exec (w : Write) (d : Database) : Database :=
  match w with
  | .insertMessage c s content status =>
    match d.insertMessage c s content status with
    | .ok (d1, _) => d1
    | .error _ => d
  | .setStatus id status => d.setStatus id status
  | .markConversationRead c u => d.markConversationRead c u

/-! ## The socket layer (`config/socketHandler.js`) -/

/-- A JavaScript `Map` from user id to socket id, with the four methods the handlers call. -/
structure UserMap where
  entries : List (UserId × SocketId)
  deriving DecidableEq, Repr

namespace UserMap

/-- Expression `new Map()`. -/
def empty : UserMap := ⟨[]⟩

/-- Method `Map.prototype.get`. -/
def get (m : UserMap) (key : UserId) : Option SocketId :=
  (m.entries.find? (fun e => e.1 == key)).map (fun e => e.2)

/-- Method `Map.prototype.has`. -/
def has (m : UserMap) (key : UserId) : Bool :=
  m.entries.any (fun e => e.1 == key)

/-- Method `Map.prototype.delete`. -/
def delete (m : UserMap) (key : UserId) : UserMap :=
  ⟨m.entries.filter (fun e => e.1 != key)⟩

/-- Method `Map.prototype.set`: the key keeps one entry, holding the new value. -/
def set (m : UserMap) (key : UserId) (value : SocketId) : UserMap :=
  ⟨(key, value) :: (m.delete key).entries⟩

end UserMap

/-- A socket.io room name. -/
inductive Room where
  | socket (id : SocketId)
  | conversation (id : ConversationId)
  deriving DecidableEq, Repr

/-- An event the server emits, with its payload; the argument names are the payload's
field names. -/
inductive Emitted where
  | error (message : String)
  | message_error (error : String)
  | message_sent (messageId : MessageId) (status : Status)
  | new_message (message : MessageWithSender)
  | message_status (messageId : MessageId) (status : Status)
  | user_typing (userId : UserId) (conversationId : ConversationId)
  | user_stopped_typing (userId : UserId) (conversationId : ConversationId)
  deriving DecidableEq, Repr

/-- How an emission is addressed: `socket.emit`, `io.to(room).emit`, `socket.to(room).emit`. -/
inductive Target where
  | socket (id : SocketId)
  | room (room : Room)
  | roomExcept (room : Room) (origin : SocketId)
  deriving DecidableEq, Repr

/-- One observable effect of a handler. -/
inductive Effect where
  | write (w : Write)
  | emit (target : Target) (recipients : List SocketId) (event : Emitted)
  | console (isError : Bool) (text : String)
  deriving DecidableEq, Repr

/-- State of the process: the database handle, the two `connectedUsers` maps (the exported
module-level one and the one created inside `setupSocketHandlers`), the open sockets with
their `socket.user.id`, and the adapter's room membership. -/
structure Server where
  db : Option Database
  moduleConnectedUsers : UserMap
  connectedUsers : UserMap
  sockets : List (SocketId × UserId)
  rooms : List (SocketId × Room)
  deriving DecidableEq, Repr

/-- What a handler leaves behind. -/
structure Outcome where
  server : Server
  trace : List Effect
  deriving DecidableEq, Repr

namespace Server

/-- State right after `startServer`: database open, nobody connected. -/
def start (d : Database) : Server :=
  { db := some d, moduleConnectedUsers := UserMap.empty, connectedUsers := UserMap.empty,
    sockets := [], rooms := [] }

/-- The sockets currently in `room`. -/
def members (sv : Server) (room : Room) : List SocketId :=
  (sv.rooms.filter (fun e => e.2 == room)).map (fun e => e.1)

/-- The `socket.user.id` of an open socket. -/
def userOf (sv : Server) (socketId : SocketId) : Option UserId :=
  (sv.sockets.find? (fun e => e.1 == socketId)).map (fun e => e.2)

/-- The open sockets of a user. -/
def connectionsOf (sv : Server) (userId : UserId) : List SocketId :=
  (sv.sockets.filter (fun e => e.2 == userId)).map (fun e => e.1)

/-- Method `socket.join(room)`. -/
def joinRoom (sv : Server) (socketId : SocketId) (room : Room) : Server :=
  if sv.rooms.contains (socketId, room) then sv
  else { sv with rooms := sv.rooms ++ [(socketId, room)] }

/-- Method `socket.leave(room)`. -/
def leaveRoom (sv : Server) (socketId : SocketId) (room : Room) : Server :=
  { sv with rooms := sv.rooms.filter (fun e => !(e.1 == socketId && e.2 == room)) }

end Server

/-- Callback of `io.on('connection')` up to the registration of the handlers: socket.io has
added the socket and put it in its own room; the callback stores it in `connectedUsers`. -/
def connection (sv : Server) (socketId : SocketId) (userId : UserId) : Outcome :=
  { server :=
      { sv with
        sockets := sv.sockets ++ [(socketId, userId)],
        rooms := sv.rooms ++ [(socketId, Room.socket socketId)],
        connectedUsers := sv.connectedUsers.set userId socketId },
    trace := [.console false "User connected:"] }

/-- Handler `socket.on('disconnect')`: socket.io has removed the socket from every room; the
handler deletes the user's key. -/
def disconnect (sv : Server) (socketId : SocketId) (userId : UserId) : Outcome :=
  { server :=
      { sv with
        sockets := sv.sockets.filter (fun e => e.1 != socketId),
        rooms := sv.rooms.filter (fun e => e.1 != socketId),
        connectedUsers := sv.connectedUsers.delete userId },
    trace := [.console false "User disconnected:"] }

/-- Handler `socket.on('join_conversation')`. -/
def join_conversation (sv : Server) (socketId : SocketId) (userId : UserId)
    (conversationId : ConversationId) : Outcome :=
  match getDb sv.db with
  | .error _ =>
    { server := sv,
      trace := [.console true "Join conversation error:",
                .emit (.socket socketId) [socketId] (.error "Failed to join conversation")] }
  | .ok db =>
    if db.isParticipant conversationId userId = false then
      { server := sv,
        trace := [.emit (.socket socketId) [socketId]
                    (.error "Not authorized to join this conversation")] }
    else
      { server := sv.joinRoom socketId (Room.conversation conversationId),
        trace := [.console false "joined conversation"] }

/-- Handler `socket.on('leave_conversation')`. -/
def leave_conversation (sv : Server) (socketId : SocketId)
    (conversationId : ConversationId) : Outcome :=
  { server := sv.leaveRoom socketId (Room.conversation conversationId),
    trace := [.console false "left conversation"] }

/-- The `catch` block of `send_message`, entered with the state and trace reached so far. -/
def send_message_failed (sv : Server) (socketId : SocketId) (done : List Effect) : Outcome :=
  { server := sv,
    trace := done ++ [.console true "Send message error:",
                      .emit (.socket socketId) [socketId]
                        (.message_error "Failed to send message")] }

/-- Handler `socket.on('send_message')` for a payload `data` with fields `conversationId`
and `content` (`none` is a `content` that binds as SQL NULL). -/
def send_message (sv : Server) (socketId : SocketId) (userId : UserId)
    (conversationId : ConversationId) (content : Option String) : Outcome :=
  match getDb sv.db with
  | .error _ => send_message_failed sv socketId []
  | .ok db =>
    match db.insertMessage conversationId userId content Status.sent with
    | .error _ => send_message_failed sv socketId []
    | .ok (db1, lastID) =>
      let inserted := Effect.write (.insertMessage conversationId userId content Status.sent)
      let message := db1.getMessageWithSender lastID
      let participants := db1.otherParticipants conversationId userId
      let onlineParticipants := participants.filter (fun p => sv.connectedUsers.has p)
      if onlineParticipants.length > 0 then
        let db2 := db1.setStatus lastID Status.delivered
        let updated := Effect.write (.setStatus lastID Status.delivered)
        match message with
        | none => send_message_failed { sv with db := some db2 } socketId [inserted, updated]
        | some m =>
          let message1 := { m with status := Status.delivered }
          { server := { sv with db := some db2 },
            trace := [inserted, updated,
                      .emit (.socket socketId) [socketId]
                        (.message_sent lastID message1.status),
                      .emit (.room (Room.conversation conversationId))
                        (sv.members (Room.conversation conversationId))
                        (.new_message message1)] }
      else
        match message with
        | none => send_message_failed { sv with db := some db1 } socketId [inserted]
        | some m =>
          { server := { sv with db := some db1 },
            trace := [inserted,
                      .emit (.socket socketId) [socketId] (.message_sent lastID m.status),
                      .emit (.room (Room.conversation conversationId))
                        (sv.members (Room.conversation conversationId))
                        (.new_message m)] }

/-- Handler `socket.on('message_delivered')` for a payload with field `messageId`. -/
def message_delivered (sv : Server) (messageId : MessageId) : Outcome :=
  match getDb sv.db with
  | .error _ => { server := sv, trace := [.console true "Message status update error:"] }
  | .ok db =>
    let db1 := db.setStatus messageId Status.delivered
    let updated := Effect.write (.setStatus messageId Status.delivered)
    match db1.getSenderId messageId with
    | none =>
      { server := { sv with db := some db1 },
        trace := [updated, .console true "Message status update error:"] }
    | some sender_id =>
      match sv.connectedUsers.get sender_id with
      | none => { server := { sv with db := some db1 }, trace := [updated] }
      | some senderSocket =>
        { server := { sv with db := some db1 },
          trace := [updated,
                    .emit (.room (Room.socket senderSocket))
                      (sv.members (Room.socket senderSocket))
                      (.message_status messageId Status.delivered)] }

/-- Handler `socket.on('message_read')` for a payload with field `messageId`. -/
def message_read (sv : Server) (messageId : MessageId) : Outcome :=
  match getDb sv.db with
  | .error _ => { server := sv, trace := [.console true "Message status update error:"] }
  | .ok db =>
    let db1 := db.setStatus messageId Status.read
    let updated := Effect.write (.setStatus messageId Status.read)
    match db1.getSenderId messageId with
    | none =>
      { server := { sv with db := some db1 },
        trace := [updated, .console true "Message status update error:"] }
    | some sender_id =>
      match sv.connectedUsers.get sender_id with
      | none => { server := { sv with db := some db1 }, trace := [updated] }
      | some senderSocket =>
        { server := { sv with db := some db1 },
          trace := [updated,
                    .emit (.room (Room.socket senderSocket))
                      (sv.members (Room.socket senderSocket))
                      (.message_status messageId Status.read)] }

/-- Handler `socket.on('typing_start')`. -/
def typing_start (sv : Server) (socketId : SocketId) (userId : UserId)
    (conversationId : ConversationId) : Outcome :=
  { server := sv,
    trace := [.emit (.roomExcept (Room.conversation conversationId) socketId)
                ((sv.members (Room.conversation conversationId)).filter
                  (fun s => s != socketId))
                (.user_typing userId conversationId)] }

/-- Handler `socket.on('typing_stop')`. -/
def typing_stop (sv : Server) (socketId : SocketId) (userId : UserId)
    (conversationId : ConversationId) : Outcome :=
  { server := sv,
    trace := [.emit (.roomExcept (Room.conversation conversationId) socketId)
                ((sv.members (Room.conversation conversationId)).filter
                  (fun s => s != socketId))
                (.user_stopped_typing userId conversationId)] }

/-! ## Event loop -/

/-- An inbound event.  Socket events name the socket they arrive on; `http` is a change of
the tables made by a REST controller between two socket events. -/
inductive Inbound where
  | connection (socketId : SocketId) (userId : UserId)
  | disconnect (socketId : SocketId)
  | join_conversation (socketId : SocketId) (conversationId : ConversationId)
  | leave_conversation (socketId : SocketId) (conversationId : ConversationId)
  | send_message (socketId : SocketId) (conversationId : ConversationId)
      (content : Option String)
  | message_delivered (socketId : SocketId) (messageId : MessageId)
  | message_read (socketId : SocketId) (messageId : MessageId)
  | typing_start (socketId : SocketId) (conversationId : ConversationId)
  | typing_stop (socketId : SocketId) (conversationId : ConversationId)
  | http (update : Database → Database)

/-- Dispatch one inbound event.  A connection needs a socket id not in use; every other
socket event needs an open socket, and runs with the `userId` captured when it connected.
`none` when the event cannot occur in this state. -/
def step (sv : Server) (ev : Inbound) : Option Outcome :=
  match ev with
  | .connection socketId userId =>
    match sv.userOf socketId with
    | some _ => none
    | none => some (connection sv socketId userId)
  | .disconnect socketId =>
    (sv.userOf socketId).map (fun userId => disconnect sv socketId userId)
  | .join_conversation socketId conversationId =>
    (sv.userOf socketId).map (fun userId => join_conversation sv socketId userId conversationId)
  | .leave_conversation socketId conversationId =>
    (sv.userOf socketId).map (fun _ => leave_conversation sv socketId conversationId)
  | .send_message socketId conversationId content =>
    (sv.userOf socketId).map
      (fun userId => send_message sv socketId userId conversationId content)
  | .message_delivered socketId messageId =>
    (sv.userOf socketId).map (fun _ => message_delivered sv messageId)
  | .message_read socketId messageId =>
    (sv.userOf socketId).map (fun _ => message_read sv messageId)
  | .typing_start socketId conversationId =>
    (sv.userOf socketId).map (fun userId => typing_start sv socketId userId conversationId)
  | .typing_stop socketId conversationId =>
    (sv.userOf socketId).map (fun userId => typing_stop sv socketId userId conversationId)
  | .http update => some { server := { sv with db := sv.db.map update }, trace := [] }

/-- Run a sequence of inbound events, each handler to completion before the next. -/
def run (sv : Server) : List Inbound → Option Server
  | [] => some sv
  | ev :: rest =>
    match step sv ev with
    | none => none
    | some out => run out.server rest

/-! ## Statements on `messages.status` -/

/-- The statements through which the code writes a message's status, one constructor per
place in the source. -/
inductive Statement where
  /-- Statement of `send_message`: `INSERT ... VALUES (?, ?, ?, 'sent')`. -/
  | send_insert (conversation_id : ConversationId) (sender_id : UserId)
      (content : Option String)
  /-- Statement of `send_message`: `UPDATE messages SET status = 'delivered' WHERE id = ?`. -/
  | send_update (id : MessageId)
  /-- Statement of `message_delivered`: `UPDATE messages SET status = 'delivered' WHERE id = ?`. -/
  | message_delivered (id : MessageId)
  /-- Statement of `message_read`: `UPDATE messages SET status = 'read' WHERE id = ?`. -/
  | message_read (id : MessageId)
  /-- Statement of `ChatService.markMessageAsRead`, run by `Message.updateStatus('read')`. -/
  | markMessageAsRead (id : MessageId)
  /-- Statement of `getMessages`: the bulk update of read-on-fetch. -/
  | getMessages (conversation_id : ConversationId) (user_id : UserId)
  deriving DecidableEq, Repr

/-- The SQL a statement runs. -/
def Statement.write : Statement → Write
  | .send_insert c s content => .insertMessage c s content Status.sent
  | .send_update id => .setStatus id Status.delivered
  | .message_delivered id => .setStatus id Status.delivered
  | .message_read id => .setStatus id Status.read
  | .markMessageAsRead id => .setStatus id Status.read
  | .getMessages c u => .markConversationRead c u

/-- Run statements one after the other, each atomically, in the given interleaving. -/
def runStatements (d : Database) (stmts : List Statement) : Database :=
  stmts.foldl (fun acc s => s.write.exec acc) d

/-- The stored status of message `id`, when the database is open. -/
def Server.statusOf (sv : Server) (id : MessageId) : Option Status :=
  match sv.db with
  | none => none
  | some d => d.statusOf id

/-! ## Sample data -/

/-- Two users, both participants of conversation 7; no message yet. -/
def sampleDb : Database :=
  { users := [{ id := 1, username := "alice", email := "alice@example.org" },
              { id := 2, username := "bob", email := "bob@example.org" }],
    conversations := [{ id := 7, name := none, type := "direct" }],
    conversation_participants := [{ conversation_id := 7, user_id := 1 },
                                  { conversation_id := 7, user_id := 2 }],
    messages := [],
    messages_seq := 0,
    now := 1000 }

/-- The sample database after alice sent "hi" and bob read it: message 1 is `read`. -/
def sampleDbRead : Database :=
  runStatements sampleDb [.send_insert 7 1 (some "hi"), .message_read 1]

/-! ## Invariants of the socket layer -/

/-- What every reachable state satisfies: socket ids are unique, a socket id stored in
`connectedUsers` is an open socket of that user, and the private room of a socket holds
that socket and nothing else while it is open. -/
structure Server.Consistent (sv : Server) : Prop where
  socketIds_nodup : (sv.sockets.map Prod.fst).Nodup
  registry_sound : ∀ u s, sv.connectedUsers.get u = some s → (s, u) ∈ sv.sockets
  own_room : ∀ x s, (x, Room.socket s) ∈ sv.rooms ↔ x = s ∧ s ∈ sv.sockets.map Prod.fst

/-- No user holds two open connections. -/
def Server.singleConnections (sv : Server) : Bool :=
  decide ((sv.sockets.map Prod.snd).Nodup)

/-- Predicate `p` holds in every state a run passes through, first and last included. -/
def always (p : Server → Bool) (sv : Server) : List Inbound → Bool
  | [] => p sv
  | ev :: rest =>
    p sv && (match step sv ev with
             | none => true
             | some out => always p out.server rest)

/-- The state after alice (socket 10) and bob (socket 20) connected and alice left. -/
def sampleBobOnline : Server :=
  { db := some sampleDb, moduleConnectedUsers := UserMap.empty,
    connectedUsers := ⟨[(2, 20)]⟩, sockets := [(20, 2)], rooms := [(20, Room.socket 20)] }

/-- The sample database after alice sent "hi" to conversation 7: message 1 is `sent`. -/
def sampleDbSent : Database :=
  runStatements sampleDb [.send_insert 7 1 (some "hi")]

/-- The state after alice (socket 10) and bob (socket 20) connected and both joined the room
of conversation 7, bob first. -/
def sampleOnline : Server :=
  { db := some sampleDb, moduleConnectedUsers := UserMap.empty,
    connectedUsers := ⟨[(2, 20), (1, 10)]⟩, sockets := [(10, 1), (20, 2)],
    rooms := [(10, Room.socket 10), (20, Room.socket 20), (20, Room.conversation 7),
              (10, Room.conversation 7)] }

/-! ## Reading a trace -/

/-- Whether an effect is an emission. -/
def Effect.isEmit : Effect → Bool
  | .emit _ _ _ => true
  | _ => false

/-- Whether an effect is a database write. -/
def Effect.isWrite : Effect → Bool
  | .write _ => true
  | _ => false

/-- The emissions of a trace, in order. -/
def emissions (trace : List Effect) : List Effect :=
  trace.filter Effect.isEmit

/-- The message id and the status that an emission announces, if it announces one. -/
def Effect.carriedStatus : Effect → Option (MessageId × Status)
  | .emit _ _ (.message_sent messageId status) => some (messageId, status)
  | .emit _ _ (.new_message message) => some (message.id, message.status)
  | .emit _ _ (.message_status messageId status) => some (messageId, status)
  | _ => none

/-- The database reached from `d` by the writes of a trace, in order. -/
def replay (d : Database) (trace : List Effect) : Database :=
  trace.foldl
    (fun acc e =>
      match e with
      | .write w => w.exec acc
      | _ => acc) d

/-- The sample state with message 1 from alice stored as `sent`. -/
def sampleOnlineSent : Server :=
  { sampleOnline with db := some sampleDbSent }

/-- Alice holds two connections (sockets 10 and 11), bob one (socket 20), and alice has sent
"hi" to conversation 7 from socket 10. -/
def sampleTwoDevices : Option Server :=
  run (Server.start sampleDb)
    [.connection 10 1, .connection 11 1, .connection 20 2, .send_message 10 7 (some "hi")]

/-- The state with only bob online (socket 20) and message 1 from alice stored as `sent`. -/
def sampleBobOnlineSent : Server :=
  { sampleBobOnline with db := some sampleDbSent }

/-- The sample database with message 1 from alice and a third user, carol, who is a
participant of no conversation. -/
def sampleDbCarol : Database :=
  { sampleDbSent with
    users := sampleDbSent.users ++
      [{ id := 3, username := "carol", email := "carol@example.org" }] }

/-- Alice is online on socket 10 and carol on socket 30. -/
def sampleCarolOnline : Option Server :=
  run (Server.start sampleDbCarol) [.connection 10 1, .connection 30 3]

/-! ## Listeners and the process (`server.js`) -/

/-- The argument a client sends with `message_delivered` or `message_read`. -/
inductive StatusPayload where
  /-- No argument, `undefined` or `null`. -/
  | nullish
  /-- An object with a `messageId` property. -/
  | object (messageId : MessageId)
  deriving DecidableEq, Repr

/-- How the promise returned by an `async` listener settles. -/
inductive Settled where
  | fulfilled (out : Outcome)
  | rejected
  deriving DecidableEq, Repr

/-- The listener `async ({ messageId }) => ...` of `message_delivered`, called with what the
client sent.  Binding the parameter pattern to a nullish value throws before the `try`
block is entered, so the promise the listener returns is rejected. -/
def message_delivered_listener (sv : Server) (payload : StatusPayload) : Settled :=
  match payload with
  | .nullish => .rejected
  | .object messageId => .fulfilled (message_delivered sv messageId)

/-- The listener `async ({ messageId }) => ...` of `message_read`. -/
def message_read_listener (sv : Server) (payload : StatusPayload) : Settled :=
  match payload with
  | .nullish => .rejected
  | .object messageId => .fulfilled (message_read sv messageId)

/-- The listener `async (data) => ...` of `send_message`; `none` is a nullish `data`.  The
pattern `{ conversationId, content } = data` is bound inside the `try` block, so its
`TypeError` goes to the `catch` block. -/
def send_message_listener (sv : Server) (socketId : SocketId) (userId : UserId)
    (data : Option (ConversationId × Option String)) : Settled :=
  match data with
  | none => .fulfilled (send_message_failed sv socketId [])
  | some (conversationId, content) =>
    .fulfilled (send_message sv socketId userId conversationId content)

/-- State of the Node process. -/
inductive Process where
  | running (sv : Server)
  | exited (code : Nat)
  deriving DecidableEq, Repr

/-- What happens once a listener's promise has settled.  socket.io drops the promise, so a
rejection reaches `process.on('unhandledRejection')` of `server.js`, which calls
`process.exit(1)`. -/
def Process.afterListener : Settled → Process
  | .fulfilled out => .running out.server
  | .rejected => .exited 1

/-! ## The handshake (`io.use` in `config/socketHandler.js`) -/

/-- JavaScript truthiness of a value that is a string or `undefined`: both `undefined` and
the empty string are falsy. -/
def truthy (value : Option String) : Bool :=
  match value with
  | none => false
  | some s => decide (s ≠ "")

/-- Operator `a || b`: the left operand when it is truthy, else the right one. -/
def jsOr (a b : Option String) : Option String :=
  if truthy a then a else b

/-- Method `split(' ')` on the characters of a string: the first field and the fields after
it. -/
def splitAtSpaces : List Char → List Char × List (List Char)
  | [] => ([], [])
  | c :: rest =>
    let (field, fields) := splitAtSpaces rest
    if c = ' ' then ([], field :: fields) else (c :: field, fields)

/-- Expression `authorization?.split(' ')[1]`. -/
def bearerField (authorization : Option String) : Option String :=
  match authorization with
  | none => none
  | some header => ((splitAtSpaces header.data).2.head?).map String.mk

/-- The three places of `socket.handshake` where a token is looked for. -/
structure Handshake where
  query_token : Option String
  headers_authorization : Option String
  auth_token : Option String
  deriving DecidableEq, Repr

/-- Expression `socket.handshake.query.token || socket.handshake.headers.authorization
?.split(' ')[1] || socket.handshake.auth?.token`. -/
def extractToken (h : Handshake) : Option String :=
  jsOr (jsOr h.query_token (bearerField h.headers_authorization)) h.auth_token

/-- The payload `jwt.verify` returns for a token it accepts. -/
structure Decoded where
  userId : Option UserId
  deriving DecidableEq, Repr

/-- How the middleware calls `next`: without an error, `socket.user` being set, or with one. -/
inductive AuthResult where
  | accepted (user : UserRow)
  | refused (message : String)
  deriving DecidableEq, Repr

/-- What the middleware leaves behind. -/
structure HandshakeOutcome where
  result : AuthResult
  trace : List Effect
  deriving DecidableEq, Repr

/-- The `catch` block of the middleware. -/
def authenticate_failed : HandshakeOutcome :=
  { result := .refused "Invalid token",
    trace := [.console true "Socket authentication error:"] }

/-- The authentication middleware given to `io.use`.  The function `verify` stands for
`jwt.verify(token, process.env.JWT_SECRET)` of the `jsonwebtoken` package: `none` when it
throws. -/
def authenticate (verify : String → Option Decoded) (db : Option Database)
    (h : Handshake) : HandshakeOutcome :=
  if truthy (extractToken h) = false then
    { result := .refused "Authentication required", trace := [] }
  else
    match (extractToken h).bind verify with
    | none => authenticate_failed
    | some decoded =>
      match getDb db with
      | .error _ => authenticate_failed
      | .ok d =>
        match decoded.userId.bind (fun id => d.users.find? (fun u => u.id == id)) with
        | none => { result := .refused "User not found", trace := [] }
        | some user => { result := .accepted user, trace := [] }

/-- A connection attempt: the middleware, and the `connection` callback when the middleware
called `next()` without an error. -/
def connect (verify : String → Option Decoded) (sv : Server) (socketId : SocketId)
    (h : Handshake) : Outcome :=
  match (authenticate verify sv.db h).result with
  | .refused _ => { server := sv, trace := (authenticate verify sv.db h).trace }
  | .accepted user =>
    { server := (connection sv socketId user.id).server,
      trace := (authenticate verify sv.db h).trace ++ (connection sv socketId user.id).trace }

/-- A sample `jwt.verify`: the token "alice-token" decodes to user 1, "ghost-token" to user
99, "empty-token" to a payload without `userId`; every other token is rejected. -/
def sampleVerify (token : String) : Option Decoded :=
  if token = "alice-token" then some { userId := some 1 }
  else if token = "ghost-token" then some { userId := some 99 }
  else if token = "empty-token" then some { userId := none }
  else none

/-- The sample state after alice left, bob left, and bob connected again on socket 21. -/
def sampleBobReconnected : Server :=
  { db := some sampleDb, moduleConnectedUsers := UserMap.empty,
    connectedUsers := ⟨[(2, 21)]⟩, sockets := [(21, 2)], rooms := [(21, Room.socket 21)] }

/-! ## Message history over REST (`controllers/chatController.js`, `services/chatService.js`) -/

/-- Put a row before the first row that is not newer than it. -/
def insertNewestFirst (row : MessageWithSender) : List MessageWithSender → List MessageWithSender
  | [] => [row]
  | head :: rest =>
    if head.created_at < row.created_at then row :: head :: rest
    else head :: insertNewestFirst row rest

/-- Clause `ORDER BY m.created_at DESC`; rows with the same `created_at` keep the order of
the table. -/
def orderNewestFirst (rows : List MessageWithSender) : List MessageWithSender :=
  rows.foldr insertNewestFirst []

/-- Clause `LIMIT ?`: a negative limit is no limit. -/
def sqlLimit (limit : Int) (rows : List MessageWithSender) : List MessageWithSender :=
  if limit < 0 then rows else rows.take limit.toNat

/-- Query `SELECT m.*, u.username as sender_name FROM messages m JOIN users u ON m.sender_id
= u.id WHERE m.conversation_id = ? [AND m.created_at < ?] ORDER BY m.created_at DESC
LIMIT ?`. -/
def Database.selectMessages (d : Database) (conversation_id : ConversationId)
    (before : Option Nat) (limit : Int) : List MessageWithSender :=
  let rows := d.messages.filter
    (fun m => m.conversation_id == conversation_id &&
      (match before with
       | none => true
       | some t => decide (m.created_at < t)))
  let joined := rows.filterMap
    (fun m => (d.users.find? (fun u => u.id == m.sender_id)).map
      (fun u => { id := m.id, conversation_id := m.conversation_id, sender_id := m.sender_id,
                  content := m.content, status := m.status, created_at := m.created_at,
                  sender_name := u.username }))
  sqlLimit limit (orderNewestFirst joined)

/-- What a controller sends back. -/
inductive HttpResponse where
  | messages (status : Nat) (rows : List MessageWithSender)
  | error (status : Nat) (error : String)
  deriving DecidableEq, Repr

/-- What a REST call leaves behind. -/
structure HttpOutcome where
  db : Option Database
  response : HttpResponse
  deriving DecidableEq, Repr

/-- Controller `getMessages(req, res)` behind `GET /conversations/:conversationId/messages`,
for the user `req.user.id`.  Here `conversationId` is `parseInt(req.params.conversationId,
10)` with `none` for `NaN`, `before` is the time of `new Date(req.query.before)` with `none`
when the parameter is absent or not a date, and `limit` is `parseInt(req.query.limit, 10)`
with `none` for `NaN`. -/
def getMessages (db : Option Database) (userId : UserId)
    (conversationId : Option ConversationId) (before : Option Nat)
    (limit : Option Int) : HttpOutcome :=
  match getDb db with
  | .error _ => { db := db, response := .error 500 "Error fetching messages" }
  | .ok d =>
    match conversationId with
    | none => { db := db, response := .error 400 "Invalid conversation ID" }
    | some conversationIdNum =>
      if d.isParticipant conversationIdNum userId = false then
        { db := db, response := .error 403 "Not authorized to access this conversation" }
      else
        let limitNum : Int :=
          match limit with
          | none => 50
          | some n => if n = 0 then 50 else n
        let messages := d.selectMessages conversationIdNum before limitNum
        { db := some (d.markConversationRead conversationIdNum userId),
          response := .messages 200 messages }

/-- What a call of `ChatService.getMessages` leaves behind: the database and the value
returned or the message of the error thrown. -/
structure ServiceOutcome where
  db : Option Database
  result : Except String (List MessageWithSender)

/-- Method `ChatService.getMessages(conversationId, userId, { limit, before })`, with
`limit` the value of `parseInt(limit)`. -/
def ChatService.getMessages (db : Option Database) (conversationId : ConversationId)
    (userId : UserId) (limit : Int) (before : Option Nat) : ServiceOutcome :=
  match getDb db with
  | .error _ => { db := db, result := .error "Database not initialized" }
  | .ok d =>
    if d.isParticipant conversationId userId = false then
      { db := db, result := .error "Not authorized to access this conversation" }
    else
      let messages := d.selectMessages conversationId before limit
      { db := some (d.markConversationRead conversationId userId),
        result := .ok messages.reverse }

/-- Alice and bob exchanged three messages in conversation 7, carol and bob one in
conversation 8; bob has read nothing yet. -/
def sampleDbHistory : Database :=
  { users := [{ id := 1, username := "alice", email := "alice@example.org" },
              { id := 2, username := "bob", email := "bob@example.org" },
              { id := 3, username := "carol", email := "carol@example.org" }],
    conversations := [{ id := 7, name := none, type := "direct" },
                      { id := 8, name := none, type := "direct" }],
    conversation_participants := [{ conversation_id := 7, user_id := 1 },
                                  { conversation_id := 7, user_id := 2 },
                                  { conversation_id := 8, user_id := 2 },
                                  { conversation_id := 8, user_id := 3 }],
    messages := [{ id := 1, conversation_id := 7, sender_id := 1, content := "hi",
                   status := Status.sent, created_at := 1000 },
                 { id := 2, conversation_id := 7, sender_id := 2, content := "hello",
                   status := Status.delivered, created_at := 1001 },
                 { id := 3, conversation_id := 8, sender_id := 3, content := "ping",
                   status := Status.sent, created_at := 1002 },
                 { id := 4, conversation_id := 7, sender_id := 1, content := "news?",
                   status := Status.delivered, created_at := 1003 }],
    messages_seq := 4,
    now := 1004 }

/-! ## Names and payloads of the emitted events -/

/-- The name under which an event is emitted (first argument of `emit`). -/
def Emitted.eventName : Emitted → String
  | .error _ => "error"
  | .message_error _ => "message_error"
  | .message_sent _ _ => "message_sent"
  | .new_message _ => "new_message"
  | .message_status _ _ => "message_status"
  | .user_typing _ _ => "user_typing"
  | .user_stopped_typing _ _ => "user_stopped_typing"

/-- The keys of the payload object (second argument of `emit`). -/
def Emitted.payloadFields : Emitted → List String
  | .error _ => ["message"]
  | .message_error _ => ["error"]
  | .message_sent _ _ => ["messageId", "status"]
  | .new_message _ =>
    ["id", "conversation_id", "sender_id", "content", "status", "created_at", "sender_name"]
  | .message_status _ _ => ["messageId", "status"]
  | .user_typing _ _ => ["userId", "conversationId"]
  | .user_stopped_typing _ _ => ["userId", "conversationId"]

/-- The text a payload holds under `key`, if it holds a text there. -/
def Emitted.textField (e : Emitted) (key : String) : Option String :=
  match e with
  | .error message => if key = "message" then some message else none
  | .message_error description => if key = "error" then some description else none
  | .new_message message =>
    if key = "content" then some message.content
    else if key = "sender_name" then some message.sender_name
    else none
  | _ => none

/-- The event of an emission. -/
def Effect.event? : Effect → Option Emitted
  | .emit _ _ event => some event
  | _ => none

/-- The events a trace emits, in order. -/
def events (trace : List Effect) : List Emitted :=
  trace.filterMap Effect.event?

/-- Alice is online on socket 10 and in the room of conversation 7; carol, who is in no
conversation, is online on socket 30 and in no room but her own. -/
def sampleCarolOutside : Server :=
  { db := some sampleDbCarol, moduleConnectedUsers := UserMap.empty,
    connectedUsers := ⟨[(3, 30), (1, 10)]⟩, sockets := [(10, 1), (30, 3)],
    rooms := [(10, Room.socket 10), (30, Room.socket 30), (10, Room.conversation 7)] }

/-! ## Marking one message as read over REST (`services/chatService.js`,
`models/message.model.js`) -/

/-- Method `Message.findById(id)`: the joined row, `none` for `null`; the error is the
message of what `getDb()` throws. -/
def Message.findById (db : Option Database) (id : MessageId) :
    Except String (Option MessageWithSender) :=
  match getDb db with
  | .error _ => .error "Database not initialized"
  | .ok d => .ok (d.getMessageWithSender id)

/-- Method `message.updateStatus(status)`: `UPDATE messages SET status = ? WHERE id = ?`
with `this.id`, then `this.status = status`. -/
def Message.updateStatus (db : Option Database) (message : MessageWithSender)
    (status : Status) : Except String (Database × MessageWithSender) :=
  match getDb db with
  | .error _ => .error "Database not initialized"
  | .ok d => .ok (d.setStatus message.id status, { message with status := status })

/-- What `ChatService.markMessageAsRead` leaves behind: the database, and the message
returned or the text of the error thrown. -/
structure MarkReadOutcome where
  db : Option Database
  result : Except String MessageWithSender

/-- Method `ChatService.markMessageAsRead(messageId, userId)`. -/
def ChatService.markMessageAsRead (db : Option Database) (messageId : MessageId)
    (userId : UserId) : MarkReadOutcome :=
  match Message.findById db messageId with
  | .error text => { db := db, result := .error text }
  | .ok none => { db := db, result := .error "Message not found" }
  | .ok (some message) =>
    match getDb db with
    | .error _ => { db := db, result := .error "Database not initialized" }
    | .ok d =>
      if d.isParticipant message.conversation_id userId = false then
        { db := db, result := .error "Not authorized to access this message" }
      else
        match Message.updateStatus db message Status.read with
        | .error text => { db := db, result := .error text }
        | .ok (d2, updated) => { db := some d2, result := .ok updated }

/-! ## Creating a conversation over REST (`controllers/chatController.js`) -/

namespace Database

/-- Largest `id` among the rows of `conversations` (0 for the empty table). -/
def maxConversationId (d : Database) : Nat :=
  d.conversations.foldr (fun c acc => max c.id acc) 0

/-- The rowid `AUTOINCREMENT` picks for the next conversation. -/
def nextConversationId (d : Database) : ConversationId :=
  max d.conversations_seq d.maxConversationId + 1

/-- Statement `INSERT INTO conversations (name, type, created_at) VALUES (?, ?,
CURRENT_TIMESTAMP)`, with `CHECK(type IN ('direct', 'group'))`.  Returns the new tables and
`lastID`. -/
def insertConversation (d : Database) (name : Option String) (type : String) :
    Except DbError (Database × ConversationId) :=
  if type = "direct" ∨ type = "group" then
    let lastID := d.nextConversationId
    .ok ({ d with
            conversations := d.conversations ++ [{ id := lastID, name := name, type := type }],
            conversations_seq := lastID }, lastID)
  else .error .check

/-- Statement `INSERT INTO conversation_participants (conversation_id, user_id) VALUES (?,
?)`, with the two foreign keys and `PRIMARY KEY (conversation_id, user_id)`. -/
def insertParticipant (d : Database) (conversation_id : ConversationId)
    (user_id : UserId) : Except DbError Database :=
  if d.conversations.any (fun c => c.id == conversation_id) = false then .error .foreignKey
  else if d.users.any (fun u => u.id == user_id) = false then .error .foreignKey
  else if d.isParticipant conversation_id user_id then .error .primaryKey
  else
    .ok { d with
          conversation_participants := d.conversation_participants ++
            [{ conversation_id := conversation_id, user_id := user_id }] }

/-- Query `SELECT u.id, u.username, u.email, u.created_at FROM users u JOIN
conversation_participants cp ON u.id = cp.user_id WHERE cp.conversation_id = ?`. -/
def participantUsers (d : Database) (conversation_id : ConversationId) : List UserRow :=
  (d.conversation_participants.filter (fun p => p.conversation_id == conversation_id)).filterMap
    (fun p => d.users.find? (fun u => u.id == p.user_id))

end Database

/-- A statement that `createConversation` sends to the database. -/
inductive Sql where
  | begin_transaction
  | insert_conversation (name : Option String) (type : String)
  | insert_participant (conversation_id : ConversationId) (user_id : UserId)
  | select_conversation (id : ConversationId)
  | select_participants (conversation_id : ConversationId)
  | commit
  | rollback
  deriving DecidableEq, Repr

/-- Expression `[...new Set(values)]`: the distinct values, each at its first occurrence. -/
def uniqueInOrder (values : List UserId) : List UserId :=
  values.foldl (fun acc x => if x ∈ acc then acc else acc ++ [x]) []

/-- The loop `for (const participantId of allParticipants) await db.run(INSERT ...)`: the
statements sent, and the tables reached or the error that ended the loop. -/
def insertParticipants (d : Database) (conversationId : ConversationId) :
    List UserId → List Sql × Except DbError Database
  | [] => ([], .ok d)
  | participantId :: rest =>
    match d.insertParticipant conversationId participantId with
    | .error e => ([.insert_participant conversationId participantId], .error e)
    | .ok d1 =>
      ((.insert_participant conversationId participantId) ::
          (insertParticipants d1 conversationId rest).1,
        (insertParticipants d1 conversationId rest).2)

/-- The value of `req.body.participantIds`. -/
inductive ParticipantIdsValue where
  /-- The value `undefined` or `null`. -/
  | missing
  /-- A value that is not an array. -/
  | notArray
  /-- An array of user ids. -/
  | array (ids : List UserId)
  deriving DecidableEq, Repr

/-- The fields of `req.body` that `createConversation` reads. -/
structure CreateConversationBody where
  name : Option String
  type : Option String
  participantIds : ParticipantIdsValue
  deriving DecidableEq, Repr

/-- What `createConversation` sends back. -/
inductive CreateConversationResponse where
  | created (status : Nat) (conversation : ConversationRow) (participants : List UserRow)
  | error (status : Nat) (error : String)
  deriving DecidableEq, Repr

/-- What a call of `createConversation` leaves behind. -/
structure CreateConversationOutcome where
  db : Database
  statements : List Sql
  response : CreateConversationResponse
  deriving DecidableEq, Repr

/-- The inner `catch` of `createConversation` followed by the outer one: `ROLLBACK` restores
the tables of before `BEGIN TRANSACTION`, and the answer is 500.  It is also where the
`TypeError` of `conversation.participants = ...` on a missing row would end. -/
def createConversation_rollback (d : Database) (sent : List Sql) : CreateConversationOutcome :=
  { db := d, statements := sent ++ [.rollback],
    response := .error 500 "Error creating conversation" }

/-- Controller `createConversation(req, res)` behind `POST /conversations`, for the user
`req.user.id`.  The result is `none` when `getDb()`, which is called before the `try` block,
throws. -/
def createConversation (db : Option Database) (creatorId : UserId)
    (body : CreateConversationBody) : Option CreateConversationOutcome :=
  match getDb db with
  | .error _ => none
  | .ok d =>
    match body.type, body.participantIds with
    | none, _ => some { db := d, statements := [], response := .error 400 "Invalid input" }
    | some _, .missing =>
      some { db := d, statements := [], response := .error 400 "Invalid input" }
    | some _, .notArray =>
      some { db := d, statements := [], response := .error 400 "Invalid input" }
    | some type, .array participantIds =>
      if type = "" ∨ participantIds.length = 0 then
        some { db := d, statements := [], response := .error 400 "Invalid input" }
      else if type = "direct" ∧ participantIds.length ≠ 1 then
        some { db := d, statements := [],
               response := .error 400 "Direct conversations must have exactly one participant" }
      else
        let name := if truthy body.name then body.name else none
        match d.insertConversation name type with
        | .error _ =>
          some (createConversation_rollback d
            [.begin_transaction, .insert_conversation name type])
        | .ok (d1, conversationId) =>
          let allParticipants := uniqueInOrder (participantIds ++ [creatorId])
          match insertParticipants d1 conversationId allParticipants with
          | (inserts, .error _) =>
            some (createConversation_rollback d
              ([.begin_transaction, .insert_conversation name type] ++ inserts))
          | (inserts, .ok d2) =>
            match d2.conversations.find? (fun c => c.id == conversationId) with
            | none =>
              some (createConversation_rollback d
                ([.begin_transaction, .insert_conversation name type] ++ inserts ++
                  [.select_conversation conversationId,
                   .select_participants conversationId]))
            | some conversation =>
              some { db := d2,
                     statements := [.begin_transaction, .insert_conversation name type] ++
                       inserts ++ [.select_conversation conversationId,
                                   .select_participants conversationId, .commit],
                     response := .created 201 conversation
                       (d2.participantUsers conversationId) }

/-- Method `ChatService.createConversation(req, res)`: the statements of the controller,
line for line, without the `console.log` of the created conversation. -/
def ChatService.createConversation (db : Option Database) (creatorId : UserId)
    (body : CreateConversationBody) : Option CreateConversationOutcome :=
  Chatzy.createConversation db creatorId body

/-! # Theorems -/

/-! ## Facts about the statements -/

theorem Database.findMessage_setStatus (d : Database) (id id2 : MessageId) (status : Status) :
    (d.setStatus id status).findMessage id2 =
      (d.findMessage id2).map (fun m => if m.id = id then { m with status := status } else m) := by
  unfold Database.findMessage Database.setStatus
  simp only [List.find?_map]
  congr 1
  apply congrArg (fun p => List.find? p d.messages)
  funext m
  by_cases h : m.id = id <;> simp [h]

theorem Database.findMessage_markConversationRead (d : Database) (c : ConversationId)
    (u : UserId) (id : MessageId) :
    (d.markConversationRead c u).findMessage id =
      (d.findMessage id).map
        (fun m => if m.conversation_id = c ∧ m.sender_id ≠ u ∧ m.status ≠ Status.read
                  then { m with status := Status.read } else m) := by
  unfold Database.findMessage Database.markConversationRead
  simp only [List.find?_map]
  congr 1
  apply congrArg (fun p => List.find? p d.messages)
  funext m
  by_cases h : m.conversation_id = c ∧ m.sender_id ≠ u ∧ m.status ≠ Status.read <;> simp [h]

theorem Database.statusOf_setStatus_self (d : Database) (id : MessageId) (status st : Status)
    (h : d.statusOf id = some st) : (d.setStatus id status).statusOf id = some status := by
  unfold Database.statusOf at *
  rw [Database.findMessage_setStatus]
  cases hm : d.findMessage id with
  | none => simp [hm] at h
  | some m =>
    have hid : m.id = id := by
      have := List.find?_some hm
      simpa using this
    simp [hid]

theorem Database.statusOf_setStatus_other (d : Database) (id id2 : MessageId) (status : Status)
    (h : id2 ≠ id) : (d.setStatus id status).statusOf id2 = d.statusOf id2 := by
  unfold Database.statusOf
  rw [Database.findMessage_setStatus]
  cases hm : d.findMessage id2 with
  | none => rfl
  | some m =>
    have hid : m.id = id2 := by
      have := List.find?_some hm
      simpa using this
    have : m.id ≠ id := by rw [hid]; exact h
    simp [this]

theorem Database.insertMessage_messages (d d1 : Database) (c : ConversationId) (s : UserId)
    (content : Option String) (status : Status) (lastID : MessageId)
    (h : d.insertMessage c s content status = .ok (d1, lastID)) :
    ∃ text, content = some text ∧ lastID = d.nextMessageId ∧
      d1 = { d with
              messages := d.messages ++
                [{ id := lastID, conversation_id := c, sender_id := s,
                   content := text, status := status, created_at := d.now }],
              messages_seq := lastID } := by
  unfold Database.insertMessage at h
  cases content with
  | none => simp at h
  | some text =>
    simp only at h
    split at h
    · simp at h
    · split at h
      · simp at h
      · simp only [Except.ok.injEq, Prod.mk.injEq] at h
        exact ⟨text, rfl, h.2.symm, by rw [← h.1, ← h.2]⟩

theorem Database.findMessage_insert_old (d d1 : Database) (c : ConversationId) (s : UserId)
    (content : Option String) (status : Status) (lastID id : MessageId) (m : MessageRow)
    (h : d.insertMessage c s content status = .ok (d1, lastID))
    (hm : d.findMessage id = some m) : d1.findMessage id = some m := by
  obtain ⟨text, _, _, rfl⟩ := Database.insertMessage_messages d d1 c s content status lastID h
  unfold Database.findMessage at *
  simp [List.find?_append, hm]

theorem Write.exec_insert_findMessage (d : Database) (c : ConversationId) (s : UserId)
    (content : Option String) (status : Status) (id : MessageId) (m : MessageRow)
    (hm : d.findMessage id = some m) :
    ((Write.insertMessage c s content status).exec d).findMessage id = some m := by
  simp only [Write.exec]
  cases h : d.insertMessage c s content status with
  | error e => exact hm
  | ok r =>
    obtain ⟨d1, lastID⟩ := r
    exact Database.findMessage_insert_old d d1 c s content status lastID id m h hm

/-! ## C1 -/

/-- C1 as stated fails: message 1 is `read` in the store, and after `message_delivered` for
it the stored status is `delivered`, not `read`. -/
theorem message_delivered_overwrites_read :
    (Server.start sampleDbRead).statusOf 1 = some Status.read ∧
    (message_delivered (Server.start sampleDbRead) 1).server.statusOf 1 =
      some Status.delivered ∧
    (message_delivered (Server.start sampleDbRead) 1).server.statusOf 1 ≠ some Status.read := by
  decide

/-- C1, amended: `message_delivered` sets the stored status of an existing message to
`delivered` whatever the status was before, `read` included. -/
theorem message_delivered_sets_delivered (sv : Server) (messageId : MessageId) (before : Status)
    (h : sv.statusOf messageId = some before) :
    (message_delivered sv messageId).server.statusOf messageId = some Status.delivered := by
  unfold Server.statusOf at h
  cases hdb : sv.db with
  | none => simp [hdb] at h
  | some d =>
    rw [hdb] at h
    simp only at h
    have hs := Database.statusOf_setStatus_self d messageId Status.delivered before h
    unfold message_delivered
    simp only [hdb, getDb]
    split
    · simpa [Server.statusOf] using hs
    · split <;> simpa [Server.statusOf] using hs

/-- Witness for C1: the sample message that is `read` is `delivered` afterwards. -/
theorem message_delivered_sets_delivered_witness :
    (Server.start sampleDbRead).statusOf 1 = some Status.read ∧
    (message_delivered (Server.start sampleDbRead) 1).server.statusOf 1 =
      some Status.delivered :=
  ⟨by decide, message_delivered_sets_delivered (Server.start sampleDbRead) 1 Status.read
    (by decide)⟩
theorem Database.statusOf_markConversationRead (d : Database) (c : ConversationId)
    (u : UserId) (id : MessageId) (st : Status) (h : d.statusOf id = some st) :
    (d.markConversationRead c u).statusOf id = some st ∨
      (d.markConversationRead c u).statusOf id = some Status.read := by
  unfold Database.statusOf at *
  rw [Database.findMessage_markConversationRead]
  cases hm : d.findMessage id with
  | none => simp [hm] at h
  | some m =>
    rw [hm] at h
    by_cases hc : m.conversation_id = c ∧ m.sender_id ≠ u ∧ m.status ≠ Status.read
    · right; simp [hc]
    · left; simpa [hc] using h

theorem Status.rank_le_read (st : Status) : st.rank ≤ Status.read.rank := by
  cases st <;> decide

/-! ## C2 -/

/-- C2 as stated fails: alice's send inserts message 1 as `sent`; bob's `message_read`
makes it `read` before the send handler runs its own update; that update then moves the
stored status back to `delivered`. -/
theorem status_regresses_under_interleaving :
    (runStatements sampleDb [.send_insert 7 1 (some "hi")]).statusOf 1 = some Status.sent ∧
    (runStatements sampleDb [.send_insert 7 1 (some "hi"), .message_read 1]).statusOf 1 =
      some Status.read ∧
    (runStatements sampleDb
      [.send_insert 7 1 (some "hi"), .message_read 1, .send_update 1]).statusOf 1 =
      some Status.delivered ∧
    ¬ (Status.read.rank ≤ Status.delivered.rank) := by
  decide

/-- C2, amended: in any database, hence after any interleaving of statements, one more
statement leaves an existing message in place and either does not lower its status, or it
is one of the two `SET status = 'delivered'` updates (of `send_message` or of
`message_delivered`) for that message, which was `read` and is now `delivered`. -/
theorem status_step (d : Database) (s : Statement) (id : MessageId) (st : Status)
    (h : d.statusOf id = some st) :
    ∃ st2, (s.write.exec d).statusOf id = some st2 ∧
      (st.rank ≤ st2.rank ∨
        (st = Status.read ∧ st2 = Status.delivered ∧
          (s = .send_update id ∨ s = .message_delivered id))) := by
  have setDelivered : ∀ id2 : MessageId, (s = .send_update id2 ∨ s = .message_delivered id2) →
      ∃ st2, ((Write.setStatus id2 Status.delivered).exec d).statusOf id = some st2 ∧
        (st.rank ≤ st2.rank ∨
          (st = Status.read ∧ st2 = Status.delivered ∧
            (s = .send_update id ∨ s = .message_delivered id))) := by
    intro id2 hs
    by_cases hid : id = id2
    · subst hid
      refine ⟨Status.delivered, Database.statusOf_setStatus_self d id _ st h, ?_⟩
      cases st with
      | sent => left; decide
      | delivered => left; decide
      | read => right; exact ⟨rfl, rfl, hs⟩
    · exact ⟨st, by
        simpa [Write.exec, Database.statusOf_setStatus_other d id2 id _ hid] using h,
        Or.inl (Nat.le_refl _)⟩
  have setRead : ∀ id2 : MessageId,
      ∃ st2, ((Write.setStatus id2 Status.read).exec d).statusOf id = some st2 ∧
        (st.rank ≤ st2.rank ∨
          (st = Status.read ∧ st2 = Status.delivered ∧
            (s = .send_update id ∨ s = .message_delivered id))) := by
    intro id2
    by_cases hid : id = id2
    · subst hid
      exact ⟨Status.read, Database.statusOf_setStatus_self d id _ st h,
        Or.inl (Status.rank_le_read st)⟩
    · exact ⟨st, by
        simpa [Write.exec, Database.statusOf_setStatus_other d id2 id _ hid] using h,
        Or.inl (Nat.le_refl _)⟩
  cases s with
  | send_insert c u content =>
    refine ⟨st, ?_, Or.inl (Nat.le_refl _)⟩
    unfold Database.statusOf at *
    cases hm : d.findMessage id with
    | none => simp [hm] at h
    | some m =>
      rw [hm] at h
      simp only [Statement.write]
      rw [Write.exec_insert_findMessage d c u content Status.sent id m hm]
      exact h
  | send_update id2 => exact setDelivered id2 (Or.inl rfl)
  | message_delivered id2 => exact setDelivered id2 (Or.inr rfl)
  | message_read id2 => exact setRead id2
  | markMessageAsRead id2 => exact setRead id2
  | getMessages c u =>
    rcases Database.statusOf_markConversationRead d c u id st h with h1 | h1
    · exact ⟨st, h1, Or.inl (Nat.le_refl _)⟩
    · exact ⟨Status.read, h1, Or.inl (Status.rank_le_read st)⟩

/-- Witness for C2: the `read` sample message under `message_delivered`. -/
theorem status_step_witness :
    sampleDbRead.statusOf 1 = some Status.read ∧
    ∃ st2, ((Statement.message_delivered 1).write.exec sampleDbRead).statusOf 1 = some st2 ∧
      (Status.read.rank ≤ st2.rank ∨
        (Status.read = Status.read ∧ st2 = Status.delivered ∧
          (Statement.message_delivered 1 = .send_update 1 ∨
            Statement.message_delivered 1 = .message_delivered 1))) :=
  ⟨by decide, status_step sampleDbRead (.message_delivered 1) 1 Status.read (by decide)⟩

/-! ## Facts about the registry and the rooms -/

theorem UserMap.has_eq (m : UserMap) (k : UserId) : m.has k = (m.get k).isSome := by
  unfold UserMap.has UserMap.get
  induction m.entries with
  | nil => rfl
  | cons e rest ih =>
    by_cases h : e.1 = k <;> simp_all [List.find?_cons]

theorem UserMap.get_delete (m : UserMap) (k k2 : UserId) :
    (m.delete k).get k2 = if k2 = k then none else m.get k2 := by
  unfold UserMap.get UserMap.delete
  simp only
  induction m.entries with
  | nil => simp
  | cons e rest ih =>
    by_cases h : e.1 = k <;> by_cases h2 : e.1 = k2 <;> by_cases h3 : k2 = k <;>
      simp_all [List.find?_cons, List.filter_cons]

theorem UserMap.get_set (m : UserMap) (k k2 : UserId) (v : SocketId) :
    (m.set k v).get k2 = if k2 = k then some v else m.get k2 := by
  have hd := UserMap.get_delete m k k2
  unfold UserMap.get at hd ⊢
  unfold UserMap.set
  by_cases h : k2 = k
  · simp [h, List.find?_cons]
  · have : ¬ k = k2 := fun hh => h hh.symm
    simp_all [List.find?_cons]

theorem Server.userOf_some_mem (sv : Server) (s : SocketId) (u : UserId)
    (h : sv.userOf s = some u) : (s, u) ∈ sv.sockets := by
  unfold Server.userOf at h
  cases hf : sv.sockets.find? (fun e => e.1 == s) with
  | none => simp [hf] at h
  | some e =>
    rw [hf] at h
    have h1 : e.1 = s := by simpa using List.find?_some hf
    have h2 : e.2 = u := by simpa using h
    have := List.mem_of_find?_eq_some hf
    rw [← h1, ← h2]
    exact this

theorem Server.userOf_none_not_mem (sv : Server) (s : SocketId)
    (h : sv.userOf s = none) : s ∉ sv.sockets.map Prod.fst := by
  unfold Server.userOf at h
  simp only [Option.map_eq_none', List.find?_eq_none] at h
  intro hm
  obtain ⟨e, he, hs⟩ := List.mem_map.mp hm
  exact h e he (by simp [hs])

theorem Server.mem_connectionsOf (sv : Server) (s : SocketId) (u : UserId) :
    s ∈ sv.connectionsOf u ↔ (s, u) ∈ sv.sockets := by
  unfold Server.connectionsOf
  simp only [List.mem_map, List.mem_filter, beq_iff_eq]
  constructor
  · rintro ⟨e, ⟨he, hu⟩, hs⟩
    rw [← hs, ← hu]
    exact he
  · intro h
    exact ⟨(s, u), ⟨h, rfl⟩, rfl⟩

theorem Server.mem_members (sv : Server) (x : SocketId) (room : Room) :
    x ∈ sv.members room ↔ (x, room) ∈ sv.rooms := by
  unfold Server.members
  simp only [List.mem_map, List.mem_filter, beq_iff_eq]
  constructor
  · rintro ⟨e, ⟨he, hr⟩, hx⟩
    rw [← hx, ← hr]
    exact he
  · intro h
    exact ⟨(x, room), ⟨h, rfl⟩, rfl⟩
/-! ## Which handlers touch the registry, the sockets and the private rooms -/

theorem send_message_frame (sv : Server) (s : SocketId) (u : UserId) (c : ConversationId)
    (content : Option String) :
    (send_message sv s u c content).server.connectedUsers = sv.connectedUsers ∧
    (send_message sv s u c content).server.sockets = sv.sockets ∧
    (send_message sv s u c content).server.rooms = sv.rooms := by
  unfold send_message send_message_failed
  dsimp only
  repeat' split
  all_goals exact ⟨rfl, rfl, rfl⟩

theorem message_delivered_frame (sv : Server) (id : MessageId) :
    (message_delivered sv id).server.connectedUsers = sv.connectedUsers ∧
    (message_delivered sv id).server.sockets = sv.sockets ∧
    (message_delivered sv id).server.rooms = sv.rooms := by
  unfold message_delivered
  dsimp only
  repeat' split
  all_goals exact ⟨rfl, rfl, rfl⟩

theorem message_read_frame (sv : Server) (id : MessageId) :
    (message_read sv id).server.connectedUsers = sv.connectedUsers ∧
    (message_read sv id).server.sockets = sv.sockets ∧
    (message_read sv id).server.rooms = sv.rooms := by
  unfold message_read
  dsimp only
  repeat' split
  all_goals exact ⟨rfl, rfl, rfl⟩

theorem join_conversation_frame (sv : Server) (s : SocketId) (u : UserId)
    (c : ConversationId) :
    (join_conversation sv s u c).server.connectedUsers = sv.connectedUsers ∧
    (join_conversation sv s u c).server.sockets = sv.sockets ∧
    ∀ x s2, (x, Room.socket s2) ∈ (join_conversation sv s u c).server.rooms ↔
      (x, Room.socket s2) ∈ sv.rooms := by
  unfold join_conversation Server.joinRoom
  repeat' split
  all_goals refine ⟨rfl, rfl, ?_⟩
  all_goals intro x s2
  all_goals simp

theorem leave_conversation_frame (sv : Server) (s : SocketId) (c : ConversationId) :
    (leave_conversation sv s c).server.connectedUsers = sv.connectedUsers ∧
    (leave_conversation sv s c).server.sockets = sv.sockets ∧
    ∀ x s2, (x, Room.socket s2) ∈ (leave_conversation sv s c).server.rooms ↔
      (x, Room.socket s2) ∈ sv.rooms := by
  unfold leave_conversation Server.leaveRoom
  refine ⟨rfl, rfl, ?_⟩
  intro x s2
  simp

/-- Every event other than a connection or a disconnect leaves `connectedUsers`, the open
sockets and the private rooms as they were. -/
theorem step_frame (sv : Server) (ev : Inbound) (out : Outcome)
    (hc : ∀ s u, ev ≠ .connection s u) (hd : ∀ s, ev ≠ .disconnect s)
    (h : step sv ev = some out) :
    out.server.connectedUsers = sv.connectedUsers ∧
    out.server.sockets = sv.sockets ∧
    ∀ x s2, (x, Room.socket s2) ∈ out.server.rooms ↔ (x, Room.socket s2) ∈ sv.rooms := by
  cases ev with
  | connection s u => exact absurd rfl (hc s u)
  | disconnect s => exact absurd rfl (hd s)
  | join_conversation s c =>
    simp only [step, Option.map_eq_some'] at h
    obtain ⟨u, _, rfl⟩ := h
    exact join_conversation_frame sv s u c
  | leave_conversation s c =>
    simp only [step, Option.map_eq_some'] at h
    obtain ⟨u, _, rfl⟩ := h
    exact leave_conversation_frame sv s c
  | send_message s c content =>
    simp only [step, Option.map_eq_some'] at h
    obtain ⟨u, _, rfl⟩ := h
    obtain ⟨h1, h2, h3⟩ := send_message_frame sv s u c content
    exact ⟨h1, h2, fun x s2 => by rw [h3]⟩
  | message_delivered s id =>
    simp only [step, Option.map_eq_some'] at h
    obtain ⟨u, _, rfl⟩ := h
    obtain ⟨h1, h2, h3⟩ := message_delivered_frame sv id
    exact ⟨h1, h2, fun x s2 => by rw [h3]⟩
  | message_read s id =>
    simp only [step, Option.map_eq_some'] at h
    obtain ⟨u, _, rfl⟩ := h
    obtain ⟨h1, h2, h3⟩ := message_read_frame sv id
    exact ⟨h1, h2, fun x s2 => by rw [h3]⟩
  | typing_start s c =>
    simp only [step, Option.map_eq_some'] at h
    obtain ⟨u, _, rfl⟩ := h
    exact ⟨rfl, rfl, fun _ _ => Iff.rfl⟩
  | typing_stop s c =>
    simp only [step, Option.map_eq_some'] at h
    obtain ⟨u, _, rfl⟩ := h
    exact ⟨rfl, rfl, fun _ _ => Iff.rfl⟩
  | http update =>
    simp only [step, Option.some.injEq] at h
    subst h
    exact ⟨rfl, rfl, fun _ _ => Iff.rfl⟩
/-! ## The invariant holds in every reachable state -/

theorem fst_unique {α β : Type} (l : List (α × β)) (h : (l.map Prod.fst).Nodup)
    (a : α) (b c : β) (hb : (a, b) ∈ l) (hc : (a, c) ∈ l) : b = c := by
  have := List.inj_on_of_nodup_map h hb hc rfl
  exact (Prod.mk.inj this).2

theorem mem_map_fst_filter_ne (l : List (SocketId × UserId)) (s x : SocketId) :
    x ∈ (l.filter (fun e => e.1 != s)).map Prod.fst ↔ x ∈ l.map Prod.fst ∧ x ≠ s := by
  simp only [List.mem_map, List.mem_filter, bne_iff_ne, ne_eq]
  constructor
  · rintro ⟨e, ⟨he, hne⟩, rfl⟩
    exact ⟨⟨e, he, rfl⟩, hne⟩
  · rintro ⟨⟨e, he, rfl⟩, hne⟩
    exact ⟨e, ⟨he, hne⟩, rfl⟩

theorem Server.consistent_start (d : Database) : (Server.start d).Consistent := by
  refine ⟨?_, ?_, ?_⟩
  · simp [Server.start]
  · intro u s h
    simp [Server.start, UserMap.empty, UserMap.get] at h
  · intro x s
    simp [Server.start]

theorem Server.consistent_connection (sv : Server) (s : SocketId) (u : UserId)
    (hc : sv.Consistent) (hfresh : sv.userOf s = none) :
    (connection sv s u).server.Consistent := by
  have hnot := Server.userOf_none_not_mem sv s hfresh
  refine ⟨?_, ?_, ?_⟩
  · simp only [connection, List.map_append, List.map_cons, List.map_nil]
    rw [List.nodup_append]
    refine ⟨hc.socketIds_nodup, List.nodup_singleton s, ?_⟩
    intro a ha hb
    rw [List.mem_singleton] at hb
    exact hnot (hb ▸ ha)
  · intro u2 s2 h
    simp only [connection, UserMap.get_set] at h
    simp only [connection, List.mem_append, List.mem_singleton]
    by_cases hu : u2 = u
    · rw [if_pos hu] at h
      right
      rw [hu, ← Option.some.inj h]
    · rw [if_neg hu] at h
      exact Or.inl (hc.registry_sound u2 s2 h)
  · intro x s2
    simp only [connection, List.mem_append, List.mem_singleton, List.map_append, List.map_cons,
      List.map_nil, Prod.mk.injEq, Room.socket.injEq, hc.own_room x s2]
    constructor
    · rintro (⟨h1, h2⟩ | ⟨h1, h2⟩)
      · exact ⟨h1, Or.inl h2⟩
      · exact ⟨h1.trans h2.symm, Or.inr h2⟩
    · rintro ⟨h1, h2 | h2⟩
      · exact Or.inl ⟨h1, h2⟩
      · exact Or.inr ⟨h1.trans h2, h2⟩

theorem Server.consistent_disconnect (sv : Server) (s : SocketId) (u : UserId)
    (hc : sv.Consistent) (hopen : sv.userOf s = some u) :
    (disconnect sv s u).server.Consistent := by
  have hmem := Server.userOf_some_mem sv s u hopen
  refine ⟨?_, ?_, ?_⟩
  · exact List.Nodup.sublist ((List.filter_sublist _).map Prod.fst) hc.socketIds_nodup
  · intro u2 s2 h
    simp only [disconnect, UserMap.get_delete] at h
    by_cases hu : u2 = u
    · rw [if_pos hu] at h
      cases h
    · rw [if_neg hu] at h
      have h2 := hc.registry_sound u2 s2 h
      simp only [disconnect, List.mem_filter, bne_iff_ne, ne_eq]
      refine ⟨h2, ?_⟩
      intro hs
      rw [hs] at h2
      exact hu (fst_unique sv.sockets hc.socketIds_nodup s u2 u h2 hmem)
  · intro x s2
    simp only [disconnect, List.mem_filter, bne_iff_ne, ne_eq, hc.own_room x s2,
      mem_map_fst_filter_ne]
    constructor
    · rintro ⟨⟨h1, h2⟩, h3⟩
      exact ⟨h1, h2, fun h => h3 (h1.trans h)⟩
    · rintro ⟨h1, h2, h3⟩
      exact ⟨⟨h1, h2⟩, fun h => h3 (h1.symm.trans h)⟩

theorem Server.consistent_step (sv : Server) (ev : Inbound) (out : Outcome)
    (hc : sv.Consistent) (h : step sv ev = some out) : out.server.Consistent := by
  cases ev with
  | connection s u =>
    simp only [step] at h
    cases hu : sv.userOf s with
    | some u2 => simp [hu] at h
    | none =>
      simp only [hu, Option.some.injEq] at h
      subst h
      exact Server.consistent_connection sv s u hc hu
  | disconnect s =>
    simp only [step, Option.map_eq_some'] at h
    obtain ⟨u, hu, rfl⟩ := h
    exact Server.consistent_disconnect sv s u hc hu
  | _ =>
    obtain ⟨h1, h2, h3⟩ := step_frame sv _ out (by intro s u; simp) (by intro s; simp) h
    refine ⟨?_, ?_, ?_⟩
    · rw [h2]; exact hc.socketIds_nodup
    · intro u s; rw [h1, h2]; exact hc.registry_sound u s
    · intro x s; rw [h3, h2]; exact hc.own_room x s

theorem Server.consistent_run (evs : List Inbound) (sv sv2 : Server)
    (hc : sv.Consistent) (h : run sv evs = some sv2) : sv2.Consistent := by
  induction evs generalizing sv with
  | nil =>
    simp only [run, Option.some.injEq] at h
    exact h ▸ hc
  | cons ev rest ih =>
    simp only [run] at h
    cases hs : step sv ev with
    | none => simp [hs] at h
    | some out =>
      rw [hs] at h
      exact ih out.server (Server.consistent_step sv ev out hc hs) h
/-! ## C3 -/

theorem snd_unique {α β : Type} (l : List (α × β)) (h : (l.map Prod.snd).Nodup)
    (a b : α) (c : β) (ha : (a, c) ∈ l) (hb : (b, c) ∈ l) : a = b := by
  have := List.inj_on_of_nodup_map h ha hb rfl
  exact (Prod.mk.inj this).1

theorem Server.connectionsOf_ne_nil (sv : Server) (u : UserId) :
    sv.connectionsOf u ≠ [] ↔ ∃ s, (s, u) ∈ sv.sockets := by
  constructor
  · intro h
    obtain ⟨s, hs⟩ := List.exists_mem_of_ne_nil _ h
    exact ⟨s, (Server.mem_connectionsOf sv s u).mp hs⟩
  · rintro ⟨s, hs⟩ hnil
    have := (Server.mem_connectionsOf sv s u).mpr hs
    rw [hnil] at this
    cases this

theorem presence_iff_step (sv : Server) (ev : Inbound) (out : Outcome)
    (hc : sv.Consistent) (hsingle : sv.singleConnections = true)
    (hinv : ∀ u, sv.connectedUsers.has u = true ↔ ∃ s, (s, u) ∈ sv.sockets)
    (h : step sv ev = some out) :
    ∀ u, out.server.connectedUsers.has u = true ↔ ∃ s, (s, u) ∈ out.server.sockets := by
  have hnodup : (sv.sockets.map Prod.snd).Nodup := by
    simpa [Server.singleConnections] using hsingle
  cases ev with
  | connection s u =>
    simp only [step] at h
    cases hu : sv.userOf s with
    | some u2 => simp [hu] at h
    | none =>
      simp only [hu, Option.some.injEq] at h
      subst h
      intro u2
      have hpre := hinv u2
      rw [UserMap.has_eq] at hpre ⊢
      simp only [connection, UserMap.get_set, List.mem_append, List.mem_singleton,
        Prod.mk.injEq]
      by_cases h2 : u2 = u
      · simp [h2]
      · simp only [if_neg h2, h2, and_false, or_false]
        exact hpre
  | disconnect s =>
    simp only [step, Option.map_eq_some'] at h
    obtain ⟨u, hu, rfl⟩ := h
    have hmem := Server.userOf_some_mem sv s u hu
    intro u2
    have hpre := hinv u2
    rw [UserMap.has_eq] at hpre ⊢
    simp only [disconnect, UserMap.get_delete, List.mem_filter, bne_iff_ne, ne_eq]
    by_cases h2 : u2 = u
    · subst h2
      simp only [if_true, Option.isSome_none, Bool.false_eq_true, false_iff, not_exists,
        not_and, not_not]
      intro s2 hs2
      exact snd_unique sv.sockets hnodup s2 s u2 hs2 hmem
    · simp only [if_neg h2]
      rw [hpre]
      constructor
      · rintro ⟨s2, hs2⟩
        refine ⟨s2, hs2, ?_⟩
        intro hs
        rw [hs] at hs2
        exact h2 (fst_unique sv.sockets hc.socketIds_nodup s u2 u hs2 hmem)
      · rintro ⟨s2, hs2, _⟩
        exact ⟨s2, hs2⟩
  | _ =>
    obtain ⟨h1, h2, _⟩ := step_frame sv _ out (by intro s u; simp) (by intro s; simp) h
    intro u
    rw [h1, h2]
    exact hinv u

theorem presence_iff_run (evs : List Inbound) (sv sv2 : Server)
    (hc : sv.Consistent)
    (hinv : ∀ u, sv.connectedUsers.has u = true ↔ ∃ s, (s, u) ∈ sv.sockets)
    (hsingle : always Server.singleConnections sv evs = true)
    (h : run sv evs = some sv2) :
    ∀ u, sv2.connectedUsers.has u = true ↔ ∃ s, (s, u) ∈ sv2.sockets := by
  induction evs generalizing sv with
  | nil =>
    simp only [run, Option.some.injEq] at h
    exact h ▸ hinv
  | cons ev rest ih =>
    simp only [run] at h
    simp only [always, Bool.and_eq_true] at hsingle
    cases hs : step sv ev with
    | none => simp [hs] at h
    | some out =>
      rw [hs] at h
      have hrest := hsingle.2
      rw [hs] at hrest
      exact ih out.server (Server.consistent_step sv ev out hc hs)
        (presence_iff_step sv ev out hc hsingle.1 hinv hs) hrest h

/-- C3 as stated fails: user 1 opens sockets 10 and 11 and socket 10 disconnects; socket 11
is still open, but user 1 is no longer a key of `connectedUsers`. -/
theorem presence_lost_with_open_connection :
    (run (Server.start sampleDb) [.connection 10 1, .connection 11 1, .disconnect 10]).map
      (fun sv => (sv.connectionsOf 1, sv.connectedUsers.has 1)) = some ([11], false) := by
  decide

/-- C3, amended: after every sequence of events, a socket id stored in `connectedUsers`
under a user is an open connection of that user, so every key has an open connection;
the converse, and with it the equivalence, holds for runs in which no user holds two
connections at the same time; and the disconnect of any one connection of a user removes
that user's key, whatever other connections the user holds. -/
theorem presence_registry (d : Database) (evs : List Inbound) (sv : Server)
    (h : run (Server.start d) evs = some sv) :
    (∀ u s, sv.connectedUsers.get u = some s → s ∈ sv.connectionsOf u) ∧
    (always Server.singleConnections (Server.start d) evs = true →
      ∀ u, sv.connectedUsers.has u = true ↔ sv.connectionsOf u ≠ []) ∧
    (∀ s u, sv.userOf s = some u →
      (disconnect sv s u).server.connectedUsers.has u = false) := by
  have hc := Server.consistent_run evs (Server.start d) sv (Server.consistent_start d) h
  refine ⟨?_, ?_, ?_⟩
  · intro u s hget
    exact (Server.mem_connectionsOf sv s u).mpr (hc.registry_sound u s hget)
  · intro hsingle u
    rw [Server.connectionsOf_ne_nil]
    refine presence_iff_run evs (Server.start d) sv (Server.consistent_start d) ?_ hsingle h u
    intro u2
    simp [Server.start, UserMap.empty, UserMap.has]
  · intro s u _
    rw [UserMap.has_eq]
    simp [disconnect, UserMap.get_delete]

/-- Witness for C3: alice and bob connect once each, then alice disconnects. -/
theorem presence_registry_witness :
    run (Server.start sampleDb) [.connection 10 1, .connection 20 2, .disconnect 10] =
      some sampleBobOnline ∧
    always Server.singleConnections (Server.start sampleDb)
      [.connection 10 1, .connection 20 2, .disconnect 10] = true ∧
    (∀ u s, sampleBobOnline.connectedUsers.get u = some s →
      s ∈ sampleBobOnline.connectionsOf u) ∧
    (∀ u, sampleBobOnline.connectedUsers.has u = true ↔
      sampleBobOnline.connectionsOf u ≠ []) ∧
    (∀ s u, sampleBobOnline.userOf s = some u →
      (disconnect sampleBobOnline s u).server.connectedUsers.has u = false) :=
  have t := presence_registry sampleDb [.connection 10 1, .connection 20 2, .disconnect 10]
    sampleBobOnline (by decide)
  ⟨by decide, by decide, t.1, t.2.1 (by decide), t.2.2⟩

/-! ## Facts about the insert of `send_message` -/

theorem le_foldr_max_id (l : List MessageRow) (m : MessageRow) (h : m ∈ l) :
    m.id ≤ l.foldr (fun m acc => max m.id acc) 0 := by
  induction l with
  | nil => cases h
  | cons a rest ih =>
    simp only [List.foldr_cons]
    rcases List.mem_cons.mp h with h1 | h1
    · rw [h1]; exact Nat.le_max_left _ _
    · exact Nat.le_trans (ih h1) (Nat.le_max_right _ _)

theorem Database.le_maxMessageId (d : Database) (m : MessageRow) (h : m ∈ d.messages) :
    m.id ≤ d.maxMessageId :=
  le_foldr_max_id d.messages m h

theorem Database.findMessage_next_none (d : Database) :
    d.findMessage d.nextMessageId = none := by
  unfold Database.findMessage
  rw [List.find?_eq_none]
  intro m hm hid
  have h1 := Database.le_maxMessageId d m hm
  have h2 : m.id = d.nextMessageId := by simpa using hid
  have h3 : d.maxMessageId ≤ max d.messages_seq d.maxMessageId := Nat.le_max_right _ _
  have h4 : m.id < d.nextMessageId := Nat.lt_succ_of_le (Nat.le_trans h1 h3)
  exact absurd h2 (Nat.ne_of_lt h4)

theorem Database.insertMessage_checks (d d1 : Database) (c : ConversationId) (s : UserId)
    (content : Option String) (status : Status) (lastID : MessageId)
    (h : d.insertMessage c s content status = .ok (d1, lastID)) :
    d.conversations.any (fun x => x.id == c) = true ∧
    d.users.any (fun x => x.id == s) = true := by
  unfold Database.insertMessage at h
  cases content with
  | none => simp at h
  | some text =>
    simp only at h
    split at h
    · simp at h
    · split at h
      · simp at h
      · rename_i h1 h2
        exact ⟨by simpa using h1, by simpa using h2⟩

theorem Database.insertMessage_ok (d : Database) (c : ConversationId) (s : UserId)
    (text : String) (status : Status)
    (hconv : d.conversations.any (fun x => x.id == c) = true)
    (huser : d.users.any (fun x => x.id == s) = true) :
    d.insertMessage c s (some text) status =
      .ok ({ d with
              messages := d.messages ++
                [{ id := d.nextMessageId, conversation_id := c, sender_id := s,
                   content := text, status := status, created_at := d.now }],
              messages_seq := d.nextMessageId }, d.nextMessageId) := by
  unfold Database.insertMessage
  simp [hconv, huser]

theorem Database.insertMessage_find_new (d d1 : Database) (c : ConversationId) (s : UserId)
    (content : Option String) (status : Status) (lastID : MessageId)
    (h : d.insertMessage c s content status = .ok (d1, lastID)) :
    ∃ text, content = some text ∧
      d1.findMessage lastID =
        some { id := lastID, conversation_id := c, sender_id := s, content := text,
               status := status, created_at := d.now } := by
  obtain ⟨text, hc, hid, rfl⟩ := Database.insertMessage_messages d d1 c s content status lastID h
  refine ⟨text, hc, ?_⟩
  have hnone := Database.findMessage_next_none d
  rw [← hid] at hnone
  unfold Database.findMessage at hnone ⊢
  simp only [List.find?_append, hnone, Option.none_or]
  simp [List.find?_cons]

theorem Database.insertMessage_getMessageWithSender (d d1 : Database) (c : ConversationId)
    (s : UserId) (content : Option String) (status : Status) (lastID : MessageId)
    (h : d.insertMessage c s content status = .ok (d1, lastID)) :
    ∃ text name, content = some text ∧
      d1.getMessageWithSender lastID =
        some { id := lastID, conversation_id := c, sender_id := s, content := text,
               status := status, created_at := d.now, sender_name := name } := by
  obtain ⟨text, hc, hfind⟩ := Database.insertMessage_find_new d d1 c s content status lastID h
  obtain ⟨_, huser⟩ := Database.insertMessage_checks d d1 c s content status lastID h
  obtain ⟨_, _, _, hd1⟩ := Database.insertMessage_messages d d1 c s content status lastID h
  have husers : d1.users = d.users := by rw [hd1]
  cases hu : d.users.find? (fun x => x.id == s) with
  | none =>
    rw [List.find?_eq_none] at hu
    rw [List.any_eq_true] at huser
    obtain ⟨x, hx, hxs⟩ := huser
    exact absurd hxs (hu x hx)
  | some usr =>
    refine ⟨text, usr.username, hc, ?_⟩
    unfold Database.getMessageWithSender
    rw [hfind]
    simp only [husers, hu]

theorem Database.insertMessage_participants (d d1 : Database) (c : ConversationId)
    (s : UserId) (content : Option String) (status : Status) (lastID : MessageId)
    (h : d.insertMessage c s content status = .ok (d1, lastID)) (c2 : ConversationId)
    (u2 : UserId) : d1.otherParticipants c2 u2 = d.otherParticipants c2 u2 := by
  obtain ⟨_, _, _, hd1⟩ := Database.insertMessage_messages d d1 c s content status lastID h
  rw [hd1]
  rfl

/-- Whether some participant of the conversation other than the sender is a key of the
registry, read off the list the handler computes. -/
theorem online_iff (d : Database) (m : UserMap) (c : ConversationId) (u : UserId) :
    ((d.otherParticipants c u).filter (fun p => m.has p)).length > 0 ↔
      ∃ p ∈ d.conversation_participants,
        p.conversation_id = c ∧ p.user_id ≠ u ∧ m.has p.user_id = true := by
  rw [gt_iff_lt, List.length_pos, ne_eq, List.filter_eq_nil_iff]
  unfold Database.otherParticipants
  simp only [List.mem_map, List.mem_filter, Bool.and_eq_true, beq_iff_eq, bne_iff_ne, ne_eq,
    not_forall, Classical.not_imp, not_not]
  constructor
  · rintro ⟨x, ⟨p, ⟨hp, hc, hu⟩, rfl⟩, hx⟩
    exact ⟨p, hp, hc, hu, hx⟩
  · rintro ⟨p, hp, hc, hu, hx⟩
    exact ⟨p.user_id, ⟨p, ⟨hp, hc, hu⟩, rfl⟩, hx⟩
/-! ## C4 -/

/-- C4: when the store holds no `conversation_participants` row for the conversation and the
socket's user (or cannot be queried at all), `join_conversation` leaves the server, and so
every room, as it was and emits an `error` event to the calling socket; a socket that is in
the room afterwards and was not before had its lookup succeed with a row; and when the
lookup succeeds with a row the socket is in the room afterwards. -/
theorem join_conversation_guard (sv : Server) (socketId : SocketId) (userId : UserId)
    (conversationId : ConversationId) :
    ((∀ d, sv.db = some d → d.isParticipant conversationId userId = false) →
      (join_conversation sv socketId userId conversationId).server = sv ∧
      ∃ message, Effect.emit (.socket socketId) [socketId] (.error message) ∈
        (join_conversation sv socketId userId conversationId).trace) ∧
    ((socketId, Room.conversation conversationId) ∈
        (join_conversation sv socketId userId conversationId).server.rooms →
      (socketId, Room.conversation conversationId) ∉ sv.rooms →
      ∃ d, sv.db = some d ∧ d.isParticipant conversationId userId = true) ∧
    ((∃ d, sv.db = some d ∧ d.isParticipant conversationId userId = true) →
      (socketId, Room.conversation conversationId) ∈
        (join_conversation sv socketId userId conversationId).server.rooms) := by
  cases hdb : sv.db with
  | none =>
    refine ⟨fun _ => ?_, ?_, ?_⟩
    · simp [join_conversation, hdb, getDb]
    · intro hin hnot
      simp [join_conversation, hdb, getDb] at hin
      exact absurd hin hnot
    · rintro ⟨d, hd, _⟩
      cases hd
  | some d =>
    cases hp : d.isParticipant conversationId userId with
    | false =>
      refine ⟨fun _ => ?_, ?_, ?_⟩
      · simp [join_conversation, hdb, getDb, hp]
      · intro hin hnot
        simp [join_conversation, hdb, getDb, hp] at hin
        exact absurd hin hnot
      · rintro ⟨d2, hd, hp2⟩
        cases hd
        rw [hp] at hp2
        cases hp2
    | true =>
      refine ⟨fun h => ?_, ?_, ?_⟩
      · have := h d rfl
        rw [hp] at this
        cases this
      · intro _ _
        exact ⟨d, rfl, hp⟩
      · intro _
        have hj : (join_conversation sv socketId userId conversationId).server =
            sv.joinRoom socketId (Room.conversation conversationId) := by
          simp [join_conversation, hdb, getDb, hp]
        rw [hj]
        unfold Server.joinRoom
        by_cases hc : sv.rooms.contains (socketId, Room.conversation conversationId) = true
        · rw [if_pos hc]
          simpa using hc
        · rw [if_neg hc]
          simp

/-- Witness for C4: bob (socket 20) asks for conversation 8, where he has no participant
row, and is refused; for conversation 7, where he has one, socket 20 is put in the room. -/
theorem join_conversation_guard_witness :
    (∀ d, sampleBobOnline.db = some d → d.isParticipant 8 2 = false) ∧
    ((join_conversation sampleBobOnline 20 2 8).server = sampleBobOnline ∧
      ∃ message, Effect.emit (.socket 20) [20] (.error message) ∈
        (join_conversation sampleBobOnline 20 2 8).trace) ∧
    (∃ d, sampleBobOnline.db = some d ∧ d.isParticipant 7 2 = true) ∧
    (20, Room.conversation 7) ∈ (join_conversation sampleBobOnline 20 2 7).server.rooms :=
  have hno : ∀ d, sampleBobOnline.db = some d → d.isParticipant 8 2 = false := by
    intro d hd
    cases hd
    decide
  have hyes : ∃ d, sampleBobOnline.db = some d ∧ d.isParticipant 7 2 = true :=
    ⟨sampleDb, rfl, by decide⟩
  ⟨hno, (join_conversation_guard sampleBobOnline 20 2 8).1 hno, hyes,
    (join_conversation_guard sampleBobOnline 20 2 7).2.2 hyes⟩

/-! ## The successful path of `send_message` -/

/-- When the insert is accepted, `send_message` runs to its two emissions: the joined row
comes back, and the outcome is one of two explicit traces, chosen by whether a recipient is
online. -/
theorem send_message_ok (sv : Server) (socketId : SocketId) (userId : UserId)
    (conversationId : ConversationId) (content : Option String) (d d1 : Database)
    (lastID : MessageId) (hdb : sv.db = some d)
    (hins : d.insertMessage conversationId userId content Status.sent = .ok (d1, lastID)) :
    ∃ text name, content = some text ∧
      d1.getMessageWithSender lastID =
        some { id := lastID, conversation_id := conversationId, sender_id := userId,
               content := text, status := Status.sent, created_at := d.now,
               sender_name := name } ∧
      send_message sv socketId userId conversationId content =
        if ((d.otherParticipants conversationId userId).filter
              (fun p => sv.connectedUsers.has p)).length > 0 then
          { server := { sv with db := some (d1.setStatus lastID Status.delivered) },
            trace := [.write (.insertMessage conversationId userId content Status.sent),
                      .write (.setStatus lastID Status.delivered),
                      .emit (.socket socketId) [socketId]
                        (.message_sent lastID Status.delivered),
                      .emit (.room (Room.conversation conversationId))
                        (sv.members (Room.conversation conversationId))
                        (.new_message
                          { id := lastID, conversation_id := conversationId,
                            sender_id := userId, content := text,
                            status := Status.delivered, created_at := d.now,
                            sender_name := name })] }
        else
          { server := { sv with db := some d1 },
            trace := [.write (.insertMessage conversationId userId content Status.sent),
                      .emit (.socket socketId) [socketId] (.message_sent lastID Status.sent),
                      .emit (.room (Room.conversation conversationId))
                        (sv.members (Room.conversation conversationId))
                        (.new_message
                          { id := lastID, conversation_id := conversationId,
                            sender_id := userId, content := text,
                            status := Status.sent, created_at := d.now,
                            sender_name := name })] } := by
  obtain ⟨text, name, hc, hget⟩ :=
    Database.insertMessage_getMessageWithSender d d1 conversationId userId content
      Status.sent lastID hins
  have hpart := Database.insertMessage_participants d d1 conversationId userId content
    Status.sent lastID hins conversationId userId
  refine ⟨text, name, hc, hget, ?_⟩
  unfold send_message
  simp only [hdb, getDb, hins, hget, hpart]

/-- The stored status of the new message after a successful `send_message`. -/
theorem send_message_stored (d d1 : Database) (conversationId : ConversationId)
    (userId : UserId) (content : Option String) (lastID : MessageId)
    (hins : d.insertMessage conversationId userId content Status.sent = .ok (d1, lastID)) :
    d1.statusOf lastID = some Status.sent ∧
    (d1.setStatus lastID Status.delivered).statusOf lastID = some Status.delivered := by
  obtain ⟨text, _, hfind⟩ :=
    Database.insertMessage_find_new d d1 conversationId userId content Status.sent lastID hins
  have h1 : d1.statusOf lastID = some Status.sent := by
    unfold Database.statusOf
    rw [hfind]
    rfl
  exact ⟨h1, Database.statusOf_setStatus_self d1 lastID Status.delivered Status.sent h1⟩

/-! ## C5 -/

/-- C5: after a successful `send_message` (the insert is accepted), the status stored for
the new message and carried by the `message_sent` acknowledgement is `delivered` exactly
when some participant row of the conversation names a user other than the sender who is a
key of `connectedUsers`, and `sent` exactly when there is none. -/
theorem send_message_status (sv : Server) (socketId : SocketId) (userId : UserId)
    (conversationId : ConversationId) (content : Option String) (d d1 : Database)
    (lastID : MessageId) (hdb : sv.db = some d)
    (hins : d.insertMessage conversationId userId content Status.sent = .ok (d1, lastID)) :
    ∃ status,
      (send_message sv socketId userId conversationId content).server.statusOf lastID =
        some status ∧
      Effect.emit (.socket socketId) [socketId] (.message_sent lastID status) ∈
        (send_message sv socketId userId conversationId content).trace ∧
      (status = Status.delivered ↔
        ∃ p ∈ d.conversation_participants,
          p.conversation_id = conversationId ∧ p.user_id ≠ userId ∧
          sv.connectedUsers.has p.user_id = true) ∧
      (status = Status.sent ↔
        ¬ ∃ p ∈ d.conversation_participants,
          p.conversation_id = conversationId ∧ p.user_id ≠ userId ∧
          sv.connectedUsers.has p.user_id = true) := by
  obtain ⟨text, name, _, _, hsend⟩ :=
    send_message_ok sv socketId userId conversationId content d d1 lastID hdb hins
  obtain ⟨hsent, hdelivered⟩ := send_message_stored d d1 conversationId userId content lastID hins
  have honline := online_iff d sv.connectedUsers conversationId userId
  rw [hsend]
  by_cases h : ((d.otherParticipants conversationId userId).filter
      (fun p => sv.connectedUsers.has p)).length > 0
  · rw [if_pos h]
    refine ⟨Status.delivered, ?_, ?_, ?_, ?_⟩
    · simpa [Server.statusOf] using hdelivered
    · simp
    · exact ⟨fun _ => honline.mp h, fun _ => rfl⟩
    · exact ⟨fun hh => (by cases hh), fun hh => absurd (honline.mp h) hh⟩
  · rw [if_neg h]
    refine ⟨Status.sent, ?_, ?_, ?_, ?_⟩
    · simpa [Server.statusOf] using hsent
    · simp
    · exact ⟨fun hh => (by cases hh), fun hh => absurd (honline.mpr hh) h⟩
    · exact ⟨fun _ hh => h (honline.mpr hh), fun _ => rfl⟩

/-- Witness for C5: alice sends to conversation 7 while bob is online. -/
theorem send_message_status_witness :
    sampleBobOnline.db = some sampleDb ∧
    sampleDb.insertMessage 7 1 (some "hi") Status.sent = .ok (sampleDbSent, 1) ∧
    ∃ status,
      (send_message sampleBobOnline 10 1 7 (some "hi")).server.statusOf 1 = some status ∧
      Effect.emit (.socket 10) [10] (.message_sent 1 status) ∈
        (send_message sampleBobOnline 10 1 7 (some "hi")).trace ∧
      (status = Status.delivered ↔
        ∃ p ∈ sampleDb.conversation_participants,
          p.conversation_id = 7 ∧ p.user_id ≠ 1 ∧
          sampleBobOnline.connectedUsers.has p.user_id = true) ∧
      (status = Status.sent ↔
        ¬ ∃ p ∈ sampleDb.conversation_participants,
          p.conversation_id = 7 ∧ p.user_id ≠ 1 ∧
          sampleBobOnline.connectedUsers.has p.user_id = true) :=
  ⟨rfl, rfl,
    send_message_status sampleBobOnline 10 1 7 (some "hi") sampleDb sampleDbSent 1 rfl rfl⟩

/-! ## C6 -/

/-- C6 as stated fails: alice sends the empty string, and then three blanks, to
conversation 7; each time a row with that content is stored, `message_sent` and
`new_message` are emitted, and no `message_error` is. -/
theorem send_message_accepts_blank_content :
    emissions (send_message sampleOnline 10 1 7 (some "")).trace =
      [.emit (.socket 10) [10] (.message_sent 1 Status.delivered),
       .emit (.room (Room.conversation 7)) [20, 10]
         (.new_message { id := 1, conversation_id := 7, sender_id := 1, content := "",
                         status := Status.delivered, created_at := 1000,
                         sender_name := "alice" })] ∧
    ((send_message sampleOnline 10 1 7 (some "   ")).server.db.map
        (fun d => d.messages)) =
      some [{ id := 1, conversation_id := 7, sender_id := 1, content := "   ",
              status := Status.delivered, created_at := 1000 }] ∧
    emissions (send_message sampleOnline 10 1 7 (some "   ")).trace =
      [.emit (.socket 10) [10] (.message_sent 1 Status.delivered),
       .emit (.room (Room.conversation 7)) [20, 10]
         (.new_message { id := 1, conversation_id := 7, sender_id := 1, content := "   ",
                         status := Status.delivered, created_at := 1000,
                         sender_name := "alice" })] := by
  decide

/-- C6, amended: `send_message` does not look at the content.  For every content string,
the empty and the whitespace-only ones included, when the conversation and the sender exist
in the store a new row with exactly that content is stored, and the emissions are the
`message_sent` acknowledgement and the `new_message` broadcast carrying that content; no
`message_error` is emitted. -/
theorem send_message_accepts_any_content (sv : Server) (socketId : SocketId)
    (userId : UserId) (conversationId : ConversationId) (text : String) (d : Database)
    (hdb : sv.db = some d)
    (hconv : d.conversations.any (fun x => x.id == conversationId) = true)
    (huser : d.users.any (fun x => x.id == userId) = true) :
    ∃ d2 status name,
      (send_message sv socketId userId conversationId (some text)).server.db = some d2 ∧
      d.findMessage d.nextMessageId = none ∧
      d2.findMessage d.nextMessageId =
        some { id := d.nextMessageId, conversation_id := conversationId,
               sender_id := userId, content := text, status := status,
               created_at := d.now } ∧
      emissions (send_message sv socketId userId conversationId (some text)).trace =
        [.emit (.socket socketId) [socketId] (.message_sent d.nextMessageId status),
         .emit (.room (Room.conversation conversationId))
           (sv.members (Room.conversation conversationId))
           (.new_message { id := d.nextMessageId, conversation_id := conversationId,
                           sender_id := userId, content := text, status := status,
                           created_at := d.now, sender_name := name })] := by
  have hins := Database.insertMessage_ok d conversationId userId text Status.sent hconv huser
  obtain ⟨text2, name, htext, _, hsend⟩ :=
    send_message_ok sv socketId userId conversationId (some text) d _ _ hdb hins
  obtain ⟨text3, htext3, hfind⟩ :=
    Database.insertMessage_find_new d _ conversationId userId (some text) Status.sent _ hins
  cases htext
  cases htext3
  rw [hsend]
  by_cases h : ((d.otherParticipants conversationId userId).filter
      (fun p => sv.connectedUsers.has p)).length > 0
  · rw [if_pos h]
    refine ⟨_, Status.delivered, name, rfl, Database.findMessage_next_none d, ?_, ?_⟩
    · rw [Database.findMessage_setStatus, hfind]
      simp
    · simp [emissions, Effect.isEmit]
  · rw [if_neg h]
    exact ⟨_, Status.sent, name, rfl, Database.findMessage_next_none d, hfind,
      by simp [emissions, Effect.isEmit]⟩

/-- Witness for C6: alice sends the empty string to conversation 7. -/
theorem send_message_accepts_any_content_witness :
    sampleOnline.db = some sampleDb ∧
    sampleDb.conversations.any (fun x => x.id == 7) = true ∧
    sampleDb.users.any (fun x => x.id == 1) = true ∧
    ∃ d2 status name,
      (send_message sampleOnline 10 1 7 (some "")).server.db = some d2 ∧
      sampleDb.findMessage sampleDb.nextMessageId = none ∧
      d2.findMessage sampleDb.nextMessageId =
        some { id := sampleDb.nextMessageId, conversation_id := 7, sender_id := 1,
               content := "", status := status, created_at := sampleDb.now } ∧
      emissions (send_message sampleOnline 10 1 7 (some "")).trace =
        [.emit (.socket 10) [10] (.message_sent sampleDb.nextMessageId status),
         .emit (.room (Room.conversation 7)) (sampleOnline.members (Room.conversation 7))
           (.new_message { id := sampleDb.nextMessageId, conversation_id := 7,
                           sender_id := 1, content := "", status := status,
                           created_at := sampleDb.now, sender_name := name })] :=
  ⟨rfl, by decide, by decide,
    send_message_accepts_any_content sampleOnline 10 1 7 "" sampleDb rfl (by decide)
      (by decide)⟩

/-! ## C7 -/

theorem Write.exec_insert_ok (d d1 : Database) (c : ConversationId) (u : UserId)
    (content : Option String) (status : Status) (lastID : MessageId)
    (hins : d.insertMessage c u content status = .ok (d1, lastID)) :
    (Write.insertMessage c u content status).exec d = d1 := by
  simp [Write.exec, hins]

theorem Write.exec_setStatus (d : Database) (id : MessageId) (status : Status) :
    (Write.setStatus id status).exec d = d.setStatus id status := rfl

/-- Splitting a list of four at one of its elements. -/
theorem split_four {α : Type} (a b c d e : α) (pre post : List α)
    (h : [a, b, c, d] = pre ++ e :: post) :
    (pre = [] ∧ e = a ∧ post = [b, c, d]) ∨ (pre = [a] ∧ e = b ∧ post = [c, d]) ∨
    (pre = [a, b] ∧ e = c ∧ post = [d]) ∨ (pre = [a, b, c] ∧ e = d ∧ post = []) := by
  rcases pre with _ | ⟨p1, _ | ⟨p2, _ | ⟨p3, _ | ⟨p4, rest⟩⟩⟩⟩ <;>
    simp only [List.nil_append, List.cons_append, List.cons.injEq] at h
  · obtain ⟨h1, h2⟩ := h
    exact Or.inl ⟨rfl, h1.symm, h2.symm⟩
  · obtain ⟨h1, h2, h3⟩ := h
    exact Or.inr (Or.inl ⟨by rw [h1], h2.symm, h3.symm⟩)
  · obtain ⟨h1, h2, h3, h4⟩ := h
    exact Or.inr (Or.inr (Or.inl ⟨by rw [h1, h2], h3.symm, h4.symm⟩))
  · obtain ⟨h1, h2, h3, h4, h5⟩ := h
    exact Or.inr (Or.inr (Or.inr ⟨by rw [h1, h2, h3], h4.symm, h5.symm⟩))
  · obtain ⟨_, _, _, _, h5⟩ := h
    cases rest <;> simp at h5

/-- Splitting a list of three at one of its elements. -/
theorem split_three {α : Type} (a b c e : α) (pre post : List α)
    (h : [a, b, c] = pre ++ e :: post) :
    (pre = [] ∧ e = a ∧ post = [b, c]) ∨ (pre = [a] ∧ e = b ∧ post = [c]) ∨
    (pre = [a, b] ∧ e = c ∧ post = []) := by
  rcases pre with _ | ⟨p1, _ | ⟨p2, _ | ⟨p3, rest⟩⟩⟩ <;>
    simp only [List.nil_append, List.cons_append, List.cons.injEq] at h
  · obtain ⟨h1, h2⟩ := h
    exact Or.inl ⟨rfl, h1.symm, h2.symm⟩
  · obtain ⟨h1, h2, h3⟩ := h
    exact Or.inr (Or.inl ⟨by rw [h1], h2.symm, h3.symm⟩)
  · obtain ⟨h1, h2, h3, h4⟩ := h
    exact Or.inr (Or.inr ⟨by rw [h1, h2], h3.symm, h4.symm⟩)
  · obtain ⟨_, _, _, h4⟩ := h
    cases rest <;> simp at h4

/-- C7: in the trace of a successful `send_message`, the database the handler leaves is the
one its writes produce; the two status-carrying emissions (`message_sent`, `new_message`)
announce the same status for the new message; and at every status-carrying emission the
announced message is the new one, the status it carries is the status stored at that moment
(after the writes that precede it in the trace), no write follows it, and the store already
is the final one. -/
theorem send_message_notify_after_persist (sv : Server) (socketId : SocketId)
    (userId : UserId) (conversationId : ConversationId) (content : Option String)
    (d d1 : Database) (lastID : MessageId) (hdb : sv.db = some d)
    (hins : d.insertMessage conversationId userId content Status.sent = .ok (d1, lastID)) :
    (send_message sv socketId userId conversationId content).server.db =
      some (replay d (send_message sv socketId userId conversationId content).trace) ∧
    (∃ status,
      (emissions (send_message sv socketId userId conversationId content).trace).map
        Effect.carriedStatus = [some (lastID, status), some (lastID, status)]) ∧
    ∀ pre e post id status,
      (send_message sv socketId userId conversationId content).trace = pre ++ e :: post →
      e.carriedStatus = some (id, status) →
      id = lastID ∧
      (replay d pre).statusOf id = some status ∧
      (∀ x ∈ post, x.isWrite = false) ∧
      replay d pre = replay d (send_message sv socketId userId conversationId content).trace := by
  obtain ⟨text, name, _, _, hsend⟩ :=
    send_message_ok sv socketId userId conversationId content d d1 lastID hdb hins
  obtain ⟨hsent, hdelivered⟩ :=
    send_message_stored d d1 conversationId userId content lastID hins
  have hexec := Write.exec_insert_ok d d1 conversationId userId content Status.sent lastID hins
  rw [hsend]
  by_cases h : ((d.otherParticipants conversationId userId).filter
      (fun p => sv.connectedUsers.has p)).length > 0
  · simp only [if_pos h]
    refine ⟨by simp [replay, hexec, Write.exec_setStatus], ⟨Status.delivered, by
      simp [emissions, Effect.isEmit, Effect.carriedStatus]⟩, ?_⟩
    intro pre e post id status hsplit hcarried
    rcases split_four _ _ _ _ e pre post hsplit with
      ⟨rfl, rfl, rfl⟩ | ⟨rfl, rfl, rfl⟩ | ⟨rfl, rfl, rfl⟩ | ⟨rfl, rfl, rfl⟩
    · simp [Effect.carriedStatus] at hcarried
    · simp [Effect.carriedStatus] at hcarried
    · simp only [Effect.carriedStatus, Option.some.injEq, Prod.mk.injEq] at hcarried
      obtain ⟨rfl, rfl⟩ := hcarried
      refine ⟨rfl, ?_, by simp [Effect.isWrite], by simp [replay, hexec, Write.exec_setStatus]⟩
      simpa [replay, hexec, Write.exec_setStatus] using hdelivered
    · simp only [Effect.carriedStatus, Option.some.injEq, Prod.mk.injEq] at hcarried
      obtain ⟨rfl, rfl⟩ := hcarried
      refine ⟨rfl, ?_, by simp, by simp [replay, hexec, Write.exec_setStatus]⟩
      simpa [replay, hexec, Write.exec_setStatus] using hdelivered
  · simp only [if_neg h]
    refine ⟨by simp [replay, hexec], ⟨Status.sent, by
      simp [emissions, Effect.isEmit, Effect.carriedStatus]⟩, ?_⟩
    intro pre e post id status hsplit hcarried
    rcases split_three _ _ _ e pre post hsplit with
      ⟨rfl, rfl, rfl⟩ | ⟨rfl, rfl, rfl⟩ | ⟨rfl, rfl, rfl⟩
    · simp [Effect.carriedStatus] at hcarried
    · simp only [Effect.carriedStatus, Option.some.injEq, Prod.mk.injEq] at hcarried
      obtain ⟨rfl, rfl⟩ := hcarried
      refine ⟨rfl, ?_, by simp [Effect.isWrite], by simp [replay, hexec]⟩
      simpa [replay, hexec] using hsent
    · simp only [Effect.carriedStatus, Option.some.injEq, Prod.mk.injEq] at hcarried
      obtain ⟨rfl, rfl⟩ := hcarried
      refine ⟨rfl, ?_, by simp, by simp [replay, hexec]⟩
      simpa [replay, hexec] using hsent

/-- Witness for C7: alice sends "hi" to conversation 7 while bob is online. -/
theorem send_message_notify_after_persist_witness :
    sampleOnline.db = some sampleDb ∧
    sampleDb.insertMessage 7 1 (some "hi") Status.sent = .ok (sampleDbSent, 1) ∧
    (send_message sampleOnline 10 1 7 (some "hi")).server.db =
      some (replay sampleDb (send_message sampleOnline 10 1 7 (some "hi")).trace) ∧
    (∃ status,
      (emissions (send_message sampleOnline 10 1 7 (some "hi")).trace).map
        Effect.carriedStatus = [some (1, status), some (1, status)]) ∧
    ∀ pre e post id status,
      (send_message sampleOnline 10 1 7 (some "hi")).trace = pre ++ e :: post →
      e.carriedStatus = some (id, status) →
      id = 1 ∧
      (replay sampleDb pre).statusOf id = some status ∧
      (∀ x ∈ post, x.isWrite = false) ∧
      replay sampleDb pre = replay sampleDb (send_message sampleOnline 10 1 7 (some "hi")).trace :=
  ⟨rfl, rfl,
    send_message_notify_after_persist sampleOnline 10 1 7 (some "hi") sampleDb sampleDbSent 1
      rfl rfl⟩

/-! ## C8 -/

theorem Database.getMessageWithSender_setStatus (d : Database) (id : MessageId)
    (status : Status) (m : MessageWithSender) (h : d.getMessageWithSender id = some m) :
    (d.setStatus id status).getMessageWithSender id = some { m with status := status } := by
  unfold Database.getMessageWithSender at h ⊢
  rw [Database.findMessage_setStatus]
  cases hm : d.findMessage id with
  | none => simp [hm] at h
  | some row =>
    have hid : row.id = id := by simpa using List.find?_some hm
    have husers : (d.setStatus id status).users = d.users := rfl
    rw [hm] at h
    simp only [Option.map_some', hid, if_true, husers] at h ⊢
    cases hu : d.users.find? (fun u => u.id == row.sender_id) with
    | none => simp [hu] at h
    | some usr =>
      simp only [hu, Option.some.injEq] at h ⊢
      rw [← h]

/-- C8: a successful `send_message` emits exactly two events, in this order: `message_sent`
addressed to the sending socket alone, carrying the id of the row the insert created (an id
no row had before) and a status; then `new_message` addressed to the room of the
conversation, received by every socket in that room and by no other, the sender's socket
included when it is in the room, and carrying the stored row of that id joined with the
sender's user name. -/
theorem send_message_emissions (sv : Server) (socketId : SocketId) (userId : UserId)
    (conversationId : ConversationId) (content : Option String) (d d1 : Database)
    (lastID : MessageId) (hdb : sv.db = some d)
    (hins : d.insertMessage conversationId userId content Status.sent = .ok (d1, lastID)) :
    ∃ d2 message recipients,
      (send_message sv socketId userId conversationId content).server.db = some d2 ∧
      emissions (send_message sv socketId userId conversationId content).trace =
        [.emit (.socket socketId) [socketId] (.message_sent lastID message.status),
         .emit (.room (Room.conversation conversationId)) recipients
           (.new_message message)] ∧
      d.findMessage lastID = none ∧
      d2.getMessageWithSender lastID = some message ∧
      message.id = lastID ∧
      (d.users.find? (fun x => x.id == userId)).map (fun x => x.username) =
        some message.sender_name ∧
      (∀ x, x ∈ recipients ↔ (x, Room.conversation conversationId) ∈ sv.rooms) ∧
      ((socketId, Room.conversation conversationId) ∈ sv.rooms → socketId ∈ recipients) := by
  obtain ⟨text, name, _, hget, hsend⟩ :=
    send_message_ok sv socketId userId conversationId content d d1 lastID hdb hins
  obtain ⟨_, _, hid, hd1⟩ :=
    Database.insertMessage_messages d d1 conversationId userId content Status.sent lastID hins
  have hnew : d.findMessage lastID = none := by
    rw [hid]
    exact Database.findMessage_next_none d
  have hname : (d.users.find? (fun x => x.id == userId)).map (fun x => x.username) =
      some name := by
    have husers : d1.users = d.users := by rw [hd1]
    have hg := hget
    unfold Database.getMessageWithSender at hg
    obtain ⟨_, _, hfind⟩ :=
      Database.insertMessage_find_new d d1 conversationId userId content Status.sent lastID hins
    rw [hfind, husers] at hg
    cases hu : d.users.find? (fun x => x.id == userId) with
    | none => simp [hu] at hg
    | some usr =>
      simp only [hu, Option.some.injEq, MessageWithSender.mk.injEq] at hg
      simp [hg.2.2.2.2.2.2]
  have hmem : ∀ x, x ∈ sv.members (Room.conversation conversationId) ↔
      (x, Room.conversation conversationId) ∈ sv.rooms :=
    fun x => Server.mem_members sv x _
  rw [hsend]
  by_cases h : ((d.otherParticipants conversationId userId).filter
      (fun p => sv.connectedUsers.has p)).length > 0
  · simp only [if_pos h]
    exact ⟨_, _, _, rfl, by simp [emissions, Effect.isEmit], hnew,
      Database.getMessageWithSender_setStatus d1 lastID Status.delivered _ hget, rfl, hname,
      hmem, (hmem socketId).mpr⟩
  · simp only [if_neg h]
    exact ⟨_, _, _, rfl, by simp [emissions, Effect.isEmit], hnew, hget, rfl, hname,
      hmem, (hmem socketId).mpr⟩

/-- Witness for C8: alice sends "hi" to conversation 7 while bob and she are in the room. -/
theorem send_message_emissions_witness :
    sampleOnline.db = some sampleDb ∧
    (10, Room.conversation 7) ∈ sampleOnline.rooms ∧
    sampleDb.insertMessage 7 1 (some "hi") Status.sent = .ok (sampleDbSent, 1) ∧
    ∃ d2 message recipients,
      (send_message sampleOnline 10 1 7 (some "hi")).server.db = some d2 ∧
      emissions (send_message sampleOnline 10 1 7 (some "hi")).trace =
        [.emit (.socket 10) [10] (.message_sent 1 message.status),
         .emit (.room (Room.conversation 7)) recipients (.new_message message)] ∧
      sampleDb.findMessage 1 = none ∧
      d2.getMessageWithSender 1 = some message ∧
      message.id = 1 ∧
      (sampleDb.users.find? (fun x => x.id == 1)).map (fun x => x.username) =
        some message.sender_name ∧
      (∀ x, x ∈ recipients ↔ (x, Room.conversation 7) ∈ sampleOnline.rooms) ∧
      ((10, Room.conversation 7) ∈ sampleOnline.rooms → 10 ∈ recipients) :=
  ⟨rfl, by decide, rfl,
    send_message_emissions sampleOnline 10 1 7 (some "hi") sampleDb sampleDbSent 1 rfl rfl⟩

/-! ## C9 -/

theorem Database.getSenderId_setStatus (d : Database) (id : MessageId) (status : Status)
    (m : MessageRow) (h : d.findMessage id = some m) :
    (d.setStatus id status).getSenderId id = some m.sender_id := by
  unfold Database.getSenderId
  rw [Database.findMessage_setStatus, h]
  have hid : m.id = id := by simpa using List.find?_some h
  simp [hid]

theorem Database.statusOf_of_findMessage (d : Database) (id : MessageId) (m : MessageRow)
    (h : d.findMessage id = some m) : d.statusOf id = some m.status := by
  unfold Database.statusOf
  rw [h]
  rfl

/-- In a reachable state the socket stored for a user is open, belongs to that user, and is
the only member of its private room. -/
theorem Server.private_room (sv : Server) (hc : sv.Consistent) (u : UserId) (s : SocketId)
    (h : sv.connectedUsers.get u = some s) :
    s ∈ sv.connectionsOf u ∧ ∀ x, x ∈ sv.members (Room.socket s) ↔ x = s := by
  have hmem := hc.registry_sound u s h
  refine ⟨(Server.mem_connectionsOf sv s u).mpr hmem, fun x => ?_⟩
  rw [Server.mem_members, hc.own_room]
  constructor
  · exact fun hx => hx.1
  · intro hx
    exact ⟨hx, List.mem_map.mpr ⟨(s, u), hmem, rfl⟩⟩

/-- C9: in a reachable state, `message_read` for an existing message first writes `read` as
its stored status, whatever the status was; then, when the message's sender is a key of
`connectedUsers`, it emits one `message_status` with that message id and `read`, addressed
to the private room of the socket stored for the sender, which only that socket, an open
connection of the sender, receives; when the sender is not a key it emits nothing; and no
emission is addressed to a conversation room. -/
theorem message_read_marks_and_notifies (d0 : Database) (evs : List Inbound) (sv : Server)
    (messageId : MessageId) (d : Database) (m : MessageRow)
    (hrun : run (Server.start d0) evs = some sv) (hdb : sv.db = some d)
    (hm : d.findMessage messageId = some m) :
    (message_read sv messageId).server.statusOf messageId = some Status.read ∧
    (∃ notes,
      (message_read sv messageId).trace = .write (.setStatus messageId Status.read) :: notes ∧
      (sv.connectedUsers.get m.sender_id = none → notes = []) ∧
      (∀ s, sv.connectedUsers.get m.sender_id = some s →
        ∃ recipients,
          notes = [.emit (.room (Room.socket s)) recipients
                    (.message_status messageId Status.read)] ∧
          (∀ x, x ∈ recipients ↔ x = s) ∧ s ∈ sv.connectionsOf m.sender_id)) ∧
    (∀ target recipients event c, Effect.emit target recipients event ∈
        (message_read sv messageId).trace →
      target ≠ .room (Room.conversation c) ∧
      ∀ origin, target ≠ .roomExcept (Room.conversation c) origin) := by
  have hc := Server.consistent_run evs (Server.start d0) sv (Server.consistent_start d0) hrun
  have hsender := Database.getSenderId_setStatus d messageId Status.read m hm
  have hstatus := Database.statusOf_setStatus_self d messageId Status.read m.status
    (Database.statusOf_of_findMessage d messageId m hm)
  cases hget : sv.connectedUsers.get m.sender_id with
  | none =>
    have htrace : message_read sv messageId =
        { server := { sv with db := some (d.setStatus messageId Status.read) },
          trace := [.write (.setStatus messageId Status.read)] } := by
      simp [message_read, hdb, getDb, hsender, hget]
    rw [htrace]
    refine ⟨by simpa [Server.statusOf] using hstatus, ⟨[], rfl, fun _ => rfl, ?_⟩, ?_⟩
    · intro s hs
      cases hs
    · intro target recipients event c hin
      simp at hin
  | some s =>
    have htrace : message_read sv messageId =
        { server := { sv with db := some (d.setStatus messageId Status.read) },
          trace := [.write (.setStatus messageId Status.read),
                    .emit (.room (Room.socket s)) (sv.members (Room.socket s))
                      (.message_status messageId Status.read)] } := by
      simp [message_read, hdb, getDb, hsender, hget]
    obtain ⟨hopen, honly⟩ := Server.private_room sv hc m.sender_id s hget
    rw [htrace]
    refine ⟨by simpa [Server.statusOf] using hstatus, ⟨_, rfl, ?_, ?_⟩, ?_⟩
    · intro hnone
      cases hnone
    · intro s2 hs2
      cases hs2
      exact ⟨_, rfl, honly, hopen⟩
    · intro target recipients event c hin
      simp only [List.mem_cons, List.mem_singleton, Effect.emit.injEq, List.not_mem_nil,
        or_false] at hin
      rcases hin with hin | hin
      · cases hin
      · obtain ⟨rfl, _, _⟩ := hin
        exact ⟨by simp, fun origin => by simp⟩

/-- Witness for C9: bob reads message 1 while alice, its sender, is online on socket 10. -/
theorem message_read_marks_and_notifies_witness :
    run (Server.start sampleDbSent)
      [.connection 10 1, .connection 20 2, .join_conversation 20 7,
       .join_conversation 10 7] = some sampleOnlineSent ∧
    (message_read sampleOnlineSent 1).server.statusOf 1 = some Status.read ∧
    (message_read sampleOnlineSent 1).trace =
      [.write (.setStatus 1 Status.read),
       .emit (.room (Room.socket 10)) [10] (.message_status 1 Status.read)] ∧
    (∀ target recipients event c, Effect.emit target recipients event ∈
        (message_read sampleOnlineSent 1).trace →
      target ≠ .room (Room.conversation c) ∧
      ∀ origin, target ≠ .roomExcept (Room.conversation c) origin) :=
  have t := message_read_marks_and_notifies sampleDbSent
    [.connection 10 1, .connection 20 2, .join_conversation 20 7, .join_conversation 10 7]
    sampleOnlineSent 1 sampleDbSent
    { id := 1, conversation_id := 7, sender_id := 1, content := "hi", status := Status.sent,
      created_at := 1000 } (by decide) rfl (by decide)
  ⟨by decide, t.1, by decide, t.2.2⟩

/-! ## C10 -/

/-- C10 as stated fails: alice, the sender of message 1, holds the open sockets 10 and 11;
`message_delivered` for message 1 emits one `message_status`, and only socket 11 receives
it. -/
theorem message_delivered_skips_other_connection :
    sampleTwoDevices.map
      (fun sv => (sv.connectionsOf 1, emissions (message_delivered sv 1).trace)) =
      some ([10, 11],
        [.emit (.room (Room.socket 11)) [11] (.message_status 1 Status.delivered)]) := by
  decide

/-- C10, amended: in a reachable state, `message_delivered` for an existing message whose
sender is a key of `connectedUsers` emits exactly one event, `message_status` with that
message id and `delivered`, addressed to the private room of the one socket id that
`connectedUsers` stores for the sender; that socket is an open connection of the sender and
is the only socket that receives the event, so any other connection the sender holds does
not receive it. -/
theorem message_delivered_notifies_stored_socket (d0 : Database) (evs : List Inbound)
    (sv : Server) (messageId : MessageId) (d : Database) (m : MessageRow) (s : SocketId)
    (hrun : run (Server.start d0) evs = some sv) (hdb : sv.db = some d)
    (hm : d.findMessage messageId = some m)
    (hget : sv.connectedUsers.get m.sender_id = some s) :
    ∃ recipients,
      emissions (message_delivered sv messageId).trace =
        [.emit (.room (Room.socket s)) recipients
          (.message_status messageId Status.delivered)] ∧
      s ∈ sv.connectionsOf m.sender_id ∧
      (∀ x, x ∈ recipients ↔ x = s) ∧
      (∀ x, x ∈ sv.connectionsOf m.sender_id → x ≠ s → x ∉ recipients) := by
  have hc := Server.consistent_run evs (Server.start d0) sv (Server.consistent_start d0) hrun
  have hsender := Database.getSenderId_setStatus d messageId Status.delivered m hm
  have htrace : message_delivered sv messageId =
      { server := { sv with db := some (d.setStatus messageId Status.delivered) },
        trace := [.write (.setStatus messageId Status.delivered),
                  .emit (.room (Room.socket s)) (sv.members (Room.socket s))
                    (.message_status messageId Status.delivered)] } := by
    simp [message_delivered, hdb, getDb, hsender, hget]
  obtain ⟨hopen, honly⟩ := Server.private_room sv hc m.sender_id s hget
  rw [htrace]
  refine ⟨_, by simp [emissions, Effect.isEmit], hopen, honly, ?_⟩
  intro x _ hne hx
  exact hne ((honly x).mp hx)

/-- Witness for C10: bob acknowledges delivery of message 1 while alice is online on
socket 10. -/
theorem message_delivered_notifies_stored_socket_witness :
    run (Server.start sampleDbSent)
      [.connection 10 1, .connection 20 2, .join_conversation 20 7,
       .join_conversation 10 7] = some sampleOnlineSent ∧
    sampleOnlineSent.connectedUsers.get 1 = some 10 ∧
    ∃ recipients,
      emissions (message_delivered sampleOnlineSent 1).trace =
        [.emit (.room (Room.socket 10)) recipients (.message_status 1 Status.delivered)] ∧
      10 ∈ sampleOnlineSent.connectionsOf 1 ∧
      (∀ x, x ∈ recipients ↔ x = 10) ∧
      (∀ x, x ∈ sampleOnlineSent.connectionsOf 1 → x ≠ 10 → x ∉ recipients) :=
  ⟨by decide, by decide,
    message_delivered_notifies_stored_socket sampleDbSent
      [.connection 10 1, .connection 20 2, .join_conversation 20 7, .join_conversation 10 7]
      sampleOnlineSent 1 sampleDbSent
      { id := 1, conversation_id := 7, sender_id := 1, content := "hi",
        status := Status.sent, created_at := 1000 } 10 (by decide) rfl (by decide)
      (by decide)⟩

/-! ## C11 -/

theorem Database.setStatus_of_findMessage_none (d : Database) (id : MessageId)
    (status : Status) (h : d.findMessage id = none) : d.setStatus id status = d := by
  unfold Database.findMessage at h
  rw [List.find?_eq_none] at h
  unfold Database.setStatus
  have hmap : List.map (fun m : MessageRow => if m.id = id then { m with status := status } else m)
      d.messages = d.messages := by
    conv_rhs => rw [← List.map_id d.messages]
    apply List.map_congr_left
    intro m hm
    have : ¬ m.id = id := by simpa using h m hm
    simp [this]
  rw [hmap]

theorem Database.getSenderId_of_findMessage_none (d : Database) (id : MessageId)
    (h : d.findMessage id = none) : d.getSenderId id = none := by
  unfold Database.getSenderId
  rw [h]
  rfl

theorem UserMap.get_of_has_false (m : UserMap) (k : UserId) (h : m.has k = false) :
    m.get k = none := by
  rw [UserMap.has_eq] at h
  cases hg : m.get k with
  | none => rfl
  | some v => simp [hg] at h

/-- C11: `message_delivered` and `message_read` for a message id that matches no row (or
with the store unavailable) leave the whole server state, so every message row, as it was,
emit no event to anybody and only write to the error log; and for an existing message
whose sender is not a key of `connectedUsers` they emit no event at all, so neither
`message_status` nor `error`. -/
theorem status_update_silent (sv : Server) (messageId : MessageId) :
    ((∀ d, sv.db = some d → d.findMessage messageId = none) →
      (message_delivered sv messageId).server = sv ∧
      emissions (message_delivered sv messageId).trace = [] ∧
      Effect.console true "Message status update error:" ∈
        (message_delivered sv messageId).trace ∧
      (message_read sv messageId).server = sv ∧
      emissions (message_read sv messageId).trace = [] ∧
      Effect.console true "Message status update error:" ∈
        (message_read sv messageId).trace) ∧
    (∀ d m, sv.db = some d → d.findMessage messageId = some m →
      sv.connectedUsers.has m.sender_id = false →
      emissions (message_delivered sv messageId).trace = [] ∧
      emissions (message_read sv messageId).trace = []) := by
  constructor
  · intro hmissing
    cases hdb : sv.db with
    | none =>
      simp [message_delivered, message_read, hdb, getDb, emissions, Effect.isEmit]
    | some d =>
      have hnone := hmissing d hdb
      have hsv : ∀ status, ({ sv with db := some (d.setStatus messageId status) } : Server) = sv := by
        intro status
        rw [Database.setStatus_of_findMessage_none d messageId status hnone, ← hdb]
      have hsender : ∀ status, (d.setStatus messageId status).getSenderId messageId = none := by
        intro status
        rw [Database.setStatus_of_findMessage_none d messageId status hnone]
        exact Database.getSenderId_of_findMessage_none d messageId hnone
      simp [message_delivered, message_read, hdb, getDb, hsender, emissions, Effect.isEmit]
      exact ⟨hsv _, hsv _⟩
  · intro d m hdb hm hoff
    have hget := UserMap.get_of_has_false sv.connectedUsers m.sender_id hoff
    have h1 := Database.getSenderId_setStatus d messageId Status.delivered m hm
    have h2 := Database.getSenderId_setStatus d messageId Status.read m hm
    simp [message_delivered, message_read, hdb, getDb, h1, h2, hget, emissions, Effect.isEmit]

/-- Witness for C11: message 99 does not exist; message 1 exists and its sender, alice, is
offline. -/
theorem status_update_silent_witness :
    (∀ d, sampleBobOnlineSent.db = some d → d.findMessage 99 = none) ∧
    ((message_delivered sampleBobOnlineSent 99).server = sampleBobOnlineSent ∧
      emissions (message_delivered sampleBobOnlineSent 99).trace = [] ∧
      Effect.console true "Message status update error:" ∈
        (message_delivered sampleBobOnlineSent 99).trace ∧
      (message_read sampleBobOnlineSent 99).server = sampleBobOnlineSent ∧
      emissions (message_read sampleBobOnlineSent 99).trace = [] ∧
      Effect.console true "Message status update error:" ∈
        (message_read sampleBobOnlineSent 99).trace) ∧
    sampleBobOnlineSent.connectedUsers.has 1 = false ∧
    (emissions (message_delivered sampleBobOnlineSent 1).trace = [] ∧
      emissions (message_read sampleBobOnlineSent 1).trace = []) :=
  have hmissing : ∀ d, sampleBobOnlineSent.db = some d → d.findMessage 99 = none := by
    intro d hd
    cases hd
    decide
  ⟨hmissing, (status_update_silent sampleBobOnlineSent 99).1 hmissing, by decide,
    (status_update_silent sampleBobOnlineSent 1).2 sampleDbSent
      { id := 1, conversation_id := 7, sender_id := 1, content := "hi",
        status := Status.sent, created_at := 1000 } rfl (by decide) (by decide)⟩

/-! ## C12 -/

/-- C12 fails on the code: carol (socket 30) is not a participant of conversation 7, which
holds message 1, stored as `sent`.  Her `message_read` for message 1 stores `read` and
notifies alice, the sender; her `message_delivered` stores `delivered` and notifies alice;
neither emits an `error` event to socket 30. -/
theorem status_update_by_outsider :
    sampleDbCarol.isParticipant 7 3 = false ∧
    sampleDbCarol.statusOf 1 = some Status.sent ∧
    (sampleCarolOnline.bind (fun sv => step sv (.message_read 30 1))).map
        (fun out => (out.server.statusOf 1, out.trace)) =
      some (some Status.read,
        [.write (.setStatus 1 Status.read),
         .emit (.room (Room.socket 10)) [10] (.message_status 1 Status.read)]) ∧
    (sampleCarolOnline.bind (fun sv => step sv (.message_delivered 30 1))).map
        (fun out => (out.server.statusOf 1, out.trace)) =
      some (some Status.delivered,
        [.write (.setStatus 1 Status.delivered),
         .emit (.room (Room.socket 10)) [10] (.message_status 1 Status.delivered)]) := by
  decide

/-! ## C14 -/

/-- C14 fails on the code: a `message_delivered` or `message_read` event without a payload
rejects the listener's promise in every state, and the process exits with code 1; the same
event on `send_message` is caught and answered with `message_error`. -/
theorem status_listener_rejects_missing_payload (sv : Server) (socketId : SocketId)
    (userId : UserId) :
    message_delivered_listener sv .nullish = .rejected ∧
    message_read_listener sv .nullish = .rejected ∧
    Process.afterListener (message_delivered_listener sv .nullish) = .exited 1 ∧
    Process.afterListener (message_read_listener sv .nullish) = .exited 1 ∧
    Process.afterListener (send_message_listener sv socketId userId none) = .running sv :=
  ⟨rfl, rfl, rfl, rfl, rfl⟩

/-! ## C13 -/

/-- Only `send_message` emits `new_message`, and when it does the row is in the store it
leaves. -/
theorem send_message_new_message_stored (sv : Server) (socketId : SocketId)
    (userId : UserId) (conversationId : ConversationId) (content : Option String)
    (target : Target) (recipients : List SocketId) (message : MessageWithSender)
    (h : Effect.emit target recipients (.new_message message) ∈
      (send_message sv socketId userId conversationId content).trace) :
    ∃ d2 row, (send_message sv socketId userId conversationId content).server.db = some d2 ∧
      d2.findMessage message.id = some row ∧ row.id = message.id ∧
      row.status = message.status := by
  cases hdb : sv.db with
  | none => simp [send_message, send_message_failed, hdb, getDb] at h
  | some d =>
    cases hins : d.insertMessage conversationId userId content Status.sent with
    | error e => simp [send_message, send_message_failed, hdb, getDb, hins] at h
    | ok r =>
      obtain ⟨d1, lastID⟩ := r
      obtain ⟨text, name, htext, _, hsend⟩ :=
        send_message_ok sv socketId userId conversationId content d d1 lastID hdb hins
      obtain ⟨text2, htext2, hfind⟩ :=
        Database.insertMessage_find_new d d1 conversationId userId content Status.sent
          lastID hins
      have hsame : text2 = text := Option.some.inj (htext2.symm.trans htext)
      subst hsame
      rw [hsend] at h ⊢
      by_cases hon : ((d.otherParticipants conversationId userId).filter
          (fun p => sv.connectedUsers.has p)).length > 0
      · simp only [if_pos hon] at h ⊢
        simp only [List.mem_cons, List.mem_singleton, Effect.emit.injEq, List.not_mem_nil,
          or_false, reduceCtorEq, false_or, Emitted.new_message.injEq, false_and,
          and_false] at h
        obtain ⟨_, _, rfl⟩ := h
        refine ⟨_, { id := lastID, conversation_id := conversationId, sender_id := userId,
                     content := text2, status := Status.delivered, created_at := d.now },
          rfl, ?_, rfl, rfl⟩
        rw [Database.findMessage_setStatus, hfind]
        simp
      · simp only [if_neg hon] at h ⊢
        simp only [List.mem_cons, List.mem_singleton, Effect.emit.injEq, List.not_mem_nil,
          or_false, reduceCtorEq, false_or, Emitted.new_message.injEq, false_and,
          and_false] at h
        obtain ⟨_, _, rfl⟩ := h
        exact ⟨_, _, rfl, hfind, rfl, rfl⟩

theorem message_delivered_no_new_message (sv : Server) (id : MessageId) (target : Target)
    (recipients : List SocketId) (message : MessageWithSender) :
    Effect.emit target recipients (.new_message message) ∉ (message_delivered sv id).trace := by
  unfold message_delivered
  dsimp only
  repeat' split
  all_goals simp

theorem message_read_no_new_message (sv : Server) (id : MessageId) (target : Target)
    (recipients : List SocketId) (message : MessageWithSender) :
    Effect.emit target recipients (.new_message message) ∉ (message_read sv id).trace := by
  unfold message_read
  dsimp only
  repeat' split
  all_goals simp

theorem join_conversation_no_new_message (sv : Server) (s : SocketId) (u : UserId)
    (c : ConversationId) (target : Target) (recipients : List SocketId)
    (message : MessageWithSender) :
    Effect.emit target recipients (.new_message message) ∉
      (join_conversation sv s u c).trace := by
  unfold join_conversation
  repeat' split
  all_goals simp

/-- C13: when the insert of `send_message` is refused, or the store cannot be reached, the
handler leaves the whole server state as it was, the presence registry and the rooms
included, and its only emission is `message_error` to the sending socket, so neither
`message_sent` nor `new_message`; and for every inbound event, whenever `new_message` is
emitted for a message, the store the handler leaves holds a row with that id, carrying the
announced status. -/
theorem send_message_insert_failure (sv : Server) (socketId : SocketId) (userId : UserId)
    (conversationId : ConversationId) (content : Option String) :
    ((∀ d, sv.db = some d →
        ∃ e, d.insertMessage conversationId userId content Status.sent = .error e) →
      (send_message sv socketId userId conversationId content).server = sv ∧
      emissions (send_message sv socketId userId conversationId content).trace =
        [.emit (.socket socketId) [socketId] (.message_error "Failed to send message")]) ∧
    (∀ ev out target recipients message, step sv ev = some out →
      Effect.emit target recipients (.new_message message) ∈ out.trace →
      ∃ d2 row, out.server.db = some d2 ∧ d2.findMessage message.id = some row ∧
        row.id = message.id ∧ row.status = message.status) := by
  constructor
  · intro hfail
    cases hdb : sv.db with
    | none =>
      simp [send_message, send_message_failed, hdb, getDb, emissions, Effect.isEmit]
    | some d =>
      obtain ⟨e, he⟩ := hfail d hdb
      simp [send_message, send_message_failed, hdb, getDb, he, emissions, Effect.isEmit]
  · intro ev out target recipients message hstep hin
    cases ev with
    | connection s u =>
      simp only [step] at hstep
      cases hu : sv.userOf s with
      | some u2 => simp [hu] at hstep
      | none =>
        simp only [hu, Option.some.injEq] at hstep
        subst hstep
        simp [connection] at hin
    | disconnect s =>
      simp only [step, Option.map_eq_some'] at hstep
      obtain ⟨u, _, rfl⟩ := hstep
      simp [disconnect] at hin
    | join_conversation s c =>
      simp only [step, Option.map_eq_some'] at hstep
      obtain ⟨u, _, rfl⟩ := hstep
      exact absurd hin (join_conversation_no_new_message sv s u c _ _ _)
    | leave_conversation s c =>
      simp only [step, Option.map_eq_some'] at hstep
      obtain ⟨u, _, rfl⟩ := hstep
      simp [leave_conversation] at hin
    | send_message s c content2 =>
      simp only [step, Option.map_eq_some'] at hstep
      obtain ⟨u, _, rfl⟩ := hstep
      exact send_message_new_message_stored sv s u c content2 _ _ _ hin
    | message_delivered s id =>
      simp only [step, Option.map_eq_some'] at hstep
      obtain ⟨u, _, rfl⟩ := hstep
      exact absurd hin (message_delivered_no_new_message sv id _ _ _)
    | message_read s id =>
      simp only [step, Option.map_eq_some'] at hstep
      obtain ⟨u, _, rfl⟩ := hstep
      exact absurd hin (message_read_no_new_message sv id _ _ _)
    | typing_start s c =>
      simp only [step, Option.map_eq_some'] at hstep
      obtain ⟨u, _, rfl⟩ := hstep
      simp [typing_start] at hin
    | typing_stop s c =>
      simp only [step, Option.map_eq_some'] at hstep
      obtain ⟨u, _, rfl⟩ := hstep
      simp [typing_stop] at hin
    | http update =>
      simp only [step, Option.some.injEq] at hstep
      subst hstep
      simp at hin

/-- Witness for C13: alice sends to conversation 8, which does not exist, so the foreign
key refuses the insert; and her send to conversation 7 broadcasts a stored row. -/
theorem send_message_insert_failure_witness :
    (∀ d, sampleOnline.db = some d →
        ∃ e, d.insertMessage 8 1 (some "hi") Status.sent = .error e) ∧
    ((send_message sampleOnline 10 1 8 (some "hi")).server = sampleOnline ∧
      emissions (send_message sampleOnline 10 1 8 (some "hi")).trace =
        [.emit (.socket 10) [10] (.message_error "Failed to send message")]) ∧
    step sampleOnline (.send_message 10 7 (some "hi")) =
      some (send_message sampleOnline 10 1 7 (some "hi")) ∧
    Effect.emit (.room (Room.conversation 7)) [20, 10]
        (.new_message { id := 1, conversation_id := 7, sender_id := 1, content := "hi",
                        status := Status.delivered, created_at := 1000,
                        sender_name := "alice" }) ∈
      (send_message sampleOnline 10 1 7 (some "hi")).trace ∧
    ∃ d2 row, (send_message sampleOnline 10 1 7 (some "hi")).server.db = some d2 ∧
      d2.findMessage 1 = some row ∧ row.id = 1 ∧ row.status = Status.delivered :=
  have hfail : ∀ d, sampleOnline.db = some d →
      ∃ e, d.insertMessage 8 1 (some "hi") Status.sent = .error e := by
    intro d hd
    cases hd
    exact ⟨DbError.foreignKey, rfl⟩
  ⟨hfail, (send_message_insert_failure sampleOnline 10 1 8 (some "hi")).1 hfail, by decide,
    by decide,
    (send_message_insert_failure sampleOnline 10 1 8 (some "hi")).2
      (.send_message 10 7 (some "hi")) (send_message sampleOnline 10 1 7 (some "hi"))
      (.room (Room.conversation 7)) [20, 10]
      { id := 1, conversation_id := 7, sender_id := 1, content := "hi",
        status := Status.delivered, created_at := 1000, sender_name := "alice" }
      (by decide) (by decide)⟩

/-! ## C15 -/

theorem truthy_jsOr (a b : Option String) : truthy (jsOr a b) = (truthy a || truthy b) := by
  unfold jsOr
  cases h : truthy a <;> simp [h]

theorem truthy_extractToken (h : Handshake) :
    truthy (extractToken h) =
      (truthy h.query_token || truthy (bearerField h.headers_authorization) ||
        truthy h.auth_token) := by
  unfold extractToken
  rw [truthy_jsOr, truthy_jsOr]

theorem truthy_some_token (value : Option String) (h : truthy value = true) :
    ∃ token, value = some token := by
  cases value with
  | none => simp [truthy] at h
  | some token => exact ⟨token, rfl⟩

/-- C15: the middleware answers `Authentication required` exactly when none of the query
token, the second field of the authorization header and the auth payload token is a
non-empty string; `Invalid token` when `jwt.verify` rejects the token found; `User not
found` when the verified payload's `userId` matches no row of `users`; it accepts, setting
`socket.user`, exactly when a token is found, verifies, and its `userId` is the id of a row
of `users`, which is then the user attached; a refused attempt leaves the whole server
state, the presence registry included, as it was, and an accepted one runs the
`connection` callback for the attached user. -/
theorem handshake_outcomes (verify : String → Option Decoded) (sv : Server)
    (socketId : SocketId) (h : Handshake) :
    ((authenticate verify sv.db h).result = .refused "Authentication required" ↔
      truthy h.query_token = false ∧ truthy (bearerField h.headers_authorization) = false ∧
        truthy h.auth_token = false) ∧
    (∀ token, extractToken h = some token → token ≠ "" → verify token = none →
      (authenticate verify sv.db h).result = .refused "Invalid token") ∧
    (∀ token decoded d, extractToken h = some token → token ≠ "" →
      verify token = some decoded → sv.db = some d →
      decoded.userId.bind (fun id => d.users.find? (fun u => u.id == id)) = none →
      (authenticate verify sv.db h).result = .refused "User not found") ∧
    (∀ user, (authenticate verify sv.db h).result = .accepted user ↔
      ∃ token decoded d id, extractToken h = some token ∧ token ≠ "" ∧
        verify token = some decoded ∧ sv.db = some d ∧ decoded.userId = some id ∧
        d.users.find? (fun u => u.id == id) = some user) ∧
    (∀ message, (authenticate verify sv.db h).result = .refused message →
      (connect verify sv socketId h).server = sv) ∧
    (∀ user, (authenticate verify sv.db h).result = .accepted user →
      (connect verify sv socketId h).server = (connection sv socketId user.id).server) := by
  refine ⟨?_, ?_, ?_, ?_, ?_, ?_⟩
  · have ht := truthy_extractToken h
    constructor
    · intro hres
      by_cases hfalsy : truthy (extractToken h) = false
      · rw [ht] at hfalsy
        simpa [Bool.or_eq_false_iff, and_assoc] using hfalsy
      · exfalso
        unfold authenticate at hres
        rw [if_neg hfalsy] at hres
        revert hres
        unfold authenticate_failed
        repeat' split
        all_goals simp
    · rintro ⟨h1, h2, h3⟩
      have hfalsy : truthy (extractToken h) = false := by
        rw [ht, h1, h2, h3]
        rfl
      unfold authenticate
      rw [if_pos hfalsy]
  · intro token htoken hne hverify
    have htruthy : ¬ truthy (extractToken h) = false := by
      simp [htoken, truthy, hne]
    unfold authenticate
    rw [if_neg htruthy]
    simp [htoken, hverify, authenticate_failed]
  · intro token decoded d htoken hne hverify hdb hnone
    have htruthy : ¬ truthy (extractToken h) = false := by
      simp [htoken, truthy, hne]
    unfold authenticate
    rw [if_neg htruthy]
    simp only [htoken, Option.some_bind, hverify, hdb, getDb, hnone]
  · intro user
    constructor
    · intro hres
      by_cases hfalsy : truthy (extractToken h) = false
      · unfold authenticate at hres
        rw [if_pos hfalsy] at hres
        cases hres
      · have htruthy : truthy (extractToken h) = true := by
          simpa using hfalsy
        obtain ⟨token, htoken⟩ := truthy_some_token _ htruthy
        have hne : token ≠ "" := by
          simpa [htoken, truthy] using htruthy
        unfold authenticate at hres
        rw [if_neg hfalsy] at hres
        simp only [htoken, Option.some_bind] at hres
        cases hverify : verify token with
        | none => simp [hverify, authenticate_failed] at hres
        | some decoded =>
          cases hdb : sv.db with
          | none => simp [hverify, hdb, getDb, authenticate_failed] at hres
          | some d =>
            cases hid : decoded.userId with
            | none => simp [hverify, hdb, getDb, hid] at hres
            | some id =>
              cases hfind : d.users.find? (fun u => u.id == id) with
              | none => simp [hverify, hdb, getDb, hid, hfind] at hres
              | some found =>
                simp only [hverify, hdb, getDb, hid, Option.some_bind, hfind,
                  AuthResult.accepted.injEq] at hres
                exact ⟨token, decoded, d, id, htoken, hne, hverify, rfl, hid, hres ▸ hfind⟩
    · rintro ⟨token, decoded, d, id, htoken, hne, hverify, hdb, hid, hfind⟩
      have htruthy : ¬ truthy (extractToken h) = false := by
        simp [htoken, truthy, hne]
      unfold authenticate
      rw [if_neg htruthy]
      simp only [htoken, Option.some_bind, hverify, hdb, getDb, hid, hfind]
  · intro message hres
    unfold connect
    rw [hres]
  · intro user hres
    unfold connect
    rw [hres]

/-- Witness for C15: no token at all; a token `jwt.verify` rejects; a verified token for
user 99, who has no row; and alice's token. -/
theorem handshake_outcomes_witness :
    (authenticate sampleVerify (Server.start sampleDb).db ⟨none, none, none⟩).result =
      .refused "Authentication required" ∧
    (authenticate sampleVerify (Server.start sampleDb).db
      ⟨none, some "Bearer forged", none⟩).result = .refused "Invalid token" ∧
    (authenticate sampleVerify (Server.start sampleDb).db
      ⟨some "ghost-token", none, none⟩).result = .refused "User not found" ∧
    (authenticate sampleVerify (Server.start sampleDb).db
      ⟨none, none, some "alice-token"⟩).result =
      .accepted { id := 1, username := "alice", email := "alice@example.org" } ∧
    (connect sampleVerify (Server.start sampleDb) 10 ⟨some "ghost-token", none, none⟩).server =
      Server.start sampleDb ∧
    (connect sampleVerify (Server.start sampleDb) 10 ⟨none, none, some "alice-token"⟩).server =
      (connection (Server.start sampleDb) 10 1).server :=
  ⟨(handshake_outcomes sampleVerify (Server.start sampleDb) 10 ⟨none, none, none⟩).1.mpr
      ⟨rfl, rfl, rfl⟩,
    (handshake_outcomes sampleVerify (Server.start sampleDb) 10
      ⟨none, some "Bearer forged", none⟩).2.1 "forged" (by decide) (by decide) (by decide),
    (handshake_outcomes sampleVerify (Server.start sampleDb) 10
      ⟨some "ghost-token", none, none⟩).2.2.1 "ghost-token" { userId := some 99 } sampleDb
      (by decide) (by decide) (by decide) rfl (by decide),
    ((handshake_outcomes sampleVerify (Server.start sampleDb) 10
      ⟨none, none, some "alice-token"⟩).2.2.2.1
      { id := 1, username := "alice", email := "alice@example.org" }).mpr
      ⟨"alice-token", { userId := some 1 }, sampleDb, 1, by decide, by decide, by decide, rfl,
        rfl, by decide⟩,
    (handshake_outcomes sampleVerify (Server.start sampleDb) 10
      ⟨some "ghost-token", none, none⟩).2.2.2.2.1 "User not found" (by decide),
    (handshake_outcomes sampleVerify (Server.start sampleDb) 10
      ⟨none, none, some "alice-token"⟩).2.2.2.2.2
      { id := 1, username := "alice", email := "alice@example.org" } (by decide)⟩

/-! ## C16 -/

theorem splitAtSpaces_no_space (b : List Char) (hb : ' ' ∉ b) : splitAtSpaces b = (b, []) := by
  induction b with
  | nil => rfl
  | cons c rest ih =>
    have hc : c ≠ ' ' := fun h => hb (h ▸ List.mem_cons_self _ _)
    have hrest : ' ' ∉ rest := fun h => hb (List.mem_cons_of_mem _ h)
    simp [splitAtSpaces, ih hrest, hc]

theorem splitAtSpaces_first (a b : List Char) (ha : ' ' ∉ a) :
    splitAtSpaces (a ++ ' ' :: b) = (a, (splitAtSpaces b).1 :: (splitAtSpaces b).2) := by
  induction a with
  | nil => simp [splitAtSpaces]
  | cons c rest ih =>
    have hc : c ≠ ' ' := fun h => ha (h ▸ List.mem_cons_self _ _)
    have hrest : ' ' ∉ rest := fun h => ha (List.mem_cons_of_mem _ h)
    simp [splitAtSpaces, ih hrest, hc]

theorem bearerField_second (a b : List Char) (ha : ' ' ∉ a) (hb : ' ' ∉ b)
    (rest : List Char) :
    bearerField (some (String.mk (a ++ ' ' :: b))) = some (String.mk b) ∧
    bearerField (some (String.mk (a ++ ' ' :: (b ++ ' ' :: rest)))) = some (String.mk b) := by
  constructor
  · simp [bearerField, splitAtSpaces_first a b ha, splitAtSpaces_no_space b hb]
  · simp [bearerField, splitAtSpaces_first a _ ha, splitAtSpaces_first b rest hb]

/-- C16: the token the middleware uses is the query token when that is a non-empty string;
otherwise the second space-separated field of the authorization header when that is a
non-empty string; otherwise the auth payload token.  The second field of `scheme token`
and of `scheme token more` is `token`, a header without a space has none, and the
middleware depends on the handshake through this token only. -/
theorem token_precedence (h : Handshake) :
    (truthy h.query_token = true → extractToken h = h.query_token) ∧
    (truthy h.query_token = false →
      truthy (bearerField h.headers_authorization) = true →
      extractToken h = bearerField h.headers_authorization) ∧
    (truthy h.query_token = false →
      truthy (bearerField h.headers_authorization) = false →
      extractToken h = h.auth_token) ∧
    (∀ a b rest : List Char, ' ' ∉ a → ' ' ∉ b →
      bearerField (some (String.mk (a ++ ' ' :: b))) = some (String.mk b) ∧
      bearerField (some (String.mk (a ++ ' ' :: (b ++ ' ' :: rest)))) = some (String.mk b)) ∧
    (∀ a : List Char, ' ' ∉ a → bearerField (some (String.mk a)) = none) ∧
    (∀ verify db h2, extractToken h2 = extractToken h →
      authenticate verify db h2 = authenticate verify db h) := by
  refine ⟨?_, ?_, ?_, ?_, ?_, ?_⟩
  · intro hq
    simp [extractToken, jsOr, hq]
  · intro hq hb
    simp [extractToken, jsOr, hq, hb]
  · intro hq hb
    simp [extractToken, jsOr, hq, hb]
  · intro a b rest ha hb
    exact bearerField_second a b ha hb rest
  · intro a ha
    simp [bearerField, splitAtSpaces_no_space a ha]
  · intro verify db h2 heq
    unfold authenticate
    rw [heq]

/-- Witness for C16: a query token beats the header and the auth payload; with an empty
query token the header's second field is used; with neither, the auth payload token. -/
theorem token_precedence_witness :
    extractToken ⟨some "q", some "Bearer h", some "a"⟩ = some "q" ∧
    extractToken ⟨some "", some "Bearer h", some "a"⟩ = some "h" ∧
    extractToken ⟨none, some "Bearer", some "a"⟩ = some "a" ∧
    bearerField (some "Bearer h") = some "h" :=
  ⟨(token_precedence ⟨some "q", some "Bearer h", some "a"⟩).1 (by decide),
    (token_precedence ⟨some "", some "Bearer h", some "a"⟩).2.1 (by decide) (by decide),
    (token_precedence ⟨none, some "Bearer", some "a"⟩).2.2.1 (by decide) (by decide),
    ((token_precedence ⟨none, none, none⟩).2.2.2.1 "Bearer".data "h".data [] (by decide)
      (by decide)).1⟩

/-! ## C17 -/

/-- C17: `typing_start` and `typing_stop` leave the whole server state as it was (message
rows, participant rows, presence registry, rooms), and each has exactly one effect: the
emission of `user_typing`, respectively `user_stopped_typing`, carrying the socket's user id
and the conversation id, addressed to the conversation's room without the originating
socket and received by exactly the sockets of that room other than the originating one. -/
theorem typing_broadcast (sv : Server) (socketId : SocketId) (userId : UserId)
    (conversationId : ConversationId) :
    (typing_start sv socketId userId conversationId).server = sv ∧
    (typing_stop sv socketId userId conversationId).server = sv ∧
    ∃ recipients,
      (typing_start sv socketId userId conversationId).trace =
        [.emit (.roomExcept (Room.conversation conversationId) socketId) recipients
          (.user_typing userId conversationId)] ∧
      (typing_stop sv socketId userId conversationId).trace =
        [.emit (.roomExcept (Room.conversation conversationId) socketId) recipients
          (.user_stopped_typing userId conversationId)] ∧
      ∀ x, x ∈ recipients ↔
        (x, Room.conversation conversationId) ∈ sv.rooms ∧ x ≠ socketId := by
  refine ⟨rfl, rfl, _, rfl, rfl, ?_⟩
  intro x
  simp only [List.mem_filter, Server.mem_members, bne_iff_ne, ne_eq]

/-! ## C18 -/

theorem UserMap.delete_eq_self_iff (m : UserMap) (k : UserId) :
    m.delete k = m ↔ m.has k = false := by
  constructor
  · intro h
    rw [UserMap.has_eq, ← h, UserMap.get_delete, if_pos rfl]
    rfl
  · intro h
    unfold UserMap.has at h
    unfold UserMap.delete
    have hall : ∀ e ∈ m.entries, (e.1 != k) = true := by
      intro e he
      have := List.any_eq_false.mp h e he
      simpa using this
    rw [List.filter_eq_self.mpr hall]

theorem UserMap.has_delete_self (m : UserMap) (k : UserId) : (m.delete k).has k = false := by
  rw [UserMap.has_eq, UserMap.get_delete, if_pos rfl]
  rfl

/-- While the user does not connect again, the user stays out of the registry. -/
theorem offline_run (u : UserId) (evs : List Inbound) (sv sv2 : Server)
    (hoff : sv.connectedUsers.has u = false) (hno : ∀ s, Inbound.connection s u ∉ evs)
    (h : run sv evs = some sv2) : sv2.connectedUsers.has u = false := by
  induction evs generalizing sv with
  | nil =>
    simp only [run, Option.some.injEq] at h
    exact h ▸ hoff
  | cons ev rest ih =>
    simp only [run] at h
    cases hs : step sv ev with
    | none => simp [hs] at h
    | some out =>
      rw [hs] at h
      refine ih out.server ?_ (fun s hin => hno s (List.mem_cons_of_mem _ hin)) h
      cases ev with
      | connection s u2 =>
        have hne : u2 ≠ u := by
          intro heq
          exact hno s (heq ▸ List.mem_cons_self _ _)
        simp only [step] at hs
        cases hu : sv.userOf s with
        | some u3 => simp [hu] at hs
        | none =>
          simp only [hu, Option.some.injEq] at hs
          subst hs
          rw [UserMap.has_eq] at hoff ⊢
          simp only [connection, UserMap.get_set]
          rw [if_neg (fun heq => hne heq.symm)]
          exact hoff
      | disconnect s =>
        simp only [step, Option.map_eq_some'] at hs
        obtain ⟨u2, _, rfl⟩ := hs
        rw [UserMap.has_eq] at hoff ⊢
        simp only [disconnect, UserMap.get_delete]
        split
        · rfl
        · exact hoff
      | _ =>
        obtain ⟨h1, _, _⟩ := step_frame sv _ out (by intro s u; simp) (by intro s; simp) hs
        rw [h1]
        exact hoff

/-- C18 as stated fails: alice connects on socket 10, socket 10 disconnects, alice connects
again on socket 11; running the disconnect handler of socket 10 a second time then removes
alice's key from `connectedUsers`, although socket 11 is open. -/
theorem second_disconnect_removes_new_connection :
    (run (Server.start sampleDb) [.connection 10 1, .disconnect 10, .connection 11 1]).map
      (fun sv => (sv.connectedUsers, (disconnect sv 10 1).server.connectedUsers,
        (disconnect sv 10 1).server.connectionsOf 1)) =
      some (⟨[(1, 11)]⟩, ⟨[]⟩, [11]) := by
  decide

/-- C18, amended: running the disconnect handler of a connection leaves the presence
registry unchanged exactly when the connection's user is not a key of it.  So a second run
right after the first changes nothing in the whole server state, and a second run after any
events among which that user did not connect again leaves the registry unchanged; when the
user is a key again, the second run removes the key. -/
theorem disconnect_again (sv : Server) (socketId : SocketId) (userId : UserId) :
    ((disconnect sv socketId userId).server.connectedUsers = sv.connectedUsers ↔
      sv.connectedUsers.has userId = false) ∧
    (disconnect (disconnect sv socketId userId).server socketId userId).server =
      (disconnect sv socketId userId).server ∧
    (∀ evs sv2, run (disconnect sv socketId userId).server evs = some sv2 →
      (∀ s, Inbound.connection s userId ∉ evs) →
      (disconnect sv2 socketId userId).server.connectedUsers = sv2.connectedUsers) ∧
    (disconnect sv socketId userId).server.connectedUsers.has userId = false := by
  refine ⟨UserMap.delete_eq_self_iff sv.connectedUsers userId, ?_, ?_,
    UserMap.has_delete_self sv.connectedUsers userId⟩
  · simp [disconnect, UserMap.delete, List.filter_filter]
  · intro evs sv2 hrun hno
    have hoff := offline_run userId evs (disconnect sv socketId userId).server sv2
      (UserMap.has_delete_self sv.connectedUsers userId) hno hrun
    exact (UserMap.delete_eq_self_iff sv2.connectedUsers userId).mpr hoff

/-- Witness for C18: after alice left socket 10, bob leaves socket 20 and connects on 21; the
second run of socket 10's disconnect handler leaves the registry as it is. -/
theorem disconnect_again_witness :
    run (disconnect sampleOnline 10 1).server [.disconnect 20, .connection 21 2] =
      some sampleBobReconnected ∧
    (∀ s, Inbound.connection s 1 ∉ [Inbound.disconnect 20, Inbound.connection 21 2]) ∧
    (disconnect sampleBobReconnected 10 1).server.connectedUsers =
      sampleBobReconnected.connectedUsers :=
  have hno : ∀ s, Inbound.connection s 1 ∉ [Inbound.disconnect 20, Inbound.connection 21 2] := by
    intro s hin
    simp at hin
  ⟨by decide, hno,
    (disconnect_again sampleOnline 10 1).2.2.1 [.disconnect 20, .connection 21 2]
      sampleBobReconnected (by decide) hno⟩

/-! ## C19 -/

/-- C19: `leave_conversation` removes the pair of the socket and the conversation's room
from the room membership and nothing else; it leaves the database, the registry and the
sockets as they were; it runs the same way whatever the state of the store, also with no
store at all; it emits nothing, so no `error`; when the socket was not in the room the whole
server state is unchanged; and running it twice is the same as running it once. -/
theorem leave_conversation_always (sv : Server) (socketId : SocketId)
    (conversationId : ConversationId) :
    (∀ x r, (x, r) ∈ (leave_conversation sv socketId conversationId).server.rooms ↔
      (x, r) ∈ sv.rooms ∧ ¬ (x = socketId ∧ r = Room.conversation conversationId)) ∧
    (leave_conversation sv socketId conversationId).server.db = sv.db ∧
    (leave_conversation sv socketId conversationId).server.connectedUsers =
      sv.connectedUsers ∧
    (leave_conversation sv socketId conversationId).server.sockets = sv.sockets ∧
    (∀ db2,
      (leave_conversation { sv with db := db2 } socketId conversationId).server.rooms =
        (leave_conversation sv socketId conversationId).server.rooms ∧
      (leave_conversation { sv with db := db2 } socketId conversationId).trace =
        (leave_conversation sv socketId conversationId).trace) ∧
    emissions (leave_conversation sv socketId conversationId).trace = [] ∧
    ((socketId, Room.conversation conversationId) ∉ sv.rooms →
      (leave_conversation sv socketId conversationId).server = sv) ∧
    (leave_conversation (leave_conversation sv socketId conversationId).server socketId
      conversationId).server = (leave_conversation sv socketId conversationId).server := by
  refine ⟨?_, rfl, rfl, rfl, fun _ => ⟨rfl, rfl⟩, rfl, ?_, ?_⟩
  · intro x r
    simp only [leave_conversation, Server.leaveRoom, List.mem_filter, Bool.not_eq_true',
      Bool.and_eq_false_iff, beq_eq_false_iff_ne, ne_eq, not_and]
    constructor
    · rintro ⟨hin, h1 | h1⟩
      · exact ⟨hin, fun hx => absurd hx h1⟩
      · exact ⟨hin, fun _ => h1⟩
    · rintro ⟨hin, himp⟩
      by_cases hx : x = socketId
      · exact ⟨hin, Or.inr (himp hx)⟩
      · exact ⟨hin, Or.inl hx⟩
  · intro hnot
    have hall : ∀ e ∈ sv.rooms,
        (!(e.1 == socketId && e.2 == Room.conversation conversationId)) = true := by
      intro e he
      by_cases h1 : e.1 = socketId
      · by_cases h2 : e.2 = Room.conversation conversationId
        · exfalso
          apply hnot
          rw [← h1, ← h2]
          exact he
        · simp [h2]
      · simp [h1]
    simp only [leave_conversation, Server.leaveRoom]
    rw [List.filter_eq_self.mpr hall]
  · simp [leave_conversation, Server.leaveRoom, List.filter_filter]

/-- Witness for C19: alice (socket 10) leaves room 8, which she never joined. -/
theorem leave_conversation_always_witness :
    (10, Room.conversation 8) ∉ sampleOnline.rooms ∧
    (leave_conversation sampleOnline 10 8).server = sampleOnline ∧
    (leave_conversation sampleOnline 10 7).server.rooms =
      [(10, Room.socket 10), (20, Room.socket 20), (20, Room.conversation 7)] :=
  ⟨by decide, (leave_conversation_always sampleOnline 10 8).2.2.2.2.2.2.1 (by decide),
    by decide⟩

/-! ## C20 -/

theorem Database.markConversationRead_messages (d : Database) (c : ConversationId)
    (u : UserId) :
    (d.markConversationRead c u).messages =
      d.messages.map
        (fun m => if m.conversation_id = c ∧ m.sender_id ≠ u
                  then { m with status := Status.read } else m) := by
  unfold Database.markConversationRead
  simp only
  apply List.map_congr_left
  intro m _
  by_cases h1 : m.conversation_id = c ∧ m.sender_id ≠ u
  · by_cases h2 : m.status = Status.read
    · have hm : ({ m with status := Status.read } : MessageRow) = m := by
        cases m
        simp only at h2
        simp [h2]
      have h3 : ¬ (m.conversation_id = c ∧ m.sender_id ≠ u ∧ m.status ≠ Status.read) :=
        fun h => h.2.2 h2
      rw [if_pos h1, if_neg h3, hm]
    · have h3 : m.conversation_id = c ∧ m.sender_id ≠ u ∧ m.status ≠ Status.read :=
        ⟨h1.1, h1.2, h2⟩
      rw [if_pos h1, if_pos h3]
  · have h3 : ¬ (m.conversation_id = c ∧ m.sender_id ≠ u ∧ m.status ≠ Status.read) :=
      fun h => h1 ⟨h.1, h.2.1⟩
    rw [if_neg h1, if_neg h3]

/-- C20: when a participant `userId` of conversation `c` fetches its messages, through the
controller `getMessages` or through `ChatService.getMessages`, the store afterwards is the
store before with the bulk update applied, whatever `before` and `limit` are: row by row,
a message of `c` whose sender is not `userId` has status `read` and is otherwise as before,
and every other row (a message of `c` sent by `userId`, a message of another conversation)
is exactly as before; no other table changes. -/
theorem getMessages_marks_read (d : Database) (userId : UserId) (c : ConversationId)
    (before : Option Nat) (limit : Option Int) (limit2 : Int)
    (hp : d.isParticipant c userId = true) :
    (getMessages (some d) userId (some c) before limit).db =
      some (d.markConversationRead c userId) ∧
    (ChatService.getMessages (some d) c userId limit2 before).db =
      some (d.markConversationRead c userId) ∧
    (d.markConversationRead c userId).messages =
      d.messages.map
        (fun m => if m.conversation_id = c ∧ m.sender_id ≠ userId
                  then { m with status := Status.read } else m) ∧
    (∀ m ∈ (d.markConversationRead c userId).messages,
      m.conversation_id = c → m.sender_id ≠ userId → m.status = Status.read) ∧
    (∀ m ∈ d.messages, ¬ (m.conversation_id = c ∧ m.sender_id ≠ userId) →
      m ∈ (d.markConversationRead c userId).messages) ∧
    (d.markConversationRead c userId).users = d.users ∧
    (d.markConversationRead c userId).conversations = d.conversations ∧
    (d.markConversationRead c userId).conversation_participants =
      d.conversation_participants := by
  have hmsgs := Database.markConversationRead_messages d c userId
  refine ⟨?_, ?_, hmsgs, ?_, ?_, rfl, rfl, rfl⟩
  · simp [getMessages, getDb, hp]
  · simp [ChatService.getMessages, getDb, hp]
  · intro m hm hc hu
    rw [hmsgs, List.mem_map] at hm
    obtain ⟨m0, _, hm0⟩ := hm
    by_cases h : m0.conversation_id = c ∧ m0.sender_id ≠ userId
    · rw [if_pos h] at hm0
      rw [← hm0]
    · rw [if_neg h] at hm0
      rw [hm0] at h
      exact absurd ⟨hc, hu⟩ h
  · intro m hm hnot
    rw [hmsgs, List.mem_map]
    exact ⟨m, hm, by rw [if_neg hnot]⟩

/-- Witness for C20: bob fetches conversation 7 with `limit` 1 and `before` 1001; all of
alice's messages in conversation 7 are `read` afterwards, also message 4, which the query
did not return; bob's own message and carol's message in conversation 8 are as before. -/
theorem getMessages_marks_read_witness :
    sampleDbHistory.isParticipant 7 2 = true ∧
    (getMessages (some sampleDbHistory) 2 (some 7) (some 1001) (some 1)).response =
      .messages 200 [{ id := 1, conversation_id := 7, sender_id := 1, content := "hi",
                       status := Status.sent, created_at := 1000, sender_name := "alice" }] ∧
    ((getMessages (some sampleDbHistory) 2 (some 7) (some 1001) (some 1)).db.map
        (fun d => d.messages.map (fun m => (m.id, m.status)))) =
      some [(1, Status.read), (2, Status.delivered), (3, Status.sent), (4, Status.read)] ∧
    (getMessages (some sampleDbHistory) 2 (some 7) (some 1001) (some 1)).db =
      some (sampleDbHistory.markConversationRead 7 2) :=
  ⟨by decide, by decide, by decide,
    (getMessages_marks_read sampleDbHistory 2 7 (some 1001) (some 1) 50 (by decide)).1⟩

/-! ## C21 -/

theorem join_conversation_events (sv : Server) (s : SocketId) (u : UserId)
    (c : ConversationId) (e : Emitted) (h : e ∈ events (join_conversation sv s u c).trace) :
    e = .error "Not authorized to join this conversation" ∨
    e = .error "Failed to join conversation" := by
  unfold join_conversation at h
  revert h
  repeat' split
  all_goals simp only [events, List.filterMap_cons, List.filterMap_nil, Effect.event?,
    List.mem_cons, List.mem_singleton, List.not_mem_nil, or_false]
  all_goals first | (rintro rfl; simp) | simp

theorem send_message_events (sv : Server) (s : SocketId) (u : UserId) (c : ConversationId)
    (content : Option String) (e : Emitted)
    (h : e ∈ events (send_message sv s u c content).trace) :
    e = .message_error "Failed to send message" ∨
    (∃ id status, e = .message_sent id status) ∨ ∃ message, e = .new_message message := by
  unfold send_message send_message_failed at h
  dsimp only at h
  revert h
  repeat' split
  all_goals simp only [events, List.filterMap_cons, List.filterMap_nil, Effect.event?,
    List.mem_cons, List.mem_singleton, List.not_mem_nil, or_false, List.nil_append,
    List.cons_append]
  all_goals rintro (rfl | rfl) <;> simp

theorem message_delivered_events (sv : Server) (id : MessageId) (e : Emitted)
    (h : e ∈ events (message_delivered sv id).trace) :
    e = .message_status id Status.delivered := by
  unfold message_delivered at h
  dsimp only at h
  revert h
  repeat' split
  all_goals simp [events, Effect.event?]

theorem message_read_events (sv : Server) (id : MessageId) (e : Emitted)
    (h : e ∈ events (message_read sv id).trace) : e = .message_status id Status.read := by
  unfold message_read at h
  dsimp only at h
  revert h
  repeat' split
  all_goals simp [events, Effect.event?]

/-- C21 as stated fails: alice sends to conversation 8, which does not exist; the one event
emitted is `message_error`, its payload has the single key `error`, and it holds no text
under `message`. -/
theorem message_error_has_no_message_field :
    (events (send_message sampleOnline 10 1 8 (some "hi")).trace).map
      (fun e => (e.eventName, e.payloadFields, e.textField "message", e.textField "error")) =
      [("message_error", ["error"], none, some "Failed to send message")] := by
  decide

/-- C21, amended: for every inbound event, an event emitted under the name `error` has the
payload shape `{ message }`, the description being one of the two texts of
`join_conversation`; an event emitted under the name `message_error` has the payload shape
`{ error }`, holding the description `Failed to send message`, and no `message` field. -/
theorem failure_payloads (sv : Server) (ev : Inbound) (out : Outcome) (e : Emitted)
    (hstep : step sv ev = some out) (hin : e ∈ events out.trace) :
    (e.eventName = "error" →
      e.payloadFields = ["message"] ∧
      (e.textField "message" = some "Not authorized to join this conversation" ∨
        e.textField "message" = some "Failed to join conversation")) ∧
    (e.eventName = "message_error" →
      e.payloadFields = ["error"] ∧ e.textField "error" = some "Failed to send message" ∧
      e.textField "message" = none) := by
  cases ev with
  | connection s u =>
    simp only [step] at hstep
    cases hu : sv.userOf s with
    | some u2 => simp [hu] at hstep
    | none =>
      simp only [hu, Option.some.injEq] at hstep
      subst hstep
      simp [connection, events, Effect.event?] at hin
  | disconnect s =>
    simp only [step, Option.map_eq_some'] at hstep
    obtain ⟨u, _, rfl⟩ := hstep
    simp [disconnect, events, Effect.event?] at hin
  | join_conversation s c =>
    simp only [step, Option.map_eq_some'] at hstep
    obtain ⟨u, _, rfl⟩ := hstep
    rcases join_conversation_events sv s u c e hin with rfl | rfl <;>
      simp [Emitted.eventName, Emitted.payloadFields, Emitted.textField]
  | leave_conversation s c =>
    simp only [step, Option.map_eq_some'] at hstep
    obtain ⟨u, _, rfl⟩ := hstep
    simp [leave_conversation, events, Effect.event?] at hin
  | send_message s c content =>
    simp only [step, Option.map_eq_some'] at hstep
    obtain ⟨u, _, rfl⟩ := hstep
    rcases send_message_events sv s u c content e hin with rfl | ⟨id, st, rfl⟩ | ⟨m, rfl⟩ <;>
      simp [Emitted.eventName, Emitted.payloadFields, Emitted.textField]
  | message_delivered s id =>
    simp only [step, Option.map_eq_some'] at hstep
    obtain ⟨u, _, rfl⟩ := hstep
    rw [message_delivered_events sv id e hin]
    simp [Emitted.eventName]
  | message_read s id =>
    simp only [step, Option.map_eq_some'] at hstep
    obtain ⟨u, _, rfl⟩ := hstep
    rw [message_read_events sv id e hin]
    simp [Emitted.eventName]
  | typing_start s c =>
    simp only [step, Option.map_eq_some'] at hstep
    obtain ⟨u, _, rfl⟩ := hstep
    simp only [typing_start, events, List.filterMap_cons, Effect.event?, List.filterMap_nil,
      List.mem_singleton] at hin
    rw [hin]
    simp [Emitted.eventName]
  | typing_stop s c =>
    simp only [step, Option.map_eq_some'] at hstep
    obtain ⟨u, _, rfl⟩ := hstep
    simp only [typing_stop, events, List.filterMap_cons, Effect.event?, List.filterMap_nil,
      List.mem_singleton] at hin
    rw [hin]
    simp [Emitted.eventName]
  | http update =>
    simp only [step, Option.some.injEq] at hstep
    subst hstep
    simp [events] at hin

/-- Witness for C21: alice's send to the missing conversation 8 and bob's join of
conversation 8, to which he does not belong. -/
theorem failure_payloads_witness :
    step sampleOnline (.send_message 10 8 (some "hi")) =
      some (send_message sampleOnline 10 1 8 (some "hi")) ∧
    Emitted.message_error "Failed to send message" ∈
      events (send_message sampleOnline 10 1 8 (some "hi")).trace ∧
    (Emitted.message_error "Failed to send message").payloadFields = ["error"] ∧
    step sampleOnline (.join_conversation 20 8) =
      some (join_conversation sampleOnline 20 2 8) ∧
    Emitted.error "Not authorized to join this conversation" ∈
      events (join_conversation sampleOnline 20 2 8).trace ∧
    (Emitted.error "Not authorized to join this conversation").payloadFields =
      ["message"] :=
  ⟨by decide, by decide,
    ((failure_payloads sampleOnline (.send_message 10 8 (some "hi"))
      (send_message sampleOnline 10 1 8 (some "hi"))
      (.message_error "Failed to send message") (by decide) (by decide)).2 rfl).1,
    by decide, by decide,
    ((failure_payloads sampleOnline (.join_conversation 20 8)
      (join_conversation sampleOnline 20 2 8)
      (.error "Not authorized to join this conversation") (by decide) (by decide)).1 rfl).1⟩

/-! ## C22 -/

/-- No inbound event writes the module-level `connectedUsers`. -/
theorem step_module_map (sv : Server) (ev : Inbound) (out : Outcome)
    (h : step sv ev = some out) :
    out.server.moduleConnectedUsers = sv.moduleConnectedUsers := by
  cases ev with
  | connection s u =>
    simp only [step] at h
    cases hu : sv.userOf s with
    | some u2 => simp [hu] at h
    | none =>
      simp only [hu, Option.some.injEq] at h
      subst h
      rfl
  | disconnect s =>
    simp only [step, Option.map_eq_some'] at h
    obtain ⟨u, _, rfl⟩ := h
    rfl
  | join_conversation s c =>
    simp only [step, Option.map_eq_some'] at h
    obtain ⟨u, _, rfl⟩ := h
    unfold join_conversation Server.joinRoom
    repeat' split
    all_goals rfl
  | leave_conversation s c =>
    simp only [step, Option.map_eq_some'] at h
    obtain ⟨u, _, rfl⟩ := h
    rfl
  | send_message s c content =>
    simp only [step, Option.map_eq_some'] at h
    obtain ⟨u, _, rfl⟩ := h
    unfold send_message send_message_failed
    dsimp only
    repeat' split
    all_goals rfl
  | message_delivered s id =>
    simp only [step, Option.map_eq_some'] at h
    obtain ⟨u, _, rfl⟩ := h
    unfold message_delivered
    dsimp only
    repeat' split
    all_goals rfl
  | message_read s id =>
    simp only [step, Option.map_eq_some'] at h
    obtain ⟨u, _, rfl⟩ := h
    unfold message_read
    dsimp only
    repeat' split
    all_goals rfl
  | typing_start s c =>
    simp only [step, Option.map_eq_some'] at h
    obtain ⟨u, _, rfl⟩ := h
    rfl
  | typing_stop s c =>
    simp only [step, Option.map_eq_some'] at h
    obtain ⟨u, _, rfl⟩ := h
    rfl
  | http update =>
    simp only [step, Option.some.injEq] at h
    subst h
    rfl

theorem run_module_map (evs : List Inbound) (sv sv2 : Server) (h : run sv evs = some sv2) :
    sv2.moduleConnectedUsers = sv.moduleConnectedUsers := by
  induction evs generalizing sv with
  | nil =>
    simp only [run, Option.some.injEq] at h
    rw [h]
  | cons ev rest ih =>
    simp only [run] at h
    cases hs : step sv ev with
    | none => simp [hs] at h
    | some out =>
      rw [hs] at h
      rw [ih out.server h, step_module_map sv ev out hs]

/-- C22: after every sequence of inbound events the `connectedUsers` map that the module
exports is still empty; a connection attempt, refused or accepted, does not write it
either; registrations and removals act on the map created inside `setupSocketHandlers`: an
accepted connection stores its socket id there under its user, and a disconnect removes the
user's key there. -/
theorem exported_map_stays_empty (d : Database) (evs : List Inbound) (sv : Server)
    (h : run (Server.start d) evs = some sv) :
    sv.moduleConnectedUsers = UserMap.empty ∧
    (∀ verify socketId handshake,
      (connect verify sv socketId handshake).server.moduleConnectedUsers = UserMap.empty) ∧
    (∀ socketId userId,
      (connection sv socketId userId).server.moduleConnectedUsers = UserMap.empty ∧
      (connection sv socketId userId).server.connectedUsers.get userId = some socketId) ∧
    (∀ socketId userId,
      (disconnect sv socketId userId).server.moduleConnectedUsers = UserMap.empty ∧
      (disconnect sv socketId userId).server.connectedUsers.has userId = false) := by
  have hempty : sv.moduleConnectedUsers = UserMap.empty :=
    run_module_map evs (Server.start d) sv h
  refine ⟨hempty, ?_, ?_, ?_⟩
  · intro verify socketId handshake
    unfold connect
    split
    · exact hempty
    · exact hempty
  · intro socketId userId
    refine ⟨hempty, ?_⟩
    simp [connection, UserMap.get_set]
  · intro socketId userId
    exact ⟨hempty, UserMap.has_delete_self sv.connectedUsers userId⟩

/-- Witness for C22: alice and bob connect and join conversation 7; the inner map holds
both, the exported one is empty. -/
theorem exported_map_stays_empty_witness :
    run (Server.start sampleDb)
      [.connection 10 1, .connection 20 2, .join_conversation 20 7,
       .join_conversation 10 7] = some sampleOnline ∧
    sampleOnline.connectedUsers = ⟨[(2, 20), (1, 10)]⟩ ∧
    sampleOnline.moduleConnectedUsers = UserMap.empty :=
  ⟨by decide, rfl,
    (exported_map_stays_empty sampleDb
      [.connection 10 1, .connection 20 2, .join_conversation 20 7, .join_conversation 10 7]
      sampleOnline (by decide)).1⟩

/-! ## C23 -/

/-- C23: `send_message` looks neither at the sender's participation nor at the sender's
rooms.  For every socket, user and conversation, whenever the store accepts the insert (the
conversation and the user exist), a new row with that conversation, that sender and that
content is stored, and `new_message` carrying it is emitted to the room of the
conversation, to every socket in it; this holds as well when the sender has no participant
row for the conversation and the socket is not in the room: the same send with the
participants table emptied and the socket taken out of every room stores the same row, as
`sent`. -/
theorem send_message_no_participation_check (sv : Server) (socketId : SocketId)
    (userId : UserId) (conversationId : ConversationId) (text : String) (d : Database)
    (hdb : sv.db = some d)
    (hconv : d.conversations.any (fun x => x.id == conversationId) = true)
    (huser : d.users.any (fun x => x.id == userId) = true) :
    ∃ d2 status name,
      (send_message sv socketId userId conversationId (some text)).server.db = some d2 ∧
      d.findMessage d.nextMessageId = none ∧
      d2.findMessage d.nextMessageId =
        some { id := d.nextMessageId, conversation_id := conversationId,
               sender_id := userId, content := text, status := status,
               created_at := d.now } ∧
      Effect.emit (.room (Room.conversation conversationId))
          (sv.members (Room.conversation conversationId))
          (.new_message { id := d.nextMessageId, conversation_id := conversationId,
                          sender_id := userId, content := text, status := status,
                          created_at := d.now, sender_name := name }) ∈
        (send_message sv socketId userId conversationId (some text)).trace ∧
      (send_message { sv with
          db := some { d with conversation_participants := [] },
          rooms := sv.rooms.filter (fun e => e.1 != socketId) } socketId userId
        conversationId (some text)).server.db.map (fun x => x.messages) =
        some (d.messages ++
          [{ id := d.nextMessageId, conversation_id := conversationId, sender_id := userId,
             content := text, status := Status.sent, created_at := d.now }]) := by
  have hins := Database.insertMessage_ok d conversationId userId text Status.sent hconv huser
  obtain ⟨text2, name, htext, _, hsend⟩ :=
    send_message_ok sv socketId userId conversationId (some text) d _ _ hdb hins
  obtain ⟨text3, htext3, hfind⟩ :=
    Database.insertMessage_find_new d _ conversationId userId (some text) Status.sent _ hins
  cases htext
  cases htext3
  have hlast : (send_message { sv with
          db := some { d with conversation_participants := [] },
          rooms := sv.rooms.filter (fun e => e.1 != socketId) } socketId userId
        conversationId (some text)).server.db.map (fun x => x.messages) =
        some (d.messages ++
          [{ id := d.nextMessageId, conversation_id := conversationId, sender_id := userId,
             content := text, status := Status.sent, created_at := d.now }]) := by
    have hins2 := Database.insertMessage_ok { d with conversation_participants := [] }
      conversationId userId text Status.sent hconv huser
    obtain ⟨_, _, _, _, hsend2⟩ :=
      send_message_ok { sv with
          db := some { d with conversation_participants := [] },
          rooms := sv.rooms.filter (fun e => e.1 != socketId) } socketId userId
        conversationId (some text) { d with conversation_participants := [] } _ _ rfl hins2
    rw [hsend2]
    simp [Database.otherParticipants, Database.nextMessageId, Database.maxMessageId]
  rw [hsend]
  by_cases h : ((d.otherParticipants conversationId userId).filter
      (fun p => sv.connectedUsers.has p)).length > 0
  · rw [if_pos h]
    refine ⟨_, Status.delivered, name, rfl, Database.findMessage_next_none d, ?_, ?_, hlast⟩
    · rw [Database.findMessage_setStatus, hfind]
      simp
    · simp
  · rw [if_neg h]
    exact ⟨_, Status.sent, name, rfl, Database.findMessage_next_none d, hfind, by simp, hlast⟩

/-- Witness for C23: carol, who has no participant row for conversation 7 and whose socket
30 is not in its room, sends "psst" to conversation 7; the row is stored with carol as
sender and alice's socket 10, which is in the room, receives `new_message`. -/
theorem send_message_no_participation_check_witness :
    sampleDbCarol.isParticipant 7 3 = false ∧
    (30, Room.conversation 7) ∉ sampleCarolOutside.rooms ∧
    (send_message sampleCarolOutside 30 3 7 (some "psst")).trace =
      [.write (.insertMessage 7 3 (some "psst") Status.sent),
       .write (.setStatus 2 Status.delivered),
       .emit (.socket 30) [30] (.message_sent 2 Status.delivered),
       .emit (.room (Room.conversation 7)) [10]
         (.new_message { id := 2, conversation_id := 7, sender_id := 3, content := "psst",
                         status := Status.delivered, created_at := 1000,
                         sender_name := "carol" })] ∧
    ∃ d2 status name,
      (send_message sampleCarolOutside 30 3 7 (some "psst")).server.db = some d2 ∧
      sampleDbCarol.findMessage sampleDbCarol.nextMessageId = none ∧
      d2.findMessage sampleDbCarol.nextMessageId =
        some { id := sampleDbCarol.nextMessageId, conversation_id := 7, sender_id := 3,
               content := "psst", status := status, created_at := sampleDbCarol.now } ∧
      Effect.emit (.room (Room.conversation 7))
          (sampleCarolOutside.members (Room.conversation 7))
          (.new_message { id := sampleDbCarol.nextMessageId, conversation_id := 7,
                          sender_id := 3, content := "psst", status := status,
                          created_at := sampleDbCarol.now, sender_name := name }) ∈
        (send_message sampleCarolOutside 30 3 7 (some "psst")).trace :=
  have t := send_message_no_participation_check sampleCarolOutside 30 3 7 "psst"
    sampleDbCarol rfl (by decide) (by decide)
  ⟨by decide, by decide, by decide,
    t.elim fun d2 t2 => t2.elim fun status t3 => t3.elim fun name t4 =>
      ⟨d2, status, name, t4.1, t4.2.1, t4.2.2.1, t4.2.2.2.1⟩⟩

/-! ## C25 -/

theorem Database.getMessageWithSender_of_row (d : Database) (id : MessageId)
    (row : MessageRow) (hrow : d.findMessage id = some row)
    (hfk : d.users.any (fun u => u.id == row.sender_id) = true) :
    ∃ name, d.getMessageWithSender id =
      some { id := id, conversation_id := row.conversation_id, sender_id := row.sender_id,
             content := row.content, status := row.status, created_at := row.created_at,
             sender_name := name } := by
  have hid : row.id = id := by simpa using List.find?_some hrow
  unfold Database.getMessageWithSender
  rw [hrow]
  cases hu : d.users.find? (fun u => u.id == row.sender_id) with
  | none =>
    rw [List.find?_eq_none] at hu
    rw [List.any_eq_true] at hfk
    obtain ⟨x, hx, hxs⟩ := hfk
    exact absurd hxs (hu x hx)
  | some usr => exact ⟨usr.username, by simp [hid, hu]⟩

/-- C25: `ChatService.markMessageAsRead` throws `Message not found` when no message has the
id and `Not authorized to access this message` when the user has no participant row for
the message's conversation, leaving the database as it was in both cases; otherwise (the
sender of every message being a user, as the foreign key of the schema has it) it stores
`read` for that message, leaves the status of every message with another id as it was, and
returns the message with status `read`. -/
theorem markMessageAsRead_outcomes (d : Database) (messageId : MessageId) (userId : UserId) :
    (d.findMessage messageId = none →
      (ChatService.markMessageAsRead (some d) messageId userId).result =
        .error "Message not found" ∧
      (ChatService.markMessageAsRead (some d) messageId userId).db = some d) ∧
    (∀ row, d.findMessage messageId = some row →
      d.users.any (fun u => u.id == row.sender_id) = true →
      d.isParticipant row.conversation_id userId = false →
      (ChatService.markMessageAsRead (some d) messageId userId).result =
        .error "Not authorized to access this message" ∧
      (ChatService.markMessageAsRead (some d) messageId userId).db = some d) ∧
    (∀ row, d.findMessage messageId = some row →
      d.users.any (fun u => u.id == row.sender_id) = true →
      d.isParticipant row.conversation_id userId = true →
      (∃ name, (ChatService.markMessageAsRead (some d) messageId userId).result =
        .ok { id := messageId, conversation_id := row.conversation_id,
              sender_id := row.sender_id, content := row.content, status := Status.read,
              created_at := row.created_at, sender_name := name }) ∧
      (ChatService.markMessageAsRead (some d) messageId userId).db =
        some (d.setStatus messageId Status.read) ∧
      (d.setStatus messageId Status.read).statusOf messageId = some Status.read ∧
      ∀ id2, id2 ≠ messageId →
        (d.setStatus messageId Status.read).statusOf id2 = d.statusOf id2) := by
  refine ⟨?_, ?_, ?_⟩
  · intro hnone
    have hget : d.getMessageWithSender messageId = none := by
      unfold Database.getMessageWithSender
      rw [hnone]
    simp [ChatService.markMessageAsRead, Message.findById, getDb, hget]
  · intro row hrow hfk hp
    obtain ⟨name, hget⟩ := Database.getMessageWithSender_of_row d messageId row hrow hfk
    simp [ChatService.markMessageAsRead, Message.findById, getDb, hget, hp]
  · intro row hrow hfk hp
    obtain ⟨name, hget⟩ := Database.getMessageWithSender_of_row d messageId row hrow hfk
    refine ⟨⟨name, ?_⟩, ?_,
      Database.statusOf_setStatus_self d messageId Status.read row.status
        (Database.statusOf_of_findMessage d messageId row hrow),
      fun id2 hne => Database.statusOf_setStatus_other d messageId id2 Status.read hne⟩
    · simp [ChatService.markMessageAsRead, Message.findById, Message.updateStatus, getDb,
        hget, hp]
    · simp [ChatService.markMessageAsRead, Message.findById, Message.updateStatus, getDb,
        hget, hp]

/-- Witness for C25: message 99 does not exist; carol is no participant of conversation 7,
which holds message 1; bob is, and marks message 1 as read. -/
theorem markMessageAsRead_outcomes_witness :
    sampleDbHistory.findMessage 99 = none ∧
    (ChatService.markMessageAsRead (some sampleDbHistory) 99 2).result =
      .error "Message not found" ∧
    sampleDbHistory.isParticipant 7 3 = false ∧
    (ChatService.markMessageAsRead (some sampleDbHistory) 1 3).result =
      .error "Not authorized to access this message" ∧
    (ChatService.markMessageAsRead (some sampleDbHistory) 1 3).db = some sampleDbHistory ∧
    sampleDbHistory.isParticipant 7 2 = true ∧
    (ChatService.markMessageAsRead (some sampleDbHistory) 1 2).db =
      some (sampleDbHistory.setStatus 1 Status.read) ∧
    (sampleDbHistory.setStatus 1 Status.read).messages.map (fun m => (m.id, m.status)) =
      [(1, Status.read), (2, Status.delivered), (3, Status.sent), (4, Status.delivered)] :=
  have trow : sampleDbHistory.findMessage 1 =
      some { id := 1, conversation_id := 7, sender_id := 1, content := "hi",
             status := Status.sent, created_at := 1000 } := by decide
  ⟨by decide, ((markMessageAsRead_outcomes sampleDbHistory 99 2).1 (by decide)).1, by decide,
    ((markMessageAsRead_outcomes sampleDbHistory 1 3).2.1 _ trow (by decide) (by decide)).1,
    ((markMessageAsRead_outcomes sampleDbHistory 1 3).2.1 _ trow (by decide) (by decide)).2,
    by decide,
    ((markMessageAsRead_outcomes sampleDbHistory 1 2).2.2 _ trow (by decide) (by decide)).2.1,
    by decide⟩

/-! ## Facts about `createConversation` -/

theorem foldl_unique_mem (l acc : List UserId) (x : UserId) :
    x ∈ l.foldl (fun acc x => if x ∈ acc then acc else acc ++ [x]) acc ↔ x ∈ acc ∨ x ∈ l := by
  induction l generalizing acc with
  | nil => simp
  | cons a rest ih =>
    simp only [List.foldl_cons, ih, List.mem_cons]
    by_cases ha : a ∈ acc
    · rw [if_pos ha]
      constructor
      · rintro (h | h)
        · exact Or.inl h
        · exact Or.inr (Or.inr h)
      · rintro (h | h | h)
        · exact Or.inl h
        · exact Or.inl (h ▸ ha)
        · exact Or.inr h
    · rw [if_neg ha]
      simp only [List.mem_append, List.mem_singleton]
      constructor
      · rintro ((h | h) | h)
        · exact Or.inl h
        · exact Or.inr (Or.inl h)
        · exact Or.inr (Or.inr h)
      · rintro (h | h | h)
        · exact Or.inl (Or.inl h)
        · exact Or.inl (Or.inr h)
        · exact Or.inr h

theorem foldl_unique_nodup (l acc : List UserId) (h : acc.Nodup) :
    (l.foldl (fun acc x => if x ∈ acc then acc else acc ++ [x]) acc).Nodup := by
  induction l generalizing acc with
  | nil => exact h
  | cons a rest ih =>
    simp only [List.foldl_cons]
    apply ih
    by_cases ha : a ∈ acc
    · rw [if_pos ha]
      exact h
    · rw [if_neg ha]
      rw [List.nodup_append]
      refine ⟨h, List.nodup_singleton a, ?_⟩
      intro x hx hx2
      rw [List.mem_singleton] at hx2
      exact ha (hx2 ▸ hx)

theorem uniqueInOrder_mem (l : List UserId) (x : UserId) : x ∈ uniqueInOrder l ↔ x ∈ l := by
  unfold uniqueInOrder
  rw [foldl_unique_mem]
  simp

theorem uniqueInOrder_nodup (l : List UserId) : (uniqueInOrder l).Nodup :=
  foldl_unique_nodup l [] List.nodup_nil

theorem uniqueInOrder_append_singleton (l : List UserId) (c : UserId) :
    uniqueInOrder (l ++ [c]) = uniqueInOrder l ++ (if c ∈ l then [] else [c]) := by
  have hmem := uniqueInOrder_mem l c
  unfold uniqueInOrder at hmem ⊢
  rw [List.foldl_append]
  simp only [List.foldl_cons, List.foldl_nil]
  by_cases hc : c ∈ l
  · rw [if_pos (hmem.mpr hc), if_pos hc, List.append_nil]
  · rw [if_neg (fun h => hc (hmem.mp h)), if_neg hc]

theorem le_foldr_max_conversation_id (l : List ConversationRow) (c : ConversationRow)
    (h : c ∈ l) : c.id ≤ l.foldr (fun c acc => max c.id acc) 0 := by
  induction l with
  | nil => cases h
  | cons a rest ih =>
    simp only [List.foldr_cons]
    rcases List.mem_cons.mp h with h1 | h1
    · rw [h1]; exact Nat.le_max_left _ _
    · exact Nat.le_trans (ih h1) (Nat.le_max_right _ _)

theorem Database.lt_nextConversationId (d : Database) (c : ConversationRow)
    (h : c ∈ d.conversations) : c.id < d.nextConversationId := by
  have h1 : c.id ≤ d.maxConversationId := le_foldr_max_conversation_id d.conversations c h
  have h2 : d.maxConversationId ≤ max d.conversations_seq d.maxConversationId :=
    Nat.le_max_right _ _
  exact Nat.lt_succ_of_le (Nat.le_trans h1 h2)

theorem Database.insertParticipant_ok (d : Database) (c : ConversationId) (u : UserId)
    (hconv : d.conversations.any (fun x => x.id == c) = true)
    (huser : d.users.any (fun x => x.id == u) = true)
    (hnew : d.isParticipant c u = false) :
    d.insertParticipant c u =
      .ok { d with
            conversation_participants := d.conversation_participants ++
              [{ conversation_id := c, user_id := u }] } := by
  unfold Database.insertParticipant
  simp [hconv, huser, hnew]

theorem Database.insertParticipant_unknown_user (d : Database) (c : ConversationId)
    (u : UserId) (huser : d.users.any (fun x => x.id == u) = false) :
    ∃ e, d.insertParticipant c u = .error e := by
  unfold Database.insertParticipant
  by_cases hconv : d.conversations.any (fun x => x.id == c) = false
  · exact ⟨_, by rw [if_pos hconv]⟩
  · exact ⟨_, by rw [if_neg hconv, if_pos huser]⟩

theorem Database.insertParticipant_users (d d1 : Database) (c : ConversationId) (u : UserId)
    (h : d.insertParticipant c u = .ok d1) : d1.users = d.users := by
  unfold Database.insertParticipant at h
  split at h
  · cases h
  · split at h
    · cases h
    · split at h
      · cases h
      · simp only [Except.ok.injEq] at h
        rw [← h]

/-- The loop stores one row per id when every id is a user, no id repeats, and none is in
the conversation yet. -/
theorem insertParticipants_ok (c : ConversationId) (ids : List UserId) (d : Database)
    (hconv : d.conversations.any (fun x => x.id == c) = true)
    (husers : ∀ u ∈ ids, d.users.any (fun x => x.id == u) = true)
    (hnodup : ids.Nodup)
    (hnew : ∀ u ∈ ids, d.isParticipant c u = false) :
    insertParticipants d c ids =
      (ids.map (fun u => Sql.insert_participant c u),
        .ok { d with
              conversation_participants := d.conversation_participants ++
                ids.map (fun u => { conversation_id := c, user_id := u }) }) := by
  induction ids generalizing d with
  | nil => simp [insertParticipants]
  | cons u rest ih =>
    have hu := Database.insertParticipant_ok d c u hconv
      (husers u (List.mem_cons_self _ _)) (hnew u (List.mem_cons_self _ _))
    have hnd := List.nodup_cons.mp hnodup
    have hrest := ih
      { d with
        conversation_participants := d.conversation_participants ++
          [{ conversation_id := c, user_id := u }] }
      hconv (fun x hx => husers x (List.mem_cons_of_mem _ hx)) hnd.2
      (by
        intro x hx
        have hxu : x ≠ u := fun h => hnd.1 (h ▸ hx)
        have hold := hnew x (List.mem_cons_of_mem _ hx)
        unfold Database.isParticipant at hold ⊢
        simp only [List.any_append, hold, Bool.false_or, List.any_cons, List.any_nil,
          Bool.or_false, Bool.and_eq_false_iff, beq_eq_false_iff_ne, ne_eq]
        exact Or.inr (fun h => hxu h.symm))
    simp only [insertParticipants, hu, hrest, List.map_cons, List.append_assoc,
      List.singleton_append]

/-- The loop ends with an error when some id is not a user. -/
theorem insertParticipants_unknown_user (c : ConversationId) (ids : List UserId)
    (d : Database) (u : UserId) (hin : u ∈ ids)
    (huser : d.users.any (fun x => x.id == u) = false) :
    ∃ e, (insertParticipants d c ids).2 = .error e := by
  induction ids generalizing d with
  | nil => cases hin
  | cons a rest ih =>
    cases ha : d.insertParticipant c a with
    | error e => exact ⟨e, by simp [insertParticipants, ha]⟩
    | ok d1 =>
      have husers := Database.insertParticipant_users d d1 c a ha
      rcases List.mem_cons.mp hin with h1 | h1
      · subst h1
        obtain ⟨e, he⟩ := Database.insertParticipant_unknown_user d c u huser
        rw [he] at ha
        cases ha
      · obtain ⟨e, he⟩ := ih d1 h1 (by rw [husers]; exact huser)
        exact ⟨e, by simp [insertParticipants, ha, he]⟩

theorem Database.not_participant_of_next (d : Database)
    (hfk : ∀ p ∈ d.conversation_participants,
      d.conversations.any (fun c => c.id == p.conversation_id) = true)
    (u : UserId) : d.isParticipant d.nextConversationId u = false := by
  unfold Database.isParticipant
  rw [List.any_eq_false]
  intro p hp hmatch
  simp only [Bool.and_eq_true, beq_iff_eq] at hmatch
  have hany := hfk p hp
  rw [List.any_eq_true] at hany
  obtain ⟨c, hc, hcid⟩ := hany
  have hlt := Database.lt_nextConversationId d c hc
  have hceq : c.id = p.conversation_id := by simpa using hcid
  rw [hceq, hmatch.1] at hlt
  exact Nat.lt_irrefl _ hlt

theorem Database.find_new_conversation (d : Database) (row : ConversationRow)
    (hid : row.id = d.nextConversationId) :
    (d.conversations ++ [row]).find? (fun c => c.id == d.nextConversationId) = some row := by
  have hold : d.conversations.find? (fun c => c.id == d.nextConversationId) = none := by
    rw [List.find?_eq_none]
    intro c hc hcid
    have hlt := Database.lt_nextConversationId d c hc
    have hceq : c.id = d.nextConversationId := by simpa using hcid
    rw [hceq] at hlt
    exact Nat.lt_irrefl _ hlt
  rw [List.find?_append, hold, Option.none_or]
  simp [List.find?_cons, hid]

/-- A request the validation rejects: no statement is sent and the answer is 400. -/
theorem createConversation_invalid (d : Database) (creatorId : UserId)
    (body : CreateConversationBody)
    (h : truthy body.type = false ∨ (∀ ids, body.participantIds = .array ids → ids = []) ∨
      ∃ ids, body.type = some "direct" ∧ body.participantIds = .array ids ∧ ids.length ≠ 1) :
    ∃ text, createConversation (some d) creatorId body =
      some { db := d, statements := [], response := .error 400 text } := by
  unfold createConversation
  simp only [getDb]
  cases htype : body.type with
  | none => exact ⟨"Invalid input", by simp⟩
  | some type =>
    cases hids : body.participantIds with
    | missing => exact ⟨"Invalid input", by simp⟩
    | notArray => exact ⟨"Invalid input", by simp⟩
    | array ids =>
      simp only
      by_cases h1 : type = "" ∨ ids.length = 0
      · exact ⟨_, by rw [if_pos h1]⟩
      · rw [if_neg h1]
        by_cases h2 : type = "direct" ∧ ids.length ≠ 1
        · exact ⟨_, by rw [if_pos h2]⟩
        · exfalso
          rcases h with h | h | ⟨ids2, ht, hi, hl⟩
          · rw [htype] at h
            apply h1
            left
            simpa [truthy] using h
          · apply h1
            right
            rw [h ids hids]
            rfl
          · rw [htype] at ht
            rw [hids] at hi
            cases ht
            cases hi
            exact h2 ⟨rfl, hl⟩

/-- A request that passes the validation and whose statements the store accepts. -/
theorem createConversation_accepted (d : Database) (creatorId : UserId)
    (body : CreateConversationBody) (type : String) (ids : List UserId)
    (htype : body.type = some type) (hids : body.participantIds = .array ids)
    (hlen : ids ≠ []) (hdirect : type = "direct" → ids.length = 1)
    (hcheck : type = "direct" ∨ type = "group")
    (husers : ∀ u ∈ ids ++ [creatorId], d.users.any (fun x => x.id == u) = true)
    (hfk : ∀ p ∈ d.conversation_participants,
      d.conversations.any (fun c => c.id == p.conversation_id) = true) :
    ∃ out, createConversation (some d) creatorId body = some out ∧
      out.db.conversation_participants =
        d.conversation_participants ++
          (uniqueInOrder (ids ++ [creatorId])).map
            (fun u => { conversation_id := d.nextConversationId, user_id := u }) ∧
      out.db.conversations =
        d.conversations ++
          [{ id := d.nextConversationId,
             name := if truthy body.name then body.name else none, type := type }] ∧
      out.db.users = d.users ∧ out.db.messages = d.messages ∧
      out.statements =
        [.begin_transaction,
          .insert_conversation (if truthy body.name then body.name else none) type] ++
        (uniqueInOrder (ids ++ [creatorId])).map
          (fun u => Sql.insert_participant d.nextConversationId u) ++
        [.select_conversation d.nextConversationId,
          .select_participants d.nextConversationId, .commit] ∧
      (∃ participants, out.response =
        .created 201
          { id := d.nextConversationId,
            name := if truthy body.name then body.name else none, type := type }
          participants) := by
  have hne : type ≠ "" := by
    rcases hcheck with h | h <;> rw [h] <;> decide
  have h1 : ¬ (type = "" ∨ ids.length = 0) := by
    rintro (h | h)
    · exact hne h
    · exact hlen (List.length_eq_zero.mp h)
  have h2 : ¬ (type = "direct" ∧ ids.length ≠ 1) := fun h => h.2 (hdirect h.1)
  have hic : d.insertConversation (if truthy body.name then body.name else none) type =
      .ok ({ d with
              conversations := d.conversations ++
                [{ id := d.nextConversationId,
                   name := if truthy body.name then body.name else none, type := type }],
              conversations_seq := d.nextConversationId }, d.nextConversationId) := by
    unfold Database.insertConversation
    rw [if_pos hcheck]
  have hconv1 : (d.conversations ++
      [({ id := d.nextConversationId,
          name := if truthy body.name then body.name else none,
          type := type } : ConversationRow)]).any
        (fun x => x.id == d.nextConversationId) = true := by
    simp
  have hip := insertParticipants_ok d.nextConversationId (uniqueInOrder (ids ++ [creatorId]))
    { d with
      conversations := d.conversations ++
        [{ id := d.nextConversationId,
           name := if truthy body.name then body.name else none, type := type }],
      conversations_seq := d.nextConversationId }
    hconv1
    (fun u hu => husers u ((uniqueInOrder_mem _ u).mp hu))
    (uniqueInOrder_nodup _)
    (fun u _ => Database.not_participant_of_next d hfk u)
  have hfind := Database.find_new_conversation d
    { id := d.nextConversationId,
      name := if truthy body.name then body.name else none, type := type } rfl
  unfold createConversation
  simp only [getDb, htype, hids, if_neg h1, if_neg h2, hic, hip, hfind]
  exact ⟨_, rfl, rfl, rfl, rfl, rfl, rfl, _, rfl⟩

/-- A request that passes the validation and one of whose statements the store refuses. -/
theorem createConversation_refused (d : Database) (creatorId : UserId)
    (body : CreateConversationBody) (type : String) (ids : List UserId)
    (htype : body.type = some type) (hids : body.participantIds = .array ids)
    (hne : type ≠ "") (hlen : ids ≠ []) (hdirect : type = "direct" → ids.length = 1)
    (hrefused : ¬ (type = "direct" ∨ type = "group") ∨
      ∃ u ∈ ids ++ [creatorId], d.users.any (fun x => x.id == u) = false) :
    ∃ sent, createConversation (some d) creatorId body =
      some { db := d, statements := sent ++ [.rollback],
             response := .error 500 "Error creating conversation" } := by
  have h1 : ¬ (type = "" ∨ ids.length = 0) := by
    rintro (h | h)
    · exact hne h
    · exact hlen (List.length_eq_zero.mp h)
  have h2 : ¬ (type = "direct" ∧ ids.length ≠ 1) := fun h => h.2 (hdirect h.1)
  unfold createConversation
  simp only [getDb, htype, hids, if_neg h1, if_neg h2]
  by_cases hcheck : type = "direct" ∨ type = "group"
  · have hic : d.insertConversation (if truthy body.name then body.name else none) type =
        .ok ({ d with
                conversations := d.conversations ++
                  [{ id := d.nextConversationId,
                     name := if truthy body.name then body.name else none, type := type }],
                conversations_seq := d.nextConversationId }, d.nextConversationId) := by
      unfold Database.insertConversation
      rw [if_pos hcheck]
    rcases hrefused with h | ⟨u, hu, hunknown⟩
    · exact absurd hcheck h
    · obtain ⟨e, he⟩ := insertParticipants_unknown_user d.nextConversationId
        (uniqueInOrder (ids ++ [creatorId]))
        { d with
          conversations := d.conversations ++
            [{ id := d.nextConversationId,
               name := if truthy body.name then body.name else none, type := type }],
          conversations_seq := d.nextConversationId }
        u ((uniqueInOrder_mem _ u).mpr hu) hunknown
      simp only [hic]
      split
      · exact ⟨_, rfl⟩
      · rename_i heq
        have hsnd := congrArg Prod.snd heq
        rw [he] at hsnd
        cases hsnd
  · have hic : ∃ e, d.insertConversation (if truthy body.name then body.name else none)
        type = .error e := by
      unfold Database.insertConversation
      rw [if_neg hcheck]
      exact ⟨_, rfl⟩
    obtain ⟨e, he⟩ := hic
    simp only [he]
    exact ⟨_, rfl⟩

/-! ## C24 -/

/-- C24 as stated fails: alice (user 1) posts type `channel` with participantIds `[2]`, and
then type `direct` with participantIds `[99]`, an id that is no user.  Both requests pass the
two validations, so neither is answered 400.  In the first the `INSERT INTO conversations` is
refused by `CHECK(type IN ('direct', 'group'))`, in the second the `INSERT INTO
conversation_participants` is refused by the foreign key on `user_id`; the transaction is
rolled back, the tables are those of before, and the answer is 500: no participant row is
inserted and the creator is not a participant. -/
theorem createConversation_refused_inserts_nothing :
    createConversation (some sampleDb) 1 ⟨none, some "channel", .array [2]⟩ =
      some { db := sampleDb,
             statements := [.begin_transaction, .insert_conversation none "channel", .rollback],
             response := .error 500 "Error creating conversation" } ∧
    createConversation (some sampleDb) 1 ⟨none, some "direct", .array [99]⟩ =
      some { db := sampleDb,
             statements := [.begin_transaction, .insert_conversation none "direct",
                            .insert_participant 8 99, .rollback],
             response := .error 500 "Error creating conversation" } := by
  decide

/-- C24, amended: `createConversation`, in the controller and in `ChatService` alike, on an
initialised database whose participant rows all point to a stored conversation.  A request
with no type, with participantIds missing, not an array or empty, or with type `direct` and
participantIds of length other than 1, is answered 400 before any statement runs.  Every
other request opens a transaction.  When the store accepts every statement, that is, the type
is `direct` or `group` and every id in participantIds and the creator are users, the
participant rows inserted are, for the new conversation, the distinct elements of
participantIds in the order of their first occurrence, followed by the creator when the
creator is not among them: each id once, the creator included, and the answer is 201.  When
the store refuses a statement, because the type is neither `direct` nor `group` or because
one of the ids is no user, the transaction is rolled back, no row stays inserted and the
answer is 500. -/
theorem createConversation_participants (d : Database) (creatorId : UserId)
    (body : CreateConversationBody)
    (hfk : ∀ p ∈ d.conversation_participants,
      d.conversations.any (fun c => c.id == p.conversation_id) = true) :
    ChatService.createConversation (some d) creatorId body =
      createConversation (some d) creatorId body ∧
    ((truthy body.type = false ∨ (∀ ids, body.participantIds = .array ids → ids = []) ∨
        ∃ ids, body.type = some "direct" ∧ body.participantIds = .array ids ∧
          ids.length ≠ 1) →
      ∃ text, createConversation (some d) creatorId body =
        some { db := d, statements := [], response := .error 400 text }) ∧
    (∀ type ids, body.type = some type → body.participantIds = .array ids → type ≠ "" →
      ids ≠ [] → (type = "direct" → ids.length = 1) →
      ((type = "direct" ∨ type = "group") →
        (∀ u ∈ ids ++ [creatorId], d.users.any (fun x => x.id == u) = true) →
        ∃ out, createConversation (some d) creatorId body = some out ∧
          out.db.conversation_participants =
            d.conversation_participants ++
              (uniqueInOrder ids ++ (if creatorId ∈ ids then [] else [creatorId])).map
                (fun u => { conversation_id := d.nextConversationId, user_id := u }) ∧
          (uniqueInOrder ids ++ (if creatorId ∈ ids then [] else [creatorId])).Nodup ∧
          (∀ u, u ∈ uniqueInOrder ids ++ (if creatorId ∈ ids then [] else [creatorId]) ↔
            u ∈ ids ∨ u = creatorId) ∧
          out.db.isParticipant d.nextConversationId creatorId = true ∧
          out.statements =
            [.begin_transaction,
              .insert_conversation (if truthy body.name then body.name else none) type] ++
            (uniqueInOrder ids ++ (if creatorId ∈ ids then [] else [creatorId])).map
              (fun u => Sql.insert_participant d.nextConversationId u) ++
            [.select_conversation d.nextConversationId,
              .select_participants d.nextConversationId, .commit] ∧
          ∃ participants, out.response =
            .created 201
              { id := d.nextConversationId,
                name := if truthy body.name then body.name else none, type := type }
              participants) ∧
      ((¬ (type = "direct" ∨ type = "group") ∨
          ∃ u ∈ ids ++ [creatorId], d.users.any (fun x => x.id == u) = false) →
        ∃ sent, createConversation (some d) creatorId body =
          some { db := d, statements := sent ++ [.rollback],
                 response := .error 500 "Error creating conversation" })) := by
  refine ⟨rfl, createConversation_invalid d creatorId body, ?_⟩
  intro type ids htype hids hne hlen hdirect
  refine ⟨?_, createConversation_refused d creatorId body type ids htype hids hne hlen hdirect⟩
  intro hcheck husers
  obtain ⟨out, hout, hrows, _, _, _, hstmts, hresp⟩ :=
    createConversation_accepted d creatorId body type ids htype hids hlen hdirect hcheck
      husers hfk
  have hall := uniqueInOrder_append_singleton ids creatorId
  have hmem : ∀ u, u ∈ uniqueInOrder ids ++ (if creatorId ∈ ids then [] else [creatorId]) ↔
      u ∈ ids ∨ u = creatorId := by
    intro u
    rw [← hall, uniqueInOrder_mem, List.mem_append, List.mem_singleton]
  refine ⟨out, hout, ?_, ?_, hmem, ?_, ?_, hresp⟩
  · rw [← hall]
    exact hrows
  · rw [← hall]
    exact uniqueInOrder_nodup _
  · unfold Database.isParticipant
    rw [hrows, List.any_append, Bool.or_eq_true]
    right
    rw [List.any_eq_true]
    refine ⟨{ conversation_id := d.nextConversationId, user_id := creatorId }, ?_, by simp⟩
    rw [List.mem_map]
    exact ⟨creatorId, (uniqueInOrder_mem _ _).mpr (by simp), rfl⟩
  · rw [← hall]
    exact hstmts

/-- Witness for C24: alice (user 1) creates a group with participantIds `[2, 1, 2]`; the rows
inserted for the new conversation 8 are those of bob and alice, once each. -/
theorem createConversation_participants_witness :
    (∀ p ∈ sampleDb.conversation_participants,
      sampleDb.conversations.any (fun c => c.id == p.conversation_id) = true) ∧
    ∃ out, createConversation (some sampleDb) 1 ⟨some "", some "group", .array [2, 1, 2]⟩ =
        some out ∧
      out.db.conversation_participants =
        sampleDb.conversation_participants ++
          [{ conversation_id := 8, user_id := 2 }, { conversation_id := 8, user_id := 1 }] ∧
      out.db.isParticipant 8 1 = true :=
  have t := ((createConversation_participants sampleDb 1
    ⟨some "", some "group", .array [2, 1, 2]⟩ (by decide)).2.2 "group" [2, 1, 2] rfl rfl
    (by decide) (by decide) (by decide)).1 (by decide) (by decide)
  ⟨by decide, t.elim (fun out h => ⟨out, h.1, h.2.1, h.2.2.2.2.1⟩)⟩

end Chatzy
